import Mathlib

/-! # Chirpy HTTP server: credential and session core

A shallow embedding of `internal/auth/auth.go`, of the handlers of
`internal/handlers` that issue, refresh, revoke and check credentials, of the
handlers that create, list and delete chirps and reset the metrics, of the
text filter of `internal/helpers`, and of the library routines they call,
followed by the properties of the credential path and of those handlers.

Conventions of the embedding

* A Go `string` is a sequence of bytes (`GoString`), not necessarily valid
  UTF-8; `len` is `List.length`.
* A Go result pair `(value, error)` is a Lean pair whose second component is an
  `Option`: `none` is the `nil` error.
* Clock readings and outcomes of the random source are explicit arguments: an
  instant is a number of nanoseconds since the Unix epoch, and it is
  formatted in UTC.
* Library data that the program never inspects byte by byte (the case table of
  package `unicode`, the digest functions, the JSON/base64 serialisation of a
  token) is taken as a parameter.
* A handler is a function from the request and the state of the store to the
  response, the new state of the store and the list of store calls it made.
  An index or slice expression that can panic is a checked operation.
-/

namespace Chirpy

set_option maxRecDepth 100000

/-! ## Go strings -/

/-- A Go string: its bytes, each in `0 .. 255`. -/
abbrev GoString := List Nat

/-- Replacement character `utf8.RuneError` (U+FFFD). -/
def RuneError : Nat := 0xFFFD

/-- Bytes written by `utf8.AppendRune` for a non-negative rune: one to four
bytes, with surrogates and values above U+10FFFF replaced by U+FFFD. -/
def encodeRune (r : Nat) : GoString :=
  if r ≤ 0x7F then [r]
  else if r ≤ 0x7FF then [0xC0 ||| (r >>> 6), 0x80 ||| (r &&& 0x3F)]
  else if r > 0x10FFFF ∨ (0xD800 ≤ r ∧ r ≤ 0xDFFF) then [0xEF, 0xBF, 0xBD]
  else if r ≤ 0xFFFF then
    [0xE0 ||| (r >>> 12), 0x80 ||| ((r >>> 6) &&& 0x3F), 0x80 ||| (r &&& 0x3F)]
  else
    [0xF0 ||| (r >>> 18), 0x80 ||| ((r >>> 12) &&& 0x3F),
     0x80 ||| ((r >>> 6) &&& 0x3F), 0x80 ||| (r &&& 0x3F)]

/-- The Go string denoted by a source literal: the UTF-8 bytes of its text. -/
def str (s : String) : GoString :=
  s.toList.flatMap (fun c => encodeRune c.toNat)

/-- Continuation byte test of package `utf8` (`locb .. hicb`). -/
def isCont (b : Nat) : Bool := decide (0x80 ≤ b ∧ b ≤ 0xBF)

/-- Decoder `utf8.DecodeRuneInString`: the first rune of `s` and its width in
bytes; an invalid or truncated sequence gives `(RuneError, 1)`, the empty
string `(RuneError, 0)`. -/
def DecodeRuneInString (s : GoString) : Nat × Nat :=
  match s with
  | [] => (RuneError, 0)
  | s0 :: rest =>
    if s0 < 0x80 then (s0, 1)
    else if s0 < 0xC2 ∨ 0xF4 < s0 then (RuneError, 1)
    else if s0 ≤ 0xDF then
      match rest with
      | s1 :: _ => if isCont s1 then (((s0 &&& 0x1F) <<< 6) ||| (s1 &&& 0x3F), 2) else (RuneError, 1)
      | _ => (RuneError, 1)
    else if s0 ≤ 0xEF then
      match rest with
      | s1 :: s2 :: _ =>
        let lo := if s0 = 0xE0 then 0xA0 else 0x80
        let hi := if s0 = 0xED then 0x9F else 0xBF
        if s1 < lo ∨ hi < s1 then (RuneError, 1)
        else if !isCont s2 then (RuneError, 1)
        else (((s0 &&& 0x0F) <<< 12) ||| ((s1 &&& 0x3F) <<< 6) ||| (s2 &&& 0x3F), 3)
      | _ => (RuneError, 1)
    else
      match rest with
      | s1 :: s2 :: s3 :: _ =>
        let lo := if s0 = 0xF0 then 0x90 else 0x80
        let hi := if s0 = 0xF4 then 0x8F else 0xBF
        if s1 < lo ∨ hi < s1 then (RuneError, 1)
        else if !isCont s2 then (RuneError, 1)
        else if !isCont s3 then (RuneError, 1)
        else (((s0 &&& 0x07) <<< 18) ||| ((s1 &&& 0x3F) <<< 12) |||
              ((s2 &&& 0x3F) <<< 6) ||| (s3 &&& 0x3F), 4)
      | _ => (RuneError, 1)

/-- The runes a `for _, c := range s` loop visits, in order.  The fuel bounds
the number of iterations; `s.length` is always enough because every step
consumes at least one byte. -/
def rangeRunes : Nat → GoString → List Nat
  | 0, _ => []
  | _, [] => []
  | fuel + 1, s =>
    let d := DecodeRuneInString s
    d.1 :: rangeRunes fuel (s.drop (max d.2 1))

/-- Count `utf8.RuneCountInString`: the number of runes of `s`, an invalid
byte counting as one rune. -/
def RuneCountInString (s : GoString) : Nat := (rangeRunes s.length s).length

/-- One entry of `unicode.CaseRanges`: the code points `Lo .. Hi` and the
deltas to add for upper, lower and title case. -/
structure CaseRange where
  Lo : Nat
  Hi : Nat
  Delta : Int × Int × Int
  deriving DecidableEq, Repr

/-- Marker `unicode.UpperLower` used as a delta in alternating
upper/lower sequences. -/
def UpperLower : Int := 0x10FFFF + 1

/-- Binary search `unicode.to` for `_case = LowerCase` over a case table:
the mapped rune, or `r` itself when no range contains it. -/
def toLowerIn (caseRange : List CaseRange) (r : Nat) : Nat → Nat → Nat → Nat
  | 0, _, _ => r
  | fuel + 1, lo, hi =>
    if lo < hi then
      let m := (lo + hi) >>> 1
      match caseRange.get? m with
      | none => r
      | some cr =>
        if cr.Lo ≤ r ∧ r ≤ cr.Hi then
          let delta := cr.Delta.2.1
          if delta > 0x10FFFF then cr.Lo + ((((r - cr.Lo) >>> 1) <<< 1) ||| 1)
          else ((r : Int) + delta).toNat
        else if r < cr.Lo then toLowerIn caseRange r fuel lo m
        else toLowerIn caseRange r fuel (m + 1) hi
    else r

/-- Rune mapping `unicode.ToLower`, over the case table `CaseRanges`. -/
def unicodeToLower (CaseRanges : List CaseRange) (r : Nat) : Nat :=
  if r ≤ 0x7F then
    if 0x41 ≤ r ∧ r ≤ 0x5A then r + 0x20 else r
  else toLowerIn CaseRanges r (CaseRanges.length + 1) 0 CaseRanges.length

/-- String mapping `strings.Map` for a mapping that never drops a rune: every
rune of `s` (an invalid byte counts as U+FFFD) is replaced by the encoding of
its image. -/
def Map (mapping : Nat → Nat) (s : GoString) : GoString :=
  (rangeRunes s.length s).flatMap (fun c => encodeRune (mapping c))

/-- Lower case of one ASCII byte: `c += 'a' - 'A'` for `'A' <= c <= 'Z'`. -/
def lowerByte (c : Nat) : Nat :=
  if 0x41 ≤ c ∧ c ≤ 0x5A then c + 0x20 else c

/-- Lower-casing `strings.ToLower`: ASCII-only strings are lower-cased byte
by byte, every other string goes through `Map(unicode.ToLower, s)`. -/
def ToLower (CaseRanges : List CaseRange) (s : GoString) : GoString :=
  if s.all (fun c => decide (c < 0x80)) then s.map lowerByte
  else Map (unicodeToLower CaseRanges) s

/-- Three consecutive entries of the table `unicode.CaseRanges`, those of the
letterlike symbols U+2126 OHM SIGN, U+212A KELVIN SIGN and U+212B ANGSTROM
SIGN, whose lower-case forms are U+03C9, U+006B and U+00E5. -/
def letterlikeCaseRanges : List CaseRange :=
  [ { Lo := 0x2126, Hi := 0x2126, Delta := (0, -7517, 0) },
    { Lo := 0x212A, Hi := 0x212A, Delta := (0, -8383, 0) },
    { Lo := 0x212B, Hi := 0x212B, Delta := (0, -8262, 0) } ]

/-- Search `strings.IndexByte`: the position of the first occurrence of the
byte `c` in `s`; `none` stands for the result -1. -/
def IndexByte (s : GoString) (c : Nat) : Option Nat :=
  match s with
  | [] => none
  | x :: xs => if x = c then some 0 else (IndexByte xs c).map (fun i => i + 1)

/-- The loop of `strings.genSplit` for a separator of one byte: at most `n`
times, cut `s` at the first separator; the rest is the last part. -/
def genSplit (sep : Nat) : Nat → GoString → List GoString
  | 0, s => [s]
  | n + 1, s =>
    match IndexByte s sep with
    | none => [s]
    | some m => s.take m :: genSplit sep n (s.drop (m + 1))

/-- Splitting `strings.Split(s, sep)` for a separator of one byte, the only
kind the program passes: the parts of `s` between consecutive occurrences of
`sep`, one more than `strings.Count(s, sep)`. -/
def Split (s : GoString) (sep : Nat) : List GoString :=
  genSplit sep (s.count sep) s

/-- Joining `strings.Join(parts, sep)` for a separator of one byte. -/
def Join (parts : List GoString) (sep : Nat) : GoString :=
  match parts with
  | [] => []
  | p :: ps => p ++ ps.flatMap (fun q => sep :: q)

/-- One byte compared with another up to the case of ASCII letters. -/
def sameLetter (a b : Nat) : Bool :=
  decide (a = b) || decide (0x41 ≤ a ∧ a ≤ 0x5A ∧ b = a + 0x20) ||
    decide (0x41 ≤ b ∧ b ≤ 0x5A ∧ a = b + 0x20)

/-- Two strings that are equal when the case of ASCII letters is ignored:
same length, and byte by byte either equal or the upper- and lower-case form
of one ASCII letter. -/
def equalIgnoringCase : GoString → GoString → Bool
  | [], [] => true
  | a :: s, b :: t => sameLetter a b && equalIgnoringCase s t
  | _, _ => false

/-! ## HTTP headers -/

/-- The map `http.Header`: the list of values stored under a canonical key
(`[]` for a key that is not present). -/
abbrev Header := GoString → List GoString

/-- Lookup `http.Header.Get`: the first value stored under the key, or the
empty string.  The only key queried, "Authorization", is already in canonical
form. -/
def Header.Get (h : Header) (key : GoString) : GoString :=
  match h key with
  | [] => []
  | v :: _ => v

/-- Headers holding exactly one value under "Authorization". -/
def authorization (v : GoString) : Header :=
  fun k => if k = str "Authorization" then [v] else []

/-- Headers without any field. -/
def emptyHeader : Header := fun _ => []

/-! ## Errors -/

/-- The errors of package `auth` and of the libraries it wraps. -/
inductive Error where
  | missingAuthorization      -- "отсутствует заголовок Authorization"
  | badAuthorizationFormat    -- "неверный формат заголовка Authorization"
  | randomSource              -- "ошибка генерации случайных байт"
  | unexpectedSigningMethod   -- "неожиданный метод подписи"
  | invalidKeyType            -- jwt.ErrInvalidKeyType
  | tokenMalformed            -- jwt.ErrTokenMalformed
  | tokenUnverifiable         -- jwt.ErrTokenUnverifiable
  | tokenSignatureInvalid     -- jwt.ErrTokenSignatureInvalid
  | tokenInvalidClaims        -- jwt.ErrTokenInvalidClaims
  | invalidToken              -- "невалидный токен"
  | wrongIssuer               -- "неверный issuer"
  | badUserID                 -- "неверный формат user ID"
  | signing                   -- "ошибка подписи токена"
  | hashing                   -- error of argon2id.CreateHash
  | invalidHash               -- argon2id.ErrInvalidHash and siblings
  | jsonDecode                -- error of json.Decoder.Decode
  deriving DecidableEq, Repr

/-! ## Header parsing (auth.go, GetBearerToken and GetAPIKey) -/

/-- Extraction of the bearer token from the Authorization header. -/
def GetBearerToken (CaseRanges : List CaseRange) (headers : Header) : GoString × Option Error :=
  let authHeader := headers.Get (str "Authorization")
  if authHeader = [] then ([], some Error.missingAuthorization)
  else
    let parts := Split authHeader 0x20
    match parts with
    | [p0, p1] =>
      if ToLower CaseRanges p0 ≠ str "bearer" then ([], some Error.badAuthorizationFormat)
      else (p1, none)
    | _ => ([], some Error.badAuthorizationFormat)

/-- Extraction of the API key from the Authorization header. -/
def GetAPIKey (CaseRanges : List CaseRange) (headers : Header) : GoString × Option Error :=
  let authHeader := headers.Get (str "Authorization")
  if authHeader = [] then ([], some Error.missingAuthorization)
  else
    let parts := Split authHeader 0x20
    match parts with
    | [p0, p1] =>
      if ToLower CaseRanges p0 ≠ str "apikey" then ([], some Error.badAuthorizationFormat)
      else (p1, none)
    | _ => ([], some Error.badAuthorizationFormat)

/-! ## Random source and hexadecimal encoding (auth.go, MakeRefreshToken) -/

/-- Digit table `hextable` of package `encoding/hex`. -/
def hextable : GoString := str "0123456789abcdef"

/-- Encoder `hex.EncodeToString`: two digits of `hextable` for every byte,
high nibble first. -/
def EncodeToString (src : GoString) : GoString :=
  src.flatMap (fun v => [hextable.getD (v >>> 4) 0, hextable.getD (v &&& 0x0F) 0])

/-- Creation of a refresh token.  The argument is the outcome of
`rand.Read(bytes)` on the 32-byte buffer: the buffer after the call and the
error of the call. -/
def MakeRefreshToken (randRead : GoString × Option Error) : GoString × Option Error :=
  let bytes := randRead.1
  match randRead.2 with
  | some _ => ([], some Error.randomSource)
  | none => (EncodeToString bytes, none)

/-! ## UUIDs (github.com/google/uuid) -/

/-- A value of `uuid.UUID`, an array of 16 bytes, by the list of its bytes. -/
abbrev UUID := GoString

/-- Well-formedness of a `uuid.UUID` value: exactly 16 entries, each a byte. -/
def UUID.WF (u : UUID) : Prop := u.length = 16 ∧ ∀ b ∈ u, b < 256

instance (u : UUID) : Decidable (UUID.WF u) := by
  unfold UUID.WF; exact inferInstance

/-- The zero value `uuid.Nil`. -/
def UUID.Nil : UUID := List.replicate 16 0

/-- Canonical text `UUID.String`: lower-case hexadecimal in the groups
8-4-4-4-12, separated by hyphens. -/
def UUID.String (u : UUID) : GoString :=
  EncodeToString (u.take 4) ++ [0x2D] ++
  EncodeToString ((u.drop 4).take 2) ++ [0x2D] ++
  EncodeToString ((u.drop 6).take 2) ++ [0x2D] ++
  EncodeToString ((u.drop 8).take 2) ++ [0x2D] ++
  EncodeToString (u.drop 10)

/-- Table `xvalues` of package `uuid`: the value of a hexadecimal digit of
either case, 255 for any other byte. -/
def xvalues (c : Nat) : Nat :=
  if 0x30 ≤ c ∧ c ≤ 0x39 then c - 0x30
  else if 0x41 ≤ c ∧ c ≤ 0x46 then c - 0x41 + 10
  else if 0x61 ≤ c ∧ c ≤ 0x66 then c - 0x61 + 10
  else 255

/-- Conversion `xtob` of two hexadecimal digits into a byte; `none` when one
of them is not a digit. -/
def xtob (x1 x2 : Nat) : Option Nat :=
  let b1 := xvalues x1
  let b2 := xvalues x2
  if b1 ≠ 255 ∧ b2 ≠ 255 then some (((b1 <<< 4) ||| b2) % 256) else none

/-- Decoding of the digit pairs of `s` that start at the given offsets. -/
def xtobAt (s : GoString) : List Nat → Option (List Nat)
  | [] => some []
  | x :: xs =>
    match xtob (s.getD x 0) (s.getD (x + 1) 0), xtobAt s xs with
    | some v, some vs => some (v :: vs)
    | _, _ => none

/-- Parser `uuid.Parse`: accepts the canonical 36-byte form, the same with
the prefix "urn:uuid:" (in any letter case), the same between two enclosing
bytes, and 32 bare hexadecimal digits.  On an error the value returned here
is `Nil`; every caller in the program discards it. -/
def UUID.Parse (s : GoString) : UUID × Option Error :=
  if s.length = 32 then
    match xtobAt s [0, 2, 4, 6, 8, 10, 12, 14, 16, 18, 20, 22, 24, 26, 28, 30] with
    | some u => (u, none)
    | none => (UUID.Nil, some Error.badUserID)
  else
    let body : Option GoString :=
      if s.length = 36 then some s
      else if s.length = 36 + 9 then
        if (s.take 9).map lowerByte = str "urn:uuid:"
        then some (s.drop 9) else none
      else if s.length = 36 + 2 then some (s.drop 1)
      else none
    match body with
    | none => (UUID.Nil, some Error.badUserID)
    | some t =>
      if t.getD 8 0 ≠ 0x2D ∨ t.getD 13 0 ≠ 0x2D ∨ t.getD 18 0 ≠ 0x2D ∨ t.getD 23 0 ≠ 0x2D then
        (UUID.Nil, some Error.badUserID)
      else
        match xtobAt t [0, 2, 4, 6, 9, 11, 14, 16, 19, 21, 24, 26, 28, 30, 32, 34] with
        | some u => (u, none)
        | none => (UUID.Nil, some Error.badUserID)

/-! ## Time (package time) -/

/-- An instant `time.Time`, in nanoseconds since the Unix epoch. -/
abbrev Time := Int

/-- A span `time.Duration`, in nanoseconds. -/
abbrev Duration := Int

/-- The duration `time.Second`. -/
def Second : Duration := 1000000000

/-- The duration `time.Hour`. -/
def Hour : Duration := 3600 * Second

/-- Seconds between the zero `time.Time` (January 1, year 1) and the Unix
epoch. -/
def unixToInternal : Int := 62135596800

/-- Addition `t.Add(d)`. -/
def Time.Add (t : Time) (d : Duration) : Time := t + d

/-- Comparison `t.Before(u)`. -/
def Time.Before (t u : Time) : Bool := decide (t < u)

/-- Rounding `t.Truncate(d)`: `t` rounded down to a multiple of `d` since the
zero time; `t` itself when `d <= 0`. -/
def Time.Truncate (t : Time) (d : Duration) : Time :=
  if d ≤ 0 then t else t - (t + unixToInternal * Second) % d

/-! ## Formatting times (package time) -/

/-- Seconds `t.Unix()` since the Unix epoch. -/
def Time.Unix (t : Time) : Int := t / 1000000000

/-- Offset `t.Nanosecond()` within the second, in `0 .. 999999999`. -/
def Time.Nanosecond (t : Time) : Nat := (t % 1000000000).toNat

/-- The year of the absolute zero of the calendar computations. -/
def absoluteZeroYear : Int := -292277022399

/-- Seconds between the absolute zero and the zero `time.Time`. -/
def internalToAbsolute : Int := 9223371966579724800

/-- Seconds `t.abs()` since the absolute zero for a time in UTC, a `uint64`. -/
def Time.abs (t : Time) : Nat :=
  ((t.Unix + (unixToInternal + internalToAbsolute)) % 2 ^ 64).toNat

/-- Leap years `isLeap` of the Gregorian calendar. -/
def isLeap (year : Int) : Bool :=
  decide (year % 4 = 0 ∧ (year % 100 ≠ 0 ∨ year % 400 = 0))

/-- Table `daysBefore`: the days of a non-leap year before each month, and
the days of the whole year. -/
def daysBefore : List Nat := [0, 31, 59, 90, 120, 151, 181, 212, 243, 273, 304, 334, 365]

/-- Calendar date `absDate` of a count of seconds since the absolute zero:
year, month (January is 1) and day of the month. -/
def absDate (abs : Nat) : Int × Nat × Nat :=
  let d := abs / 86400
  -- cycles of 400 years
  let n400 := d / 146097
  let d := d - 146097 * n400
  -- cycles of 100 years; the last one is a day longer
  let n100 := d / 36524
  let n100 := n100 - (n100 >>> 2)
  let d := d - 36524 * n100
  -- cycles of 4 years
  let n4 := d / 1461
  let d := d - 1461 * n4
  -- years of a cycle of 4 years; the last one is a day longer
  let n := d / 365
  let n := n - (n >>> 2)
  let d := d - 365 * n
  let year : Int := ((400 * n400 + 100 * n100 + 4 * n4 + n : Nat) : Int) + absoluteZeroYear
  if isLeap year ∧ d = 31 + 29 - 1 then (year, 2, 29)
  else
    let day := if isLeap year ∧ d > 31 + 29 - 1 then d - 1 else d
    let month := day / 31
    let monthEnd := daysBefore.getD (month + 1) 0
    if day ≥ monthEnd then (year, month + 2, day - monthEnd + 1)
    else (year, month + 1, day - daysBefore.getD month 0 + 1)

/-- Clock `absClock` of a count of seconds since the absolute zero: hour,
minute and second of the day. -/
def absClock (abs : Nat) : Nat × Nat × Nat :=
  let sec := abs % 86400
  let hour := sec / 3600
  let sec := sec - hour * 3600
  let min := sec / 60
  (hour, min, sec - min * 60)

/-- The decimal digits of `u`, least significant first, at least one digit.
The fuel bounds the number of digits. -/
def decimalDigits : Nat → Nat → GoString
  | 0, _ => []
  | fuel + 1, u => if u < 10 then [0x30 + u] else (0x30 + u % 10) :: decimalDigits fuel (u / 10)

/-- Formatter `appendInt` of package time: the decimal form of `x`, after a
minus sign when `x` is negative, padded with zeros on the left to `width`
digits. -/
def appendInt (b : GoString) (x : Int) (width : Nat) : GoString :=
  let u := x.natAbs
  let digits := (decimalDigits (u + 1) u).reverse
  b ++ (if x < 0 then [0x2D] else []) ++ List.replicate (width - digits.length) 0x30 ++ digits

/-- Formatter `appendNano` of package time for the fraction `.999999999` of
RFC3339Nano: nothing when the nanoseconds are zero; otherwise a dot and the
nine digits of the nanoseconds, then the zeros at the end of the buffer are
cut off, and the dot too if it ends the buffer. -/
def appendNano (b : GoString) (nanosec : Nat) : GoString :=
  if nanosec = 0 then b
  else
    let b := appendInt (b ++ [0x2E]) nanosec 9
    let b := b.rdropWhile (fun c => c == 0x30)
    if b.getLast? = some 0x2E then b.dropLast else b

/-- The layouts the handlers pass to `t.Format`. -/
inductive Layout where
  | RFC3339Nano
  | DateTime
  deriving DecidableEq, Repr

/-- Formatting `t.Format(layout)` of a time in UTC, for the two layouts the
handlers use: `time.RFC3339Nano` ("2006-01-02T15:04:05.999999999Z07:00") and
"2006-01-02 15:04:05". -/
def Time.Format (t : Time) (layout : Layout) : GoString :=
  let (year, month, day) := absDate t.abs
  let (hour, min, sec) := absClock t.abs
  let b := appendInt [] year 4
  let b := appendInt (b ++ [0x2D]) month 2
  let b := appendInt (b ++ [0x2D]) day 2
  let b := b ++ [match layout with | .RFC3339Nano => 0x54 | .DateTime => 0x20]
  let b := appendInt b hour 2
  let b := appendInt (b ++ [0x3A]) min 2
  let b := appendInt (b ++ [0x3A]) sec 2
  match layout with
  | .RFC3339Nano => appendNano b t.Nanosecond ++ [0x5A]
  | .DateTime => b

/-! ## JSON Web Tokens (github.com/golang-jwt/jwt/v5) -/

/-- Digest algorithms behind the signing methods. -/
inductive HashAlg where
  | SHA256
  | SHA384
  | SHA512
  deriving DecidableEq, Repr

/-- Block size in bytes of a digest algorithm (`hash.Hash.BlockSize`). -/
def HashAlg.BlockSize : HashAlg → Nat
  | .SHA256 => 64
  | .SHA384 => 128
  | .SHA512 => 128

/-- The signing methods the library registers. -/
inductive SigningMethod where
  | HMAC (h : HashAlg)       -- *jwt.SigningMethodHMAC: HS256, HS384, HS512
  | RSA (h : HashAlg)        -- RS256, RS384, RS512
  | RSAPSS (h : HashAlg)     -- PS256, PS384, PS512
  | ECDSA (h : HashAlg)      -- ES256, ES384, ES512
  | Ed25519                  -- EdDSA
  | None                     -- none
  deriving DecidableEq, Repr

/-- Name `Alg()` of a signing method, the value of the header field "alg". -/
def SigningMethod.Alg : SigningMethod → GoString
  | .HMAC .SHA256 => str "HS256"
  | .HMAC .SHA384 => str "HS384"
  | .HMAC .SHA512 => str "HS512"
  | .RSA .SHA256 => str "RS256"
  | .RSA .SHA384 => str "RS384"
  | .RSA .SHA512 => str "RS512"
  | .RSAPSS .SHA256 => str "PS256"
  | .RSAPSS .SHA384 => str "PS384"
  | .RSAPSS .SHA512 => str "PS512"
  | .ECDSA .SHA256 => str "ES256"
  | .ECDSA .SHA384 => str "ES384"
  | .ECDSA .SHA512 => str "ES512"
  | .Ed25519 => str "EdDSA"
  | .None => str "none"

/-- Registry lookup `jwt.GetSigningMethod`. -/
def GetSigningMethod (alg : GoString) : Option SigningMethod :=
  [SigningMethod.HMAC .SHA256, .HMAC .SHA384, .HMAC .SHA512,
   .RSA .SHA256, .RSA .SHA384, .RSA .SHA512,
   .RSAPSS .SHA256, .RSAPSS .SHA384, .RSAPSS .SHA512,
   .ECDSA .SHA256, .ECDSA .SHA384, .ECDSA .SHA512,
   .Ed25519, .None].find? (fun m => decide (m.Alg = alg))

/-- The claim set `jwt.RegisteredClaims`; an absent date is `none`. -/
structure RegisteredClaims where
  Issuer : GoString
  Subject : GoString
  Audience : List GoString
  ExpiresAt : Option Time
  NotBefore : Option Time
  IssuedAt : Option Time
  ID : GoString
  deriving DecidableEq, Repr

/-- The library routines kept abstract: `Sum h m` is the digest of `m` under
the algorithm `h`, and `SigningString alg claims` is the text
base64url(JSON header) + "." + base64url(JSON claims) that
`Token.SigningString` produces for the header with that "alg". -/
structure Primitives where
  Sum : HashAlg → GoString → GoString
  SigningString : GoString → RegisteredClaims → GoString

/-- What the parser recovers from a token string of three dot-separated
segments: the "alg" field of the decoded header (when it is a string), the
decoded claims, the first two segments as transmitted, and the decoded
third segment. -/
structure Segments where
  alg : Option GoString
  Claims : RegisteredClaims
  signingString : GoString
  Signature : GoString
  deriving DecidableEq, Repr

/-- A token string as the parser sees it: either some text that is not three
decodable segments, or its decoded segments.  The text encoding itself
(base64url of JSON) is not modelled. -/
inductive TokenString where
  | malformed (raw : GoString)
  | compact (seg : Segments)
  deriving DecidableEq, Repr

/-- Keyed digest of `crypto/hmac`: a key longer than the block is replaced by
its digest, the key is padded with zero bytes to the block size, and the
result is `H(opad ++ H(ipad ++ msg))`. -/
def hmacSum (Sum : HashAlg → GoString → GoString) (h : HashAlg) (key msg : GoString) : GoString :=
  let k := if key.length > h.BlockSize then Sum h key else key
  let pad := (k ++ List.replicate (h.BlockSize - k.length) 0).take h.BlockSize
  let ipad := pad.map (fun b => b ^^^ 0x36)
  let opad := pad.map (fun b => b ^^^ 0x5c)
  Sum h (opad ++ Sum h (ipad ++ msg))

/-- Signing `SigningMethod.Sign` with a key of type `[]byte`: only the HMAC
methods accept such a key. -/
def SigningMethod.Sign (P : Primitives) (m : SigningMethod) (signingString key : GoString) :
    GoString × Option Error :=
  match m with
  | .HMAC h => (hmacSum P.Sum h key signingString, none)
  | _ => ([], some Error.invalidKeyType)

/-- Verification `SigningMethod.Verify` with a key of type `[]byte`: an HMAC
method recomputes the keyed digest and compares it with the signature, every
other method rejects the key type. -/
def SigningMethod.Verify (P : Primitives) (m : SigningMethod)
    (signingString sig key : GoString) : Option Error :=
  match m with
  | .HMAC h => if sig = hmacSum P.Sum h key signingString then none
               else some Error.tokenSignatureInvalid
  | _ => some Error.invalidKeyType

/-- Precision `jwt.TimePrecision` of the dates in a token. -/
def TimePrecision : Duration := Second

/-- Constructor `jwt.NewNumericDate`: the instant truncated to the precision. -/
def NewNumericDate (t : Time) : Time := Time.Truncate t TimePrecision

/-- Check `Validator.verifyExpiresAt` with no leeway: `true` when the claim
passes. -/
def verifyExpiresAt (claims : RegisteredClaims) (cmp : Time) (required : Bool) : Bool :=
  match claims.ExpiresAt with
  | none => !required
  | some exp => Time.Before cmp exp

/-- Check `Validator.verifyNotBefore` with no leeway: `true` when the claim
passes. -/
def verifyNotBefore (claims : RegisteredClaims) (cmp : Time) (required : Bool) : Bool :=
  match claims.NotBefore with
  | none => !required
  | some nbf => !Time.Before cmp nbf

/-- Default validator `Validator.Validate` at clock reading `now`: expiry and
not-before are checked when present; issued-at, audience, issuer and subject
are not checked without the corresponding parser options. -/
def Validate (now : Time) (claims : RegisteredClaims) : Option Error :=
  if verifyExpiresAt claims now false && verifyNotBefore claims now false then none
  else some Error.tokenInvalidClaims

/-- The parsed token `*jwt.Token`. -/
structure Token where
  Method : SigningMethod
  Claims : RegisteredClaims
  Signature : GoString
  Valid : Bool
  deriving DecidableEq, Repr

/-- Constructor `jwt.NewWithClaims`. -/
def NewWithClaims (method : SigningMethod) (claims : RegisteredClaims) : Token :=
  { Method := method, Claims := claims, Signature := [], Valid := false }

/-- Serialisation `Token.SignedString` with a key of type `[]byte`.  The
claims a parser reads back from the result are the claims of the token. -/
def Token.SignedString (P : Primitives) (t : Token) (key : GoString) :
    TokenString × Option Error :=
  let sstr := P.SigningString t.Method.Alg t.Claims
  match t.Method.Sign P sstr key with
  | (_, some err) => (TokenString.malformed [], some err)
  | (sig, none) =>
    (TokenString.compact
      { alg := some t.Method.Alg, Claims := t.Claims, signingString := sstr, Signature := sig },
     none)

/-- Parser `jwt.ParseWithClaims` with default options at clock reading `now`:
decode, look the method up, ask `keyFunc` for the key, verify the signature,
validate the claims. -/
def ParseWithClaims (P : Primitives) (now : Time) (tokenString : TokenString)
    (keyFunc : SigningMethod → GoString × Option Error) : Except Error Token :=
  match tokenString with
  | .malformed _ => .error Error.tokenMalformed
  | .compact seg =>
    match seg.alg with
    | none => .error Error.tokenUnverifiable
    | some alg =>
      match GetSigningMethod alg with
      | none => .error Error.tokenUnverifiable
      | some method =>
        match keyFunc method with
        | (_, some _) => .error Error.tokenUnverifiable
        | (key, none) =>
          match method.Verify P seg.signingString seg.Signature key with
          | some _ => .error Error.tokenSignatureInvalid
          | none =>
            match Validate now seg.Claims with
            | some _ => .error Error.tokenInvalidClaims
            | none =>
              .ok { Method := method, Claims := seg.Claims, Signature := seg.Signature,
                    Valid := true }

/-! ## Access tokens (auth.go, MakeJWT and ValidateJWT) -/

/-- Creation of an access token.  `nowIat` and `nowExp` are the two readings
of `time.Now()`, taken for the issued-at and for the expires-at claim. -/
def MakeJWT (P : Primitives) (nowIat nowExp : Time) (userID : UUID) (tokenSecret : GoString)
    (expiresIn : Duration) : TokenString × Option Error :=
  let claims : RegisteredClaims :=
    { Issuer := str "chirpy"
      IssuedAt := some (NewNumericDate nowIat)
      ExpiresAt := some (NewNumericDate (Time.Add nowExp expiresIn))
      Subject := UUID.String userID
      Audience := []
      NotBefore := none
      ID := [] }
  let token := NewWithClaims (SigningMethod.HMAC .SHA256) claims
  match token.SignedString P tokenSecret with
  | (_, some _) => (TokenString.malformed [], some Error.signing)
  | (signedToken, none) => (signedToken, none)

/-- The claim set that `MakeJWT` builds from its arguments and the two clock
readings. -/
def claimsOf (nowIat nowExp : Time) (userID : UUID) (expiresIn : Duration) : RegisteredClaims :=
  { Issuer := str "chirpy"
    IssuedAt := some (NewNumericDate nowIat)
    ExpiresAt := some (NewNumericDate (Time.Add nowExp expiresIn))
    Subject := UUID.String userID
    Audience := []
    NotBefore := none
    ID := [] }

/-- The key function that `ValidateJWT` hands to the parser: the secret for
a method of type `*jwt.SigningMethodHMAC`, an error for every other method. -/
def keyFunc (tokenSecret : GoString) (method : SigningMethod) : GoString × Option Error :=
  match method with
  | .HMAC _ => (tokenSecret, none)
  | _ => ([], some Error.unexpectedSigningMethod)

/-- Validation of an access token at clock reading `now`. -/
def ValidateJWT (P : Primitives) (now : Time) (tokenString : TokenString)
    (tokenSecret : GoString) : UUID × Option Error :=
  match ParseWithClaims P now tokenString (keyFunc tokenSecret) with
  | .error err => (UUID.Nil, some err)
  | .ok token =>
    if !token.Valid then (UUID.Nil, some Error.invalidToken)
    else
      let claims := token.Claims
      if claims.Issuer ≠ str "chirpy" then (UUID.Nil, some Error.wrongIssuer)
      else
        match UUID.Parse claims.Subject with
        | (_, some _) => (UUID.Nil, some Error.badUserID)
        | (userID, none) => (userID, none)

/-! ## Password hashing (github.com/alexedwards/argon2id) -/

/-- Work parameters `argon2id.Params`. -/
structure Params where
  Memory : Nat
  Iterations : Nat
  Parallelism : Nat
  SaltLength : Nat
  KeyLength : Nat
  deriving DecidableEq, Repr

/-- The parameters `argon2id.DefaultParams`; the parallelism is
`uint8(runtime.NumCPU())`. -/
def DefaultParams (numCPU : Nat) : Params :=
  { Memory := 64 * 1024, Iterations := 1, Parallelism := numCPU % 256,
    SaltLength := 16, KeyLength := 32 }

/-- The key derivation `argon2.IDKey(password, salt, time, memory, threads,
keyLen)`, kept abstract: a function that returns exactly `keyLen` bytes. -/
abbrev KDF := GoString → GoString → Nat → Nat → Nat → (keyLen : Nat) → Mathlib.Vector (Fin 256) keyLen

/-- The bytes of a derived key as a byte slice. -/
def keyBytes {n : Nat} (k : Mathlib.Vector (Fin 256) n) : GoString :=
  k.toList.map (fun b => b.val)

/-- What `argon2id.DecodeHash` reads from an encoded hash
"$argon2id$v=19$m=..,t=..,p=..$salt$key": the three cost parameters, the
decoded salt and the decoded key. -/
structure HashFields where
  Memory : Nat
  Iterations : Nat
  Parallelism : Nat
  salt : GoString
  key : GoString
  deriving DecidableEq, Repr

/-- An encoded hash as the decoder sees it: some text it rejects, or its
decoded fields.  The text encoding itself is not modelled. -/
inductive HashString where
  | malformed (raw : GoString)
  | encoded (f : HashFields)
  deriving DecidableEq, Repr

/-- Hashing `argon2id.CreateHash`.  `randRead` is the outcome of `rand.Read`
on the salt buffer of `params.SaltLength` bytes. -/
def CreateHash (IDKey : KDF) (randRead : GoString × Option Error) (password : GoString)
    (params : Params) : HashString × Option Error :=
  match randRead.2 with
  | some _ => (HashString.malformed [], some Error.hashing)
  | none =>
    let salt := randRead.1
    let key := IDKey password salt params.Iterations params.Memory params.Parallelism
      params.KeyLength
    (HashString.encoded
      { Memory := params.Memory, Iterations := params.Iterations,
        Parallelism := params.Parallelism, salt := salt, key := keyBytes key },
     none)

/-- Comparison `argon2id.ComparePasswordAndHash` (through `CheckHash`): the
key is derived again from the password with the salt and the parameters of the
hash, and compared with the key of the hash. -/
def ComparePasswordAndHash (IDKey : KDF) (password : GoString) (hash : HashString) :
    Bool × Option Error :=
  match hash with
  | .malformed _ => (false, some Error.invalidHash)
  | .encoded f =>
    let otherKey := keyBytes (IDKey password f.salt f.Iterations f.Memory f.Parallelism f.key.length)
    if f.key.length ≠ otherKey.length then (false, none)
    else if f.key = otherKey then (true, none)
    else (false, none)

/-! ## Passwords (auth.go, HashPassword and CheckPasswordHash) -/

/-- Hashing of a password with Argon2id. -/
def HashPassword (IDKey : KDF) (numCPU : Nat) (randRead : GoString × Option Error)
    (password : GoString) : HashString × Option Error :=
  match CreateHash IDKey randRead password (DefaultParams numCPU) with
  | (_, some err) => (HashString.malformed [], some err)
  | (hash, none) => (hash, none)

/-- Check of a password against a hash. -/
def CheckPasswordHash (IDKey : KDF) (password : GoString) (hash : HashString) :
    Bool × Option Error :=
  match ComparePasswordAndHash IDKey password hash with
  | (_, some err) => (false, some err)
  | (isMatch, none) => (isMatch, none)

/-! ## Run-time panics -/

/-- The run-time panics of index and slice expressions. -/
inductive Panic where
  | indexOutOfRange
  | sliceBoundsOutOfRange
  deriving DecidableEq, Repr

/-- Index expression `xs[i]`: panics when `i` is not below `len(xs)`. -/
def index {α : Type} (xs : List α) (i : Nat) : Except Panic α :=
  match xs.get? i with
  | some x => .ok x
  | none => .error Panic.indexOutOfRange

/-- Slice expression `s[:n]` on a string: panics when `n` exceeds `len(s)`. -/
def sliceTo (s : GoString) (n : Nat) : Except Panic GoString :=
  if n ≤ s.length then .ok (s.take n) else .error Panic.sliceBoundsOutOfRange

/-- The body of `GetBearerToken` and `GetAPIKey` for the scheme word `scheme`,
with every index expression checked: `parts[0]` is evaluated only when the
left operand of `||` is false, `parts[1]` only on the success path. -/
def getCredentialChecked (scheme : GoString) (CaseRanges : List CaseRange) (headers : Header) :
    Except Panic (GoString × Option Error) :=
  let authHeader := headers.Get (str "Authorization")
  if authHeader = [] then .ok ([], some Error.missingAuthorization)
  else
    let parts := Split authHeader 0x20
    let bad : Except Panic Bool :=
      if parts.length ≠ 2 then .ok true
      else (index parts 0).map (fun p0 => decide (ToLower CaseRanges p0 ≠ scheme))
    bad.bind (fun b =>
      if b then .ok ([], some Error.badAuthorizationFormat)
      else (index parts 1).map (fun p1 => (p1, none)))

/-- The function `GetBearerToken` with its index expressions checked. -/
def GetBearerTokenChecked (CaseRanges : List CaseRange) (headers : Header) :
    Except Panic (GoString × Option Error) :=
  getCredentialChecked (str "bearer") CaseRanges headers

/-- The function `GetAPIKey` with its index expressions checked. -/
def GetAPIKeyChecked (CaseRanges : List CaseRange) (headers : Header) :
    Except Panic (GoString × Option Error) :=
  getCredentialChecked (str "apikey") CaseRanges headers

/-! ## The store (package database) -/

/-- Errors of a store call: the sentinel `sql.ErrNoRows`, or any other error
with the text of its `Error()`. -/
inductive DbError where
  | ErrNoRows
  | other (text : GoString)
  deriving DecidableEq, Repr

/-- Text `err.Error()` of a store error. -/
def DbError.Error : DbError → GoString
  | .ErrNoRows => str "sql: no rows in result set"
  | .other text => text

/-- Row `database.User`. -/
structure DbUser where
  ID : UUID
  CreatedAt : Time
  UpdatedAt : Time
  Email : GoString
  HashedPassword : HashString
  IsChirpyRed : Bool
  deriving DecidableEq, Repr

/-- Row `database.Chirp`. -/
structure DbChirp where
  ID : UUID
  CreatedAt : Time
  UpdatedAt : Time
  Body : GoString
  UserID : UUID
  deriving DecidableEq, Repr

/-- Arguments `database.CreateRefreshTokenParams`. -/
structure CreateRefreshTokenParams where
  Token : GoString
  UserID : UUID
  ExpiresAt : Time
  deriving DecidableEq, Repr

/-- Arguments `database.UpdateUserParams`. -/
structure UpdateUserParams where
  ID : UUID
  Email : GoString
  HashedPassword : HashString
  deriving DecidableEq, Repr

/-- Arguments `database.CreateChirpParams`. -/
structure CreateChirpParams where
  Body : GoString
  UserID : UUID
  deriving DecidableEq, Repr

/-- Modelled from the spec: the store interface `database.Queries`, whose
code is not part of the sources.  The operations are those the handlers
call; `σ` is the state of the store.  A lookup (spec 4.4 `LookupActiveOwner`,
spec 6 `GetUserByEmail/ID`) reads the state and returns a row and an error;
creating, updating, revoking and deleting return the new state as well. -/
structure Queries (σ : Type) where
  GetUserFromRefreshToken : σ → GoString → DbUser × Option DbError
  GetUserByEmail : σ → GoString → DbUser × Option DbError
  GetUserByID : σ → UUID → DbUser × Option DbError
  GetChirpByID : σ → UUID → DbChirp × Option DbError
  GetChirps : σ → List DbChirp × Option DbError
  GetChirpsByAuthorID : σ → UUID → List DbChirp × Option DbError
  CreateChirp : σ → CreateChirpParams → (DbChirp × Option DbError) × σ
  CreateRefreshToken : σ → CreateRefreshTokenParams → Option DbError × σ
  RevokeRefreshToken : σ → GoString → Option DbError × σ
  RevokeAllUserRefreshTokens : σ → UUID → Option DbError × σ
  UpdateUser : σ → UpdateUserParams → (DbUser × Option DbError) × σ
  DeleteChirp : σ → UUID → Option DbError × σ

/-- A call of a store operation, with its arguments. -/
inductive Call where
  | GetUserFromRefreshToken (token : GoString)
  | GetUserByEmail (email : GoString)
  | GetUserByID (id : UUID)
  | GetChirpByID (id : UUID)
  | GetChirps
  | GetChirpsByAuthorID (userID : UUID)
  | CreateChirp (arg : CreateChirpParams)
  | CreateRefreshToken (arg : CreateRefreshTokenParams)
  | RevokeRefreshToken (token : GoString)
  | RevokeAllUserRefreshTokens (userID : UUID)
  | UpdateUser (arg : UpdateUserParams)
  | DeleteChirp (id : UUID)
  deriving DecidableEq, Repr

/-- The calls that can change the store. -/
def Call.isWrite : Call → Bool
  | .CreateChirp _ => true
  | .CreateRefreshToken _ => true
  | .RevokeRefreshToken _ => true
  | .RevokeAllUserRefreshTokens _ => true
  | .UpdateUser _ => true
  | .DeleteChirp _ => true
  | _ => false

/-! ## Requests and responses (package handlers, package helpers) -/

/-- The configuration `handlers.ApiConfig`, without its store handle. -/
structure ApiConfig where
  FileserverHits : Int
  Platform : GoString
  JWTsecret : GoString
  PolkaKey : GoString
  deriving DecidableEq, Repr

/-- The parts of `*http.Request` the handlers read. -/
structure Request where
  Header : Header
  PathValue : GoString → GoString
  Body : GoString
  /-- The first value `r.URL.Query().Get(key)` of a query parameter, empty
  when the parameter is absent. -/
  Query : GoString → GoString := fun _ => []

/-- The API form `handlers.User` of a user. -/
structure User where
  ID : UUID
  CreatedAt : Time
  UpdatedAt : Time
  Email : GoString
  IsChirpyRed : Bool
  deriving DecidableEq, Repr

/-- The API form `handlers.Chirp` of a chirp. -/
structure Chirp where
  ID : UUID
  CreatedAt : GoString
  UpdatedAt : GoString
  Body : GoString
  UserID : UUID
  deriving DecidableEq, Repr

/-- The JSON payloads the handlers of this part write. -/
inductive Payload where
  | errorResponse (Error : GoString)
  | token (Token : TokenString)
  | login (user : User) (Token : TokenString) (RefreshToken : GoString)
  | user (user : User)
  | chirp (chirp : Chirp)
  | chirps (chirps : List Chirp)
  deriving DecidableEq, Repr

/-- What a handler writes to `http.ResponseWriter`: the status code and the
body; `none` is a response without body. -/
structure Response where
  code : Nat
  body : Option Payload
  deriving DecidableEq, Repr

/-- Helper `helpers.RespondWithJSON`; the encoding of the payloads above does
not fail. -/
def RespondWithJSON (code : Nat) (payload : Payload) : Response :=
  { code := code, body := some payload }

/-- Helper `helpers.RespondWithError`. -/
def RespondWithError (code : Nat) (msg : GoString) : Response :=
  RespondWithJSON code (Payload.errorResponse msg)

/-- The call `w.WriteHeader(code)` alone. -/
def WriteHeader (code : Nat) : Response :=
  { code := code, body := none }

/-- The result of running a handler: the response, the state of the store
afterwards, and the store calls it made, in order. -/
structure Outcome (σ : Type) where
  response : Response
  db : σ
  calls : List Call

/-- The decoded body of a login or update request. -/
structure Credentials where
  Email : GoString
  Password : GoString
  deriving DecidableEq, Repr

/-- The decoded body `chirpBody` of a request that creates a chirp. -/
structure chirpBody where
  Body : GoString
  deriving DecidableEq, Repr

/-- The library routines the handlers reach, taken as parameters: the case
table, the token routines, the key derivation and the number of CPUs,
`tokenOf` (what the token parser reads from the text of a bearer token),
`decodeCredentials` (the outcome of `json.NewDecoder(r.Body).Decode` into a
body with the fields "email" and "password") and `decodeChirp` (its outcome
for a body with the field "body"). -/
structure Runtime where
  CaseRanges : List CaseRange
  P : Primitives
  IDKey : KDF
  numCPU : Nat
  tokenOf : GoString → TokenString
  decodeCredentials : GoString → Credentials × Option Error
  decodeChirp : GoString → chirpBody × Option Error

/-- Status `http.StatusOK`. -/
def StatusOK : Nat := 200

/-- Status `http.StatusCreated`. -/
def StatusCreated : Nat := 201

/-- Status `http.StatusNoContent`. -/
def StatusNoContent : Nat := 204

/-- Status `http.StatusBadRequest`. -/
def StatusBadRequest : Nat := 400

/-- Status `http.StatusUnauthorized`. -/
def StatusUnauthorized : Nat := 401

/-- Status `http.StatusForbidden`. -/
def StatusForbidden : Nat := 403

/-- Status `http.StatusNotFound`. -/
def StatusNotFound : Nat := 404

/-- Status `http.StatusConflict`. -/
def StatusConflict : Nat := 409

/-- Status `http.StatusInternalServerError`. -/
def StatusInternalServerError : Nat := 500

/-- Substring test `strings.Contains`. -/
def Contains : GoString → GoString → Bool
  | [], substr => substr.isEmpty
  | c :: s, substr => substr.isPrefixOf (c :: s) || Contains s substr

/-! ## Refresh and revoke (handlers/token.go) -/

/-- Handler of POST /api/refresh.  `nowIat` and `nowExp` are the clock
readings of `MakeJWT`; every `tokenString[:8]` of a log line is evaluated
where the source evaluates it. -/
def RefreshTokenHandler {σ : Type} (rt : Runtime) (Db : Queries σ) (cfg : ApiConfig)
    (nowIat nowExp : Time) (r : Request) (db : σ) : Except Panic (Outcome σ) :=
  match GetBearerToken rt.CaseRanges r.Header with
  | (_, some _) =>
    .ok { response := RespondWithError StatusUnauthorized (str "Неверный или отсутствующий токен")
          db := db, calls := [] }
  | (tokenString, none) =>
    if tokenString.length ≠ 64 then
      .ok { response := RespondWithError StatusUnauthorized (str "Неверный токен")
            db := db, calls := [] }
    else
      (sliceTo tokenString 8).bind (fun _ =>
        match Db.GetUserFromRefreshToken db tokenString with
        | (_, some err) =>
          if err = DbError.ErrNoRows then
            (sliceTo tokenString 8).bind (fun _ =>
              .ok { response := RespondWithError StatusUnauthorized
                      (str "Неверный или истекший токен")
                    db := db, calls := [Call.GetUserFromRefreshToken tokenString] })
          else
            .ok { response := RespondWithError StatusInternalServerError
                    (str "Внутренняя ошибка сервера")
                  db := db, calls := [Call.GetUserFromRefreshToken tokenString] }
        | (dbUser, none) =>
          match MakeJWT rt.P nowIat nowExp dbUser.ID cfg.JWTsecret Hour with
          | (_, some _) =>
            .ok { response := RespondWithError StatusInternalServerError
                    (str "Не удалось создать токен")
                  db := db, calls := [Call.GetUserFromRefreshToken tokenString] }
          | (accessToken, none) =>
            .ok { response := RespondWithJSON StatusOK (Payload.token accessToken)
                  db := db, calls := [Call.GetUserFromRefreshToken tokenString] })

/-- Handler of POST /api/revoke. -/
def RevokeTokenHandler {σ : Type} (rt : Runtime) (Db : Queries σ) (r : Request) (db : σ) :
    Except Panic (Outcome σ) :=
  match GetBearerToken rt.CaseRanges r.Header with
  | (_, some _) =>
    .ok { response := RespondWithError StatusUnauthorized (str "Неверный или отсутствующий токен")
          db := db, calls := [] }
  | (tokenString, none) =>
    if tokenString.length ≠ 64 then
      .ok { response := WriteHeader StatusNoContent, db := db, calls := [] }
    else
      (sliceTo tokenString 8).bind (fun _ =>
        match Db.RevokeRefreshToken db tokenString with
        | (some err, db1) =>
          if err = DbError.ErrNoRows then
            (sliceTo tokenString 8).bind (fun _ =>
              .ok { response := WriteHeader StatusNoContent
                    db := db1, calls := [Call.RevokeRefreshToken tokenString] })
          else
            .ok { response := RespondWithError StatusInternalServerError
                    (str "Внутренняя ошибка сервера")
                  db := db1, calls := [Call.RevokeRefreshToken tokenString] }
        | (none, db1) =>
          (sliceTo tokenString 8).bind (fun _ =>
            .ok { response := WriteHeader StatusNoContent
                  db := db1, calls := [Call.RevokeRefreshToken tokenString] }))

/-! ## Login and update (handlers/users.go) -/

/-- The API form of a store user, as the handlers build it. -/
def DbUser.toUser (u : DbUser) : User :=
  { ID := u.ID, CreatedAt := u.CreatedAt, UpdatedAt := u.UpdatedAt, Email := u.Email,
    IsChirpyRed := u.IsChirpyRed }

/-- Handler of POST /api/login.  `nowIat` and `nowExp` are the clock readings
of `MakeJWT`, `randRead` the outcome of the random source in
`MakeRefreshToken`, `now` the reading of `time.Now()` for the expiry of the
refresh token. -/
def LoginHandler {σ : Type} (rt : Runtime) (Db : Queries σ) (cfg : ApiConfig)
    (nowIat nowExp : Time) (randRead : GoString × Option Error) (now : Time)
    (r : Request) (db : σ) : Outcome σ :=
  match rt.decodeCredentials r.Body with
  | (_, some _) =>
    { response := RespondWithError StatusBadRequest (str "Неверный формат запроса")
      db := db, calls := [] }
  | (reqBody, none) =>
    if reqBody.Email = [] ∨ reqBody.Password = [] then
      { response := RespondWithError StatusBadRequest (str "Email и пароль обязательны")
        db := db, calls := [] }
    else if reqBody.Email.length > 255 then
      { response := RespondWithError StatusBadRequest (str "Email слишком длинный")
        db := db, calls := [] }
    else
      match Db.GetUserByEmail db reqBody.Email with
      | (_, some err) =>
        if err = DbError.ErrNoRows then
          { response := RespondWithError StatusUnauthorized (str "Неверный email или пароль")
            db := db, calls := [Call.GetUserByEmail reqBody.Email] }
        else
          { response := RespondWithError StatusInternalServerError
              (str "Внутренняя ошибка сервера")
            db := db, calls := [Call.GetUserByEmail reqBody.Email] }
      | (dbUser, none) =>
        match CheckPasswordHash rt.IDKey reqBody.Password dbUser.HashedPassword with
        | (_, some _) =>
          { response := RespondWithError StatusInternalServerError
              (str "Внутренняя ошибка сервера")
            db := db, calls := [Call.GetUserByEmail reqBody.Email] }
        | (isMatch, none) =>
          if !isMatch then
            { response := RespondWithError StatusUnauthorized (str "Неверный email или пароль")
              db := db, calls := [Call.GetUserByEmail reqBody.Email] }
          else
            match MakeJWT rt.P nowIat nowExp dbUser.ID cfg.JWTsecret Hour with
            | (_, some _) =>
              { response := RespondWithError StatusInternalServerError
                  (str "Не удалось создать токен")
                db := db, calls := [Call.GetUserByEmail reqBody.Email] }
            | (token, none) =>
              match MakeRefreshToken randRead with
              | (_, some _) =>
                { response := RespondWithError StatusInternalServerError
                    (str "Не удалось создать токен")
                  db := db, calls := [Call.GetUserByEmail reqBody.Email] }
              | (refreshToken, none) =>
                let arg : CreateRefreshTokenParams :=
                  { Token := refreshToken, UserID := dbUser.ID
                    ExpiresAt := Time.Add now (60 * 24 * Hour) }
                match Db.CreateRefreshToken db arg with
                | (some _, db1) =>
                  { response := RespondWithError StatusInternalServerError
                      (str "Не удалось создать токен")
                    db := db1
                    calls := [Call.GetUserByEmail reqBody.Email, Call.CreateRefreshToken arg] }
                | (none, db1) =>
                  { response := RespondWithJSON StatusOK
                      (Payload.login dbUser.toUser token refreshToken)
                    db := db1
                    calls := [Call.GetUserByEmail reqBody.Email, Call.CreateRefreshToken arg] }

/-- Handler of PUT /api/users.  `now` is the clock reading of the token
validation, `randRead` the outcome of the random source in `HashPassword`. -/
def UpdateUserHandler {σ : Type} (rt : Runtime) (Db : Queries σ) (cfg : ApiConfig)
    (now : Time) (randRead : GoString × Option Error) (r : Request) (db : σ) : Outcome σ :=
  match GetBearerToken rt.CaseRanges r.Header with
  | (_, some _) =>
    { response := RespondWithError StatusUnauthorized (str "Неверный или отсутствующий токен")
      db := db, calls := [] }
  | (tokenString, none) =>
    match ValidateJWT rt.P now (rt.tokenOf tokenString) cfg.JWTsecret with
    | (_, some _) =>
      { response := RespondWithError StatusUnauthorized (str "Неверный токен")
        db := db, calls := [] }
    | (userID, none) =>
      match rt.decodeCredentials r.Body with
      | (_, some _) =>
        { response := RespondWithError StatusBadRequest (str "Неверный формат запроса")
          db := db, calls := [] }
      | (reqBody, none) =>
        if reqBody.Email = [] ∧ reqBody.Password = [] then
          { response := RespondWithError StatusBadRequest
              (str "Необходимо указать email или пароль для обновления")
            db := db, calls := [] }
        else if reqBody.Email ≠ [] ∧ reqBody.Email.length > 255 then
          { response := RespondWithError StatusBadRequest (str "Email слишком длинный")
            db := db, calls := [] }
        else
          -- the email of the update, with the store calls made to find it
          let emailStep : Option GoString × List Call :=
            if reqBody.Email ≠ [] then (some reqBody.Email, [])
            else
              match Db.GetUserByID db userID with
              | (_, some _) => (none, [Call.GetUserByID userID])
              | (currentUser, none) => (some currentUser.Email, [Call.GetUserByID userID])
          match emailStep with
          | (none, calls1) =>
            { response := RespondWithError StatusInternalServerError
                (str "Внутренняя ошибка сервера")
              db := db, calls := calls1 }
          | (some email, calls1) =>
            -- the hash of the update, or the response of the failing step
            let hashStep : Except Response HashString × List Call :=
              if reqBody.Password ≠ [] then
                match HashPassword rt.IDKey rt.numCPU randRead reqBody.Password with
                | (_, some _) =>
                  (.error (RespondWithError StatusInternalServerError
                    (str "Не удалось обновить пользователя")), [])
                | (hashedPassword, none) => (.ok hashedPassword, [])
              else
                match Db.GetUserByID db userID with
                | (_, some _) =>
                  (.error (RespondWithError StatusInternalServerError
                    (str "Внутренняя ошибка сервера")), [Call.GetUserByID userID])
                | (currentUser, none) =>
                  (.ok currentUser.HashedPassword, [Call.GetUserByID userID])
            match hashStep with
            | (.error resp, calls2) => { response := resp, db := db, calls := calls1 ++ calls2 }
            | (.ok hashedPassword, calls2) =>
              let updateParams : UpdateUserParams :=
                { ID := userID, Email := email, HashedPassword := hashedPassword }
              match Db.UpdateUser db updateParams with
              | ((_, some err), db1) =>
                if Contains err.Error (str "unique") then
                  { response := RespondWithError StatusConflict
                      (str "Email уже используется другим пользователем")
                    db := db1, calls := calls1 ++ calls2 ++ [Call.UpdateUser updateParams] }
                else
                  { response := RespondWithError StatusInternalServerError
                      (str "Не удалось обновить пользователя")
                    db := db1, calls := calls1 ++ calls2 ++ [Call.UpdateUser updateParams] }
              | ((updatedUser, none), db1) =>
                if reqBody.Password ≠ [] then
                  -- the error of the revocation is logged and dropped
                  { response := RespondWithJSON StatusOK (Payload.user updatedUser.toUser)
                    db := (Db.RevokeAllUserRefreshTokens db1 userID).2
                    calls := calls1 ++ calls2 ++
                      [Call.UpdateUser updateParams, Call.RevokeAllUserRefreshTokens userID] }
                else
                  { response := RespondWithJSON StatusOK (Payload.user updatedUser.toUser)
                    db := db1, calls := calls1 ++ calls2 ++ [Call.UpdateUser updateParams] }

/-! ## Deleting a chirp (handlers/chirps.go) -/

/-- Handler of DELETE /api/chirps/{chirpID}.  `now` is the clock reading of
the token validation. -/
def DeleteChirpHandler {σ : Type} (rt : Runtime) (Db : Queries σ) (cfg : ApiConfig)
    (now : Time) (r : Request) (db : σ) : Outcome σ :=
  let chirpIDStr := r.PathValue (str "chirpID")
  if chirpIDStr = [] then
    { response := RespondWithError StatusBadRequest (str "ID chirp обязателен")
      db := db, calls := [] }
  else
    match UUID.Parse chirpIDStr with
    | (_, some _) =>
      { response := RespondWithError StatusBadRequest (str "Неверный формат ID chirp")
        db := db, calls := [] }
    | (chirpID, none) =>
      match GetBearerToken rt.CaseRanges r.Header with
      | (_, some _) =>
        { response := RespondWithError StatusUnauthorized
            (str "Неверный или отсутствующий токен")
          db := db, calls := [] }
      | (tokenString, none) =>
        match ValidateJWT rt.P now (rt.tokenOf tokenString) cfg.JWTsecret with
        | (_, some _) =>
          { response := RespondWithError StatusUnauthorized (str "Неверный токен")
            db := db, calls := [] }
        | (userID, none) =>
          match Db.GetChirpByID db chirpID with
          | (_, some err) =>
            if err = DbError.ErrNoRows then
              { response := RespondWithError StatusNotFound (str "Chirp не найден")
                db := db, calls := [Call.GetChirpByID chirpID] }
            else
              { response := RespondWithError StatusInternalServerError
                  (str "Внутренняя ошибка сервера")
                db := db, calls := [Call.GetChirpByID chirpID] }
          | (dbChirp, none) =>
            if dbChirp.UserID ≠ userID then
              { response := RespondWithError StatusForbidden
                  (str "Недостаточно прав для выполнения этой операции")
                db := db, calls := [Call.GetChirpByID chirpID] }
            else
              match Db.DeleteChirp db chirpID with
              | (some _, db1) =>
                { response := RespondWithError StatusInternalServerError
                    (str "Не удалось удалить chirp")
                  db := db1, calls := [Call.GetChirpByID chirpID, Call.DeleteChirp chirpID] }
              | (none, db1) =>
                { response := WriteHeader StatusNoContent
                  db := db1, calls := [Call.GetChirpByID chirpID, Call.DeleteChirp chirpID] }

/-! ## Text filter (helpers/helpers.go, DelProfanWords) -/

/-- The array `profanWords` of `DelProfanWords`. -/
def profanWords : List GoString := [str "kerfuffle", str "sharbert", str "fornax"]

/-- The inner loop of `DelProfanWords` over the words of `profanWords` still
to compare: the flag after the loop, which is set, and the loop left, at the
first of them that equals the lower case of `word`. -/
def profanLoop (CaseRanges : List CaseRange) (word : GoString) : List GoString → Bool → Bool
  | [], flag => flag
  | profan :: rest, flag =>
    if ToLower CaseRanges word = profan then true
    else profanLoop CaseRanges word rest flag

/-- The outer loop of `DelProfanWords` over the words still to visit:
`newslice` after the loop. -/
def wordsLoop (CaseRanges : List CaseRange) : List GoString → List GoString → List GoString
  | [], newslice => newslice
  | word :: rest, newslice =>
    let flag := profanLoop CaseRanges word profanWords false
    if flag then wordsLoop CaseRanges rest (newslice ++ [str "****"])
    else wordsLoop CaseRanges rest (newslice ++ [word])

/-- Filter `helpers.DelProfanWords`. -/
def DelProfanWords (CaseRanges : List CaseRange) (s : GoString) : GoString :=
  let slicewords := Split s 0x20
  let newslice := wordsLoop CaseRanges slicewords []
  Join newslice 0x20

/-- The replacement of one part in the description of `DelProfanWords`:
"****" exactly when the lower-cased part is one of the three words. -/
def replacePart (CaseRanges : List CaseRange) (part : GoString) : GoString :=
  if ToLower CaseRanges part = str "kerfuffle" ∨ ToLower CaseRanges part = str "sharbert" ∨
      ToLower CaseRanges part = str "fornax" then str "****"
  else part

/-- The description of `DelProfanWords`: split at every space, replace part
by part, join with single spaces. -/
def splitReplaceJoin (CaseRanges : List CaseRange) (s : GoString) : GoString :=
  Join ((Split s 0x20).map (replacePart CaseRanges)) 0x20

/-! ## Sorting (package sort) -/

/-- Comparison `a < b` of two Go strings: byte by byte, a proper prefix
before the longer string. -/
def stringLess : GoString → GoString → Bool
  | [], [] => false
  | [], _ :: _ => true
  | _ :: _, [] => false
  | a :: s, b :: t => if a < b then true else if b < a then false else stringLess s t

/-- The inner loop of the insertion sort of package sort: `x` is swapped to
the left past every element it is less than.  `left` is the sorted part to
the left of `x`, listed from right to left, and so is the result. -/
def sink {α : Type} (less : α → α → Bool) (x : α) : List α → List α
  | [] => [x]
  | y :: left => if less x y then y :: sink less x left else x :: y :: left

/-- Sorting `sort.Slice(x, less)` with a `less` that compares the elements
at two indices, as the library runs it on a slice of at most 12 elements:
its insertion sort.  Longer slices go through the other phases of its
pattern-defeating quicksort, which are not modelled. -/
def Slice {α : Type} (x : List α) (less : α → α → Bool) : List α :=
  (x.foldl (fun left e => sink less e left) []).reverse

/-! ## Creating and listing chirps (handlers/chirps.go) -/

/-- Function `SortChirps`. -/
def SortChirps (chirps : List Chirp) (sortOrder : GoString) : List Chirp :=
  if sortOrder = str "desc" then
    Slice chirps (fun ci cj => stringLess cj.CreatedAt ci.CreatedAt)
  else if sortOrder = str "asc" then
    Slice chirps (fun ci cj => stringLess ci.CreatedAt cj.CreatedAt)
  else
    Slice chirps (fun ci cj => stringLess ci.CreatedAt cj.CreatedAt)

/-- The API form of a row, with both times formatted under `layout`. -/
def DbChirp.toChirp (dbChirp : DbChirp) (layout : Layout) : Chirp :=
  { ID := dbChirp.ID
    CreatedAt := dbChirp.CreatedAt.Format layout
    UpdatedAt := dbChirp.UpdatedAt.Format layout
    Body := dbChirp.Body
    UserID := dbChirp.UserID }

/-- Handler of POST /api/chirps.  `now` is the clock reading of the token
validation. -/
def CreateChirpHandler {σ : Type} (rt : Runtime) (Db : Queries σ) (cfg : ApiConfig)
    (now : Time) (r : Request) (db : σ) : Outcome σ :=
  match GetBearerToken rt.CaseRanges r.Header with
  | (_, some _) =>
    { response := RespondWithError StatusUnauthorized (str "Неверный или отсутствующий токен")
      db := db, calls := [] }
  | (tokenString, none) =>
    match ValidateJWT rt.P now (rt.tokenOf tokenString) cfg.JWTsecret with
    | (_, some _) =>
      { response := RespondWithError StatusUnauthorized (str "Неверный токен")
        db := db, calls := [] }
    | (userID, none) =>
      match rt.decodeChirp r.Body with
      | (_, some _) =>
        { response := RespondWithError StatusBadRequest (str "Неверный формат запроса")
          db := db, calls := [] }
      | (chirp, none) =>
        if chirp.Body.length ≥ 140 ∨ chirp.Body.length = 0 then
          { response := RespondWithError StatusBadRequest
              (str "поле сhirp не может быть пустым и текс должен быть менее 140 символов")
            db := db, calls := [] }
        else
          let chirpParam : CreateChirpParams :=
            { Body := DelProfanWords rt.CaseRanges chirp.Body, UserID := userID }
          match Db.CreateChirp db chirpParam with
          | ((_, some _), db1) =>
            { response := RespondWithError StatusInternalServerError (str "Не удалось создать chirp")
              db := db1, calls := [Call.CreateChirp chirpParam] }
          | ((dbChirp, none), db1) =>
            { response := RespondWithJSON StatusCreated
                (Payload.chirp (dbChirp.toChirp Layout.DateTime))
              db := db1, calls := [Call.CreateChirp chirpParam] }

/-- Handler of GET /api/chirps. -/
def GetChirpsHandler {σ : Type} (Db : Queries σ) (r : Request) (db : σ) : Outcome σ :=
  let authorIDStr := r.Query (str "author_id")
  let sortOrder := r.Query (str "sort")
  -- the end of the handler: the rows in the API form, sorted
  let respond := fun (dbChirps : List DbChirp) =>
    let chirps := dbChirps.map (fun dbChirp => dbChirp.toChirp Layout.RFC3339Nano)
    RespondWithJSON StatusOK (Payload.chirps (SortChirps chirps sortOrder))
  if authorIDStr ≠ [] then
    match UUID.Parse authorIDStr with
    | (_, some _) =>
      { response := RespondWithError StatusBadRequest (str "Неверный формат author_id")
        db := db, calls := [] }
    | (authorID, none) =>
      match Db.GetChirpsByAuthorID db authorID with
      | (_, some _) =>
        { response := RespondWithError StatusInternalServerError (str "Не удалось получить chirps")
          db := db, calls := [Call.GetChirpsByAuthorID authorID] }
      | (dbChirps, none) =>
        { response := respond dbChirps
          db := db, calls := [Call.GetChirpsByAuthorID authorID] }
  else
    match Db.GetChirps db with
    | (_, some _) =>
      { response := RespondWithError StatusInternalServerError (str "Не удалось получить chirps")
        db := db, calls := [Call.GetChirps] }
    | (dbChirps, none) =>
      { response := respond dbChirps, db := db, calls := [Call.GetChirps] }

/-! ## Metrics (handlers/metrics.go, main.go) -/

/-- The platform `main` puts into the configuration: the value of the
environment variable PLATFORM, "production" when that is empty. -/
def platform (env : GoString) : GoString :=
  if env = [] then str "production" else env

/-- What a handler writes as plain text: the status code and the bytes of
the body. -/
structure TextResponse where
  code : Nat
  body : GoString
  deriving DecidableEq, Repr

/-- Handler of POST /admin/reset: the configuration afterwards and the
response. -/
def ResetmetricsHandler (cfg : ApiConfig) : ApiConfig × TextResponse :=
  let cfg := { cfg with FileserverHits := 0 }
  (cfg, { code := StatusOK, body := str "Metrics reset" })

/-! ## Sample data -/

/-- An instance of the abstract token routines, for evaluating the
definitions on concrete inputs: the digest is the identity, the signing
string is the name of the method, a dot and the subject. -/
def samplePrimitives : Primitives :=
  { Sum := fun _ m => m
    SigningString := fun alg claims => alg ++ [0x2E] ++ claims.Subject }

/-- An instance of the abstract key derivation, for evaluating the
definitions on concrete inputs: every byte of the key is the sum of the bytes
of password and salt modulo 256. -/
def sampleKDF : KDF :=
  fun password salt _ _ _ keyLen =>
    Mathlib.Vector.replicate keyLen ⟨(password.sum + salt.sum) % 256, Nat.mod_lt _ (by decide)⟩

/-- A user ID: 123e4567-e89b-12d3-a456-426614174000. -/
def sampleUserID : UUID :=
  [0x12, 0x3e, 0x45, 0x67, 0xe8, 0x9b, 0x12, 0xd3, 0xa4, 0x56, 0x42, 0x66, 0x14, 0x17, 0x40, 0x00]

/-- The claims of the test `TestValidateJWT_WrongIssuer`: those of `MakeJWT`
for one hour, with the issuer "wrong-issuer". -/
def wrongIssuerClaims : RegisteredClaims :=
  { claimsOf 0 0 sampleUserID Hour with Issuer := str "wrong-issuer" }

/-- The token of the test `TestValidateJWT_WrongIssuer`: the claims above,
signed with "test-secret" under HS256. -/
def wrongIssuerToken : Segments :=
  { alg := some (str "HS256")
    Claims := wrongIssuerClaims
    signingString := samplePrimitives.SigningString (str "HS256") wrongIssuerClaims
    Signature := hmacSum samplePrimitives.Sum .SHA256 (str "test-secret")
      (samplePrimitives.SigningString (str "HS256") wrongIssuerClaims) }

/-- A token without signature whose header asserts the method "none". -/
def unsignedToken : Segments :=
  { alg := some (str "none")
    Claims := claimsOf 0 0 sampleUserID Hour
    signingString := samplePrimitives.SigningString (str "none") (claimsOf 0 0 sampleUserID Hour)
    Signature := [] }

/-- The scheme word "ApiKey" written with U+212A KELVIN SIGN in place of the
letter K: the bytes 41 70 69 E2 84 AA 65 79. -/
def kelvinScheme : GoString := str "Api\u212Aey"

/-- Row of the refresh-token table (spec 3, RefreshToken). -/
structure RefreshTokenRow where
  Token : GoString
  UserID : UUID
  ExpiresAt : Time
  RevokedAt : Option Time
  deriving DecidableEq, Repr

/-- Modelled from the spec: a state of the store (spec 3): the clock of the
store, the users, the refresh-token rows and the chirps. -/
structure Store where
  clock : Time
  users : List DbUser
  refreshTokens : List RefreshTokenRow
  chirps : List DbChirp
  deriving DecidableEq, Repr

/-- The zero value of `database.User`, returned beside an error. -/
def DbUser.zero : DbUser :=
  { ID := UUID.Nil, CreatedAt := 0, UpdatedAt := 0, Email := [],
    HashedPassword := HashString.malformed [], IsChirpyRed := false }

/-- The zero value of `database.Chirp`, returned beside an error. -/
def DbChirp.zero : DbChirp :=
  { ID := UUID.Nil, CreatedAt := 0, UpdatedAt := 0, Body := [], UserID := UUID.Nil }

/-- Modelled from the spec: the store operations of spec 4.4 and spec 6 on
`Store`.  A refresh token is found only while it exists, is not revoked and
has not expired; revoking sets revoked-at to the clock and reports a missing
token as not found; creating a token that exists is a conflict.  The chirps
are listed in the order of the rows; a new chirp is stamped with the clock
and numbered after the rows. -/
def storeQueries : Queries Store where
  GetUserFromRefreshToken s token :=
    match s.refreshTokens.find? (fun row =>
        decide (row.Token = token ∧ row.RevokedAt = none ∧ s.clock < row.ExpiresAt)) with
    | none => (DbUser.zero, some DbError.ErrNoRows)
    | some row =>
      match s.users.find? (fun u => decide (u.ID = row.UserID)) with
      | none => (DbUser.zero, some DbError.ErrNoRows)
      | some u => (u, none)
  GetUserByEmail s email :=
    match s.users.find? (fun u => decide (u.Email = email)) with
    | none => (DbUser.zero, some DbError.ErrNoRows)
    | some u => (u, none)
  GetUserByID s id :=
    match s.users.find? (fun u => decide (u.ID = id)) with
    | none => (DbUser.zero, some DbError.ErrNoRows)
    | some u => (u, none)
  GetChirpByID s id :=
    match s.chirps.find? (fun c => decide (c.ID = id)) with
    | none => (DbChirp.zero, some DbError.ErrNoRows)
    | some c => (c, none)
  CreateRefreshToken s arg :=
    if s.refreshTokens.any (fun row => decide (row.Token = arg.Token)) then
      (some (DbError.other (str "duplicate key value violates unique constraint")), s)
    else
      (none, { s with refreshTokens := s.refreshTokens ++
        [{ Token := arg.Token, UserID := arg.UserID, ExpiresAt := arg.ExpiresAt,
           RevokedAt := none }] })
  RevokeRefreshToken s token :=
    if s.refreshTokens.any (fun row => decide (row.Token = token)) then
      (none, { s with refreshTokens := s.refreshTokens.map (fun row =>
        if row.Token = token then { row with RevokedAt := some s.clock } else row) })
    else (some DbError.ErrNoRows, s)
  RevokeAllUserRefreshTokens s userID :=
    (none, { s with refreshTokens := s.refreshTokens.map (fun row =>
      if row.UserID = userID ∧ row.RevokedAt = none then { row with RevokedAt := some s.clock }
      else row) })
  UpdateUser s arg :=
    match s.users.find? (fun u => decide (u.ID = arg.ID)) with
    | none => ((DbUser.zero, some DbError.ErrNoRows), s)
    | some u =>
      if s.users.any (fun v => decide (v.Email = arg.Email ∧ v.ID ≠ arg.ID)) then
        ((DbUser.zero,
          some (DbError.other (str "duplicate key value violates unique constraint"))), s)
      else
        let u1 : DbUser :=
          { u with Email := arg.Email, HashedPassword := arg.HashedPassword,
                   UpdatedAt := s.clock }
        ((u1, none), { s with users := s.users.map (fun v => if v.ID = arg.ID then u1 else v) })
  DeleteChirp s id :=
    (none, { s with chirps := s.chirps.filter (fun c => decide (c.ID ≠ id)) })
  GetChirps s := (s.chirps, none)
  GetChirpsByAuthorID s userID := (s.chirps.filter (fun c => decide (c.UserID = userID)), none)
  CreateChirp s arg :=
    let c : DbChirp :=
      { ID := List.replicate 15 0 ++ [(s.chirps.length + 1) % 256]
        CreatedAt := s.clock, UpdatedAt := s.clock, Body := arg.Body, UserID := arg.UserID }
    ((c, none), { s with chirps := s.chirps ++ [c] })

/-- A second user ID: 00000000-0000-0000-0000-000000000002. -/
def otherUserID : UUID := [0, 0, 0, 0, 0, 0, 0, 0, 0, 0, 0, 0, 0, 0, 0, 2]

/-- The ID of the sample chirp: 00000000-0000-0000-0000-0000000000c1. -/
def sampleChirpID : UUID := [0, 0, 0, 0, 0, 0, 0, 0, 0, 0, 0, 0, 0, 0, 0, 0xc1]

/-- A refresh token of 64 hexadecimal digits. -/
def sampleRefreshToken : GoString :=
  str "000102030405060708090a0b0c0d0e0f101112131415161718191a1b1c1d1e1f"

/-- The hash of the password "mysecretpassword" under the sample key
derivation. -/
def sampleHash : HashString :=
  (HashPassword sampleKDF 4 (List.replicate 16 7, none) (str "mysecretpassword")).1

/-- The sample user, with the email "user@example.com". -/
def sampleUser : DbUser :=
  { ID := sampleUserID, CreatedAt := 0, UpdatedAt := 0, Email := str "user@example.com",
    HashedPassword := sampleHash, IsChirpyRed := false }

/-- A store with the sample user, one active refresh token of that user and
one chirp written by that user; its clock shows 1000 s. -/
def sampleStore : Store :=
  { clock := 1000 * Second
    users := [sampleUser]
    refreshTokens :=
      [{ Token := sampleRefreshToken, UserID := sampleUserID,
         ExpiresAt := 5184000 * Second, RevokedAt := none }]
    chirps :=
      [{ ID := sampleChirpID, CreatedAt := 0, UpdatedAt := 0, Body := str "hello",
         UserID := sampleUserID }] }

/-- The sample configuration, with the secret "test-secret". -/
def sampleConfig : ApiConfig :=
  { FileserverHits := 0, Platform := str "production", JWTsecret := str "test-secret",
    PolkaKey := str "polka-key" }

/-- The text standing for the access token of a user in the sample
run-time: "access:" followed by the canonical text of the user ID. -/
def sampleAccessText (userID : UUID) : GoString := str "access:" ++ UUID.String userID

/-- An instance of the run-time parameters, for evaluating the handlers on
concrete inputs.  The text "access:" followed by a user ID is read as the
token `MakeJWT` issues to that user at time 0 for one hour under
"test-secret"; a body is read as the email, a line feed and the password,
or as "body:" followed by the text of a chirp. -/
def sampleRuntime : Runtime :=
  { CaseRanges := letterlikeCaseRanges
    P := samplePrimitives
    IDKey := sampleKDF
    numCPU := 4
    tokenOf := fun s =>
      if s.take 7 = str "access:" then
        match UUID.Parse (s.drop 7) with
        | (u, none) => (MakeJWT samplePrimitives 0 0 u (str "test-secret") Hour).1
        | (_, some _) => TokenString.malformed s
      else TokenString.malformed s
    decodeCredentials := fun body =>
      match Split body 0x0A with
      | [email, password] => ({ Email := email, Password := password }, none)
      | _ => ({ Email := [], Password := [] }, some Error.jsonDecode)
    decodeChirp := fun body =>
      if body.take 5 = str "body:" then ({ Body := body.drop 5 }, none)
      else ({ Body := [] }, some Error.jsonDecode) }

/-- A request with the given Authorization value, path value "chirpID" and
body. -/
def sampleRequest (authorizationValue chirpID body : GoString) : Request :=
  { Header := authorization authorizationValue
    PathValue := fun name => if name = str "chirpID" then chirpID else []
    Body := body }

/-- A request without any header field, path value or body. -/
def bareRequest : Request :=
  { Header := emptyHeader, PathValue := fun _ => [], Body := [] }

/-- The configuration `main` builds when PLATFORM is not set, after five
requests to the file server. -/
def productionConfig : ApiConfig :=
  { FileserverHits := 5, Platform := platform [], JWTsecret := str "test-secret",
    PolkaKey := str "polka-key" }

/-- A chirp of the sample user created on January 1, 2024 at 00:00:00.50 UTC. -/
def earlierChirp : DbChirp :=
  { ID := sampleChirpID, CreatedAt := 1704067200 * Second + 500000000,
    UpdatedAt := 1704067200 * Second + 500000000, Body := str "first",
    UserID := sampleUserID }

/-- A chirp of the sample user created 10 ms after `earlierChirp`, at
00:00:00.51 UTC; its ID is 00000000-0000-0000-0000-0000000000c2. -/
def laterChirp : DbChirp :=
  { ID := [0, 0, 0, 0, 0, 0, 0, 0, 0, 0, 0, 0, 0, 0, 0, 0xc2]
    CreatedAt := 1704067200 * Second + 510000000,
    UpdatedAt := 1704067200 * Second + 510000000, Body := str "second",
    UserID := sampleUserID }

/-- The sample store with the two chirps above in place of its chirp. -/
def chirpStore : Store :=
  { sampleStore with chirps := [earlierChirp, laterChirp] }

/-- A request GET /api/chirps?sort=`sortOrder`. -/
def sortRequest (sortOrder : GoString) : Request :=
  { bareRequest with Query := fun key => if key = str "sort" then sortOrder else [] }

/-- A text of 70 letters: the Cyrillic letter "я" (U+044F, the bytes D1 8F)
70 times. -/
def seventyLetters : GoString :=
  (List.replicate 70 (str "я")).flatten

/-- A request POST /api/chirps of the sample user with the text
`seventyLetters`. -/
def seventyLettersRequest : Request :=
  sampleRequest (str "Bearer " ++ sampleAccessText sampleUserID) []
    (str "body:" ++ seventyLetters)

/-- A token of 32 letters: the Cyrillic letter "я" (the bytes D1 8F) 32
times, 64 bytes. -/
def thirtyTwoLetters : GoString :=
  (List.replicate 32 (str "я")).flatten

/-- A token of 64 letters: the Cyrillic letter "я" 64 times, 128 bytes. -/
def sixtyFourLetters : GoString :=
  (List.replicate 64 (str "я")).flatten

/-! # Properties -/

/-! ## Splitting at a byte -/

theorem IndexByte_eq_none {s : GoString} {c : Nat} (h : c ∉ s) : IndexByte s c = none := by
  induction s with
  | nil => rfl
  | cons x xs ih =>
    have hx : x ≠ c := fun e => h (by simp [e])
    have hxs : c ∉ xs := fun e => h (by simp [e])
    simp [IndexByte, hx, ih hxs]

theorem IndexByte_append {a : GoString} {c : Nat} (b : GoString) (h : c ∉ a) :
    IndexByte (a ++ c :: b) c = some a.length := by
  induction a with
  | nil => simp [IndexByte]
  | cons x xs ih =>
    have hx : x ≠ c := fun e => h (by simp [e])
    have hxs : c ∉ xs := fun e => h (by simp [e])
    simp [IndexByte, hx, ih hxs]

theorem exists_first {s : GoString} {c : Nat} (h : c ∈ s) :
    ∃ a b, s = a ++ c :: b ∧ c ∉ a := by
  induction s with
  | nil => simp at h
  | cons x xs ih =>
    by_cases hx : x = c
    · exact ⟨[], xs, by simp [hx], by simp⟩
    · have hxs : c ∈ xs := by
        rcases List.mem_cons.mp h with e | e
        · exact absurd e.symm hx
        · exact e
      obtain ⟨a, b, hab, hca⟩ := ih hxs
      refine ⟨x :: a, b, by simp [hab], ?_⟩
      intro hm
      rcases List.mem_cons.mp hm with e | e
      · exact hx e.symm
      · exact hca e

theorem genSplit_of_not_mem {s : GoString} {c : Nat} (n : Nat) (h : c ∉ s) :
    genSplit c n s = [s] := by
  cases n with
  | zero => rfl
  | succ n => simp [genSplit, IndexByte_eq_none h]

theorem genSplit_append {a : GoString} {c : Nat} (n : Nat) (b : GoString) (h : c ∉ a) :
    genSplit c (n + 1) (a ++ c :: b) = a :: genSplit c n b := by
  simp [genSplit, IndexByte_append b h]

theorem Split_of_not_mem {s : GoString} {c : Nat} (h : c ∉ s) : Split s c = [s] :=
  genSplit_of_not_mem _ h

theorem Split_append {a : GoString} {c : Nat} (b : GoString) (h : c ∉ a) :
    Split (a ++ c :: b) c = a :: Split b c := by
  have hc : (a ++ c :: b).count c = b.count c + 1 := by
    simp [List.count_append, List.count_eq_zero_of_not_mem h]
  unfold Split
  rw [hc, genSplit_append _ _ h]

theorem Split_ne_nil (s : GoString) (c : Nat) : Split s c ≠ [] := by
  by_cases h : c ∈ s
  · obtain ⟨a, b, hab, hca⟩ := exists_first h
    rw [hab, Split_append b hca]; simp
  · rw [Split_of_not_mem h]; simp

theorem Split_eq_pair {s p0 p1 : GoString} {c : Nat} :
    Split s c = [p0, p1] ↔ s = p0 ++ c :: p1 ∧ c ∉ p0 ∧ c ∉ p1 := by
  constructor
  · intro h
    by_cases hs : c ∈ s
    · obtain ⟨a, b, hab, hca⟩ := exists_first hs
      rw [hab, Split_append b hca] at h
      simp only [List.cons.injEq] at h
      obtain ⟨ha, hb⟩ := h
      by_cases hb' : c ∈ b
      · obtain ⟨a', b', hab', hca'⟩ := exists_first hb'
        rw [hab', Split_append b' hca'] at hb
        simp only [List.cons.injEq] at hb
        exact absurd hb.2 (Split_ne_nil _ _)
      · rw [Split_of_not_mem hb'] at hb
        simp only [List.cons.injEq, and_true] at hb
        subst ha; subst hb
        exact ⟨hab, hca, hb'⟩
    · rw [Split_of_not_mem hs] at h
      simp at h
  · rintro ⟨hs, h0, h1⟩
    rw [hs, Split_append p1 h0, Split_of_not_mem h1]

/-! ## Lower case of ASCII strings -/

theorem lowerByte_lt {c : Nat} (h : lowerByte c < 0x80) : c < 0x80 := by
  unfold lowerByte at h
  split at h <;> omega

theorem sameLetter_lower {a b : Nat} (h : sameLetter a b = true) (hb : 0x61 ≤ b ∧ b ≤ 0x7A) :
    lowerByte a = b := by
  unfold sameLetter at h
  unfold lowerByte
  simp only [Bool.or_eq_true, decide_eq_true_eq] at h
  split <;> omega

theorem sameLetter_of_lower {a : Nat} : sameLetter a (lowerByte a) = true := by
  unfold sameLetter lowerByte
  simp only [Bool.or_eq_true, decide_eq_true_eq]
  split <;> omega

theorem map_lower_of_equalIgnoringCase :
    ∀ (s t : GoString), equalIgnoringCase s t = true → (∀ b ∈ t, 0x61 ≤ b ∧ b ≤ 0x7A) →
      s.map lowerByte = t
  | [], [], _, _ => rfl
  | [], _ :: _, h, _ => by simp [equalIgnoringCase] at h
  | _ :: _, [], h, _ => by simp [equalIgnoringCase] at h
  | a :: s, b :: t, h, ht => by
    simp only [equalIgnoringCase, Bool.and_eq_true] at h
    have h1 := sameLetter_lower h.1 (ht b (by simp))
    have h2 := map_lower_of_equalIgnoringCase s t h.2 (fun x hx => ht x (by simp [hx]))
    simp [h1, h2]

theorem equalIgnoringCase_map_lower : ∀ (s : GoString), equalIgnoringCase s (s.map lowerByte) = true
  | [] => rfl
  | a :: s => by
    simp only [List.map_cons, equalIgnoringCase, Bool.and_eq_true]
    exact ⟨sameLetter_of_lower, equalIgnoringCase_map_lower s⟩

theorem ascii_of_map_lower {s t : GoString} (h : s.map lowerByte = t) (ht : ∀ b ∈ t, b < 0x80) :
    ∀ c ∈ s, c < 0x80 := by
  intro c hc
  apply lowerByte_lt
  apply ht
  rw [← h]
  exact List.mem_map_of_mem _ hc

theorem ToLower_ascii (tbl : List CaseRange) {s : GoString} (h : ∀ c ∈ s, c < 0x80) :
    ToLower tbl s = s.map lowerByte := by
  unfold ToLower
  rw [if_pos]
  simpa using h

theorem ToLower_of_equalIgnoringCase (tbl : List CaseRange) {s t : GoString}
    (h : equalIgnoringCase s t = true) (ht : ∀ b ∈ t, 0x61 ≤ b ∧ b ≤ 0x7A) :
    ToLower tbl s = t := by
  have hm := map_lower_of_equalIgnoringCase s t h ht
  rw [ToLower_ascii tbl (ascii_of_map_lower hm (fun b hb => by have := ht b hb; omega)), hm]

theorem equalIgnoringCase_of_ToLower (tbl : List CaseRange) {s t : GoString}
    (hs : ∀ c ∈ s, c < 0x80) (h : ToLower tbl s = t) : equalIgnoringCase s t = true := by
  rw [ToLower_ascii tbl hs] at h
  rw [← h]
  exact equalIgnoringCase_map_lower s

theorem not_mem_of_map_lower {s t : GoString} {c : Nat} (h : s.map lowerByte = t)
    (hc : lowerByte c = c) (ht : c ∉ t) : c ∉ s := by
  intro hm
  apply ht
  rw [← h, ← hc]
  exact List.mem_map_of_mem _ hm

/-! ## UUID text -/

theorem xtob_hex : ∀ b, b < 256 →
    xtob (hextable[b >>> 4]?.getD 0) (hextable[b &&& 0x0F]?.getD 0) = some b := by
  decide

theorem UUID.Parse_String {u : UUID} (h : u.WF) : UUID.Parse u.String = (u, none) := by
  obtain ⟨hlen, hb⟩ := h
  rcases u with _ | ⟨b0, _ | ⟨b1, _ | ⟨b2, _ | ⟨b3, _ | ⟨b4, _ | ⟨b5, _ | ⟨b6, _ | ⟨b7, _ | ⟨b8, _ |
    ⟨b9, _ | ⟨b10, _ | ⟨b11, _ | ⟨b12, _ | ⟨b13, _ | ⟨b14, _ | ⟨b15, _ | ⟨b16, t⟩⟩⟩⟩⟩⟩⟩⟩⟩⟩⟩⟩⟩⟩⟩⟩⟩ <;>
    simp at hlen
  simp only [List.mem_cons, List.mem_nil_iff, or_false, forall_eq_or_imp, forall_eq] at hb
  obtain ⟨h0, h1, h2, h3, h4, h5, h6, h7, h8, h9, h10, h11, h12, h13, h14, h15⟩ := hb
  simp [UUID.Parse, UUID.String, EncodeToString, xtobAt, xtob_hex _ h0, xtob_hex _ h1,
    xtob_hex _ h2, xtob_hex _ h3, xtob_hex _ h4, xtob_hex _ h5, xtob_hex _ h6, xtob_hex _ h7,
    xtob_hex _ h8, xtob_hex _ h9, xtob_hex _ h10, xtob_hex _ h11, xtob_hex _ h12, xtob_hex _ h13,
    xtob_hex _ h14, xtob_hex _ h15]

/-! ## Access tokens -/

theorem MakeJWT_eq (P : Primitives) (nowIat nowExp : Time) (userID : UUID) (tokenSecret : GoString)
    (expiresIn : Duration) :
    MakeJWT P nowIat nowExp userID tokenSecret expiresIn =
      (TokenString.compact
        { alg := some (str "HS256")
          Claims := claimsOf nowIat nowExp userID expiresIn
          signingString := P.SigningString (str "HS256") (claimsOf nowIat nowExp userID expiresIn)
          Signature := hmacSum P.Sum .SHA256 tokenSecret
            (P.SigningString (str "HS256") (claimsOf nowIat nowExp userID expiresIn)) }, none) := by
  rfl

theorem GetSigningMethod_HS256 :
    GetSigningMethod (str "HS256") = some (SigningMethod.HMAC .SHA256) := by
  decide

theorem ValidateJWT_MakeJWT (P : Primitives) (now nowIat nowExp : Time) (userID : UUID)
    (secretB secretA : GoString) (expiresIn : Duration) :
    ValidateJWT P now (MakeJWT P nowIat nowExp userID secretB expiresIn).1 secretA =
      if hmacSum P.Sum .SHA256 secretB
            (P.SigningString (str "HS256") (claimsOf nowIat nowExp userID expiresIn)) =
          hmacSum P.Sum .SHA256 secretA
            (P.SigningString (str "HS256") (claimsOf nowIat nowExp userID expiresIn)) then
        if now < NewNumericDate (Time.Add nowExp expiresIn) then
          match UUID.Parse (UUID.String userID) with
          | (_, some _) => (UUID.Nil, some Error.badUserID)
          | (u, none) => (u, none)
        else (UUID.Nil, some Error.tokenInvalidClaims)
      else (UUID.Nil, some Error.tokenSignatureInvalid) := by
  rw [MakeJWT_eq]
  simp only [ValidateJWT, ParseWithClaims, GetSigningMethod_HS256, keyFunc, SigningMethod.Verify]
  by_cases hsig : hmacSum P.Sum .SHA256 secretB
            (P.SigningString (str "HS256") (claimsOf nowIat nowExp userID expiresIn)) =
          hmacSum P.Sum .SHA256 secretA
            (P.SigningString (str "HS256") (claimsOf nowIat nowExp userID expiresIn))
  · rw [if_pos hsig, if_pos hsig]
    by_cases hexp : now < NewNumericDate (Time.Add nowExp expiresIn)
    · rw [if_pos hexp]
      have hv : Validate now (claimsOf nowIat nowExp userID expiresIn) = none := by
        simp [Validate, verifyExpiresAt, verifyNotBefore, claimsOf, Time.Before, hexp]
      simp only [hv]
      simp [claimsOf]
    · rw [if_neg hexp]
      have hv : Validate now (claimsOf nowIat nowExp userID expiresIn) =
          some Error.tokenInvalidClaims := by
        simp [Validate, verifyExpiresAt, verifyNotBefore, claimsOf, Time.Before, hexp]
      simp only [hv]
  · rw [if_neg hsig, if_neg hsig]

theorem NewNumericDate_le (t : Time) : NewNumericDate t ≤ t := by
  unfold NewNumericDate Time.Truncate TimePrecision Second
  rw [if_neg (by decide)]
  exact Int.sub_le_self _
    (Int.emod_nonneg (t + unixToInternal * 1000000000) (show (1000000000 : Int) ≠ 0 by decide))

theorem NewNumericDate_eq (t : Time) : NewNumericDate t = t - t % 1000000000 := by
  unfold NewNumericDate Time.Truncate TimePrecision Second
  rw [if_neg (by decide), Int.add_mul_emod_self]

theorem hmacSum_trailing_zero (Sum : HashAlg → GoString → GoString) (msg : GoString) :
    hmacSum Sum .SHA256 [0x6B, 0] msg = hmacSum Sum .SHA256 [0x6B] msg := by
  rfl

theorem GetSigningMethod_Alg {alg : GoString} {m : SigningMethod}
    (h : GetSigningMethod alg = some m) : m.Alg = alg := by
  unfold GetSigningMethod at h
  have := List.find?_some h
  simpa using this

/-! ## Header parsing -/

theorem GetBearerToken_empty_credential (CaseRanges : List CaseRange) :
    GetBearerToken CaseRanges (authorization (str "Bearer ")) = ([], none) := by
  have h : ToLower CaseRanges (str "Bearer") = str "bearer" :=
    ToLower_of_equalIgnoringCase CaseRanges (by decide) (by decide)
  have hs : Split (str "Bearer ") 0x20 = [str "Bearer", []] := by decide
  have hg : (authorization (str "Bearer ")).Get (str "Authorization") = str "Bearer " := by decide
  unfold GetBearerToken
  simp only [hg, hs, h]
  decide

theorem ToLower_kelvinScheme (CaseRanges : List CaseRange)
    (h : unicodeToLower CaseRanges 0x212A = 0x6B) :
    ToLower CaseRanges kelvinScheme = str "apikey" := by
  have hk : kelvinScheme = [0x41, 0x70, 0x69, 0xE2, 0x84, 0xAA, 0x65, 0x79] := by decide
  have hr : rangeRunes 8 [0x41, 0x70, 0x69, 0xE2, 0x84, 0xAA, 0x65, 0x79]
      = [0x41, 0x70, 0x69, 0x212A, 0x65, 0x79] := by decide
  have h1 : unicodeToLower CaseRanges 0x41 = 0x61 := rfl
  have h2 : unicodeToLower CaseRanges 0x70 = 0x70 := rfl
  have h3 : unicodeToLower CaseRanges 0x69 = 0x69 := rfl
  have h4 : unicodeToLower CaseRanges 0x65 = 0x65 := rfl
  have h5 : unicodeToLower CaseRanges 0x79 = 0x79 := rfl
  rw [hk]
  unfold ToLower
  rw [if_neg (by decide)]
  unfold Map
  simp only [List.length_cons, List.length_nil, Nat.reduceAdd]
  rw [hr]
  simp only [List.flatMap_cons, List.flatMap_nil, h, h1, h2, h3, h4, h5]
  decide

theorem GetAPIKey_eq_iff (CaseRanges : List CaseRange) (headers : Header) (k : GoString) :
    GetAPIKey CaseRanges headers = (k, none) ↔
      ∃ p0, Split (headers.Get (str "Authorization")) 0x20 = [p0, k] ∧
        ToLower CaseRanges p0 = str "apikey" := by
  have hnil : Split [] 0x20 = [[]] := by decide
  unfold GetAPIKey
  simp only []
  split
  · rename_i hempty
    rw [hempty, hnil]
    constructor
    · intro h; simp at h
    · rintro ⟨p0, hsp, _⟩
      simp at hsp
  · split
    · rename_i p0 p1 heq
      rw [heq]
      split
      · rename_i hlow
        constructor
        · intro h; simp at h
        · rintro ⟨q0, hsp, hq⟩
          simp only [List.cons.injEq, and_true] at hsp
          rw [hsp.1] at hlow
          exact absurd hq hlow
      · rename_i hlow
        constructor
        · intro h
          simp only [Prod.mk.injEq, and_true] at h
          exact ⟨p0, by rw [h], not_not.mp hlow⟩
        · rintro ⟨q0, hsp, _⟩
          simp only [List.cons.injEq, and_true] at hsp
          rw [hsp.2]
    · rename_i hne
      constructor
      · intro h; simp at h
      · rintro ⟨q0, hsp, _⟩
        exact absurd hsp (hne q0 k)

theorem GetAPIKey_error (CaseRanges : List CaseRange) (headers : Header)
    (h : (GetAPIKey CaseRanges headers).2 ≠ none) : (GetAPIKey CaseRanges headers).1 = [] := by
  revert h
  unfold GetAPIKey
  simp only []
  split
  · simp
  · split
    · split <;> simp
    · simp

/-! ## Hexadecimal encoding -/

theorem EncodeToString_length (src : GoString) : (EncodeToString src).length = 2 * src.length := by
  induction src with
  | nil => rfl
  | cons v vs ih =>
    have : EncodeToString (v :: vs)
        = hextable.getD (v >>> 4) 0 :: hextable.getD (v &&& 0x0F) 0 :: EncodeToString vs := rfl
    rw [this]
    simp only [List.length_cons, ih]
    omega

theorem hextable_hex : ∀ b, b < 256 →
    ((0x30 ≤ hextable.getD (b >>> 4) 0 ∧ hextable.getD (b >>> 4) 0 ≤ 0x39) ∨
      (0x61 ≤ hextable.getD (b >>> 4) 0 ∧ hextable.getD (b >>> 4) 0 ≤ 0x66)) ∧
    ((0x30 ≤ hextable.getD (b &&& 0x0F) 0 ∧ hextable.getD (b &&& 0x0F) 0 ≤ 0x39) ∨
      (0x61 ≤ hextable.getD (b &&& 0x0F) 0 ∧ hextable.getD (b &&& 0x0F) 0 ≤ 0x66)) := by
  decide

theorem EncodeToString_hex {src : GoString} (h : ∀ b ∈ src, b < 256) :
    ∀ c ∈ EncodeToString src, (0x30 ≤ c ∧ c ≤ 0x39) ∨ (0x61 ≤ c ∧ c ≤ 0x66) := by
  induction src with
  | nil => intro c hc; cases hc
  | cons v vs ih =>
    have hcons : EncodeToString (v :: vs)
        = hextable.getD (v >>> 4) 0 :: hextable.getD (v &&& 0x0F) 0 :: EncodeToString vs := rfl
    rw [hcons]
    have hv := hextable_hex v (h v (by simp))
    intro c hc
    rcases List.mem_cons.mp hc with e | hc
    · rw [e]; exact hv.1
    · rcases List.mem_cons.mp hc with e | hc
      · rw [e]; exact hv.2
      · exact ih (fun b hb => h b (by simp [hb])) c hc

/-! ## Password hashing -/

theorem keyBytes_length {n : Nat} (k : Mathlib.Vector (Fin 256) n) : (keyBytes k).length = n := by
  simp [keyBytes]

theorem keyBytes_inj {n : Nat} {a b : Mathlib.Vector (Fin 256) n} (h : keyBytes a = keyBytes b) :
    a = b := by
  apply Mathlib.Vector.toList_injective
  exact List.map_injective_iff.mpr (fun x y hxy => Fin.ext hxy) h

theorem HashPassword_eq (IDKey : KDF) (numCPU : Nat) (salt : GoString) (p : GoString) :
    HashPassword IDKey numCPU (salt, none) p =
      (HashString.encoded
        { Memory := 64 * 1024, Iterations := 1, Parallelism := numCPU % 256, salt := salt,
          key := keyBytes (IDKey p salt 1 (64 * 1024) (numCPU % 256) 32) }, none) := by
  rfl

theorem HashPassword_error (IDKey : KDF) (numCPU : Nat) (salt : GoString) (e : Error)
    (p : GoString) : (HashPassword IDKey numCPU (salt, some e) p).2 ≠ none := by
  simp [HashPassword, CreateHash]

theorem CheckPasswordHash_HashPassword (IDKey : KDF) (numCPU : Nat) (salt : GoString)
    (p q : GoString) :
    CheckPasswordHash IDKey q (HashPassword IDKey numCPU (salt, none) p).1 =
      (decide (IDKey q salt 1 (64 * 1024) (numCPU % 256) 32
        = IDKey p salt 1 (64 * 1024) (numCPU % 256) 32), none) := by
  rw [HashPassword_eq]
  simp only [CheckPasswordHash, ComparePasswordAndHash]
  have hlen : (keyBytes (IDKey p salt 1 (64 * 1024) (numCPU % 256) 32)).length = 32 :=
    keyBytes_length _
  rw [hlen]
  simp only [keyBytes_length, ne_eq, not_true_eq_false, if_false]
  by_cases h : IDKey q salt 1 (64 * 1024) (numCPU % 256) 32
      = IDKey p salt 1 (64 * 1024) (numCPU % 256) 32
  · simp [h]
  · have h2 : ¬ keyBytes (IDKey p salt 1 (64 * 1024) (numCPU % 256) 32)
        = keyBytes (IDKey q salt 1 (64 * 1024) (numCPU % 256) 32) :=
      fun e => h (keyBytes_inj e).symm
    simp [h, h2]

/-! ## Checked index and slice expressions -/

theorem sliceTo_ok {s : GoString} {n : Nat} (h : n ≤ s.length) : sliceTo s n = .ok (s.take n) := by
  unfold sliceTo
  rw [if_pos h]

theorem getCredentialChecked_eq (scheme : GoString) (CaseRanges : List CaseRange)
    (headers : Header) :
    getCredentialChecked scheme CaseRanges headers =
      .ok (if headers.Get (str "Authorization") = [] then ([], some Error.missingAuthorization)
        else
          match Split (headers.Get (str "Authorization")) 0x20 with
          | [p0, p1] =>
            if ToLower CaseRanges p0 ≠ scheme then ([], some Error.badAuthorizationFormat)
            else (p1, none)
          | _ => ([], some Error.badAuthorizationFormat)) := by
  unfold getCredentialChecked
  by_cases hempty : headers.Get (str "Authorization") = []
  · simp [hempty]
  · simp only [hempty, if_false]
    rcases hsp : Split (headers.Get (str "Authorization")) 0x20 with
      _ | ⟨p0, _ | ⟨p1, _ | ⟨p2, t⟩⟩⟩
    · simp [Except.bind]
    · simp [Except.bind]
    · by_cases hlow : ToLower CaseRanges p0 = scheme
      · simp [index, Except.bind, Except.map, hlow]
      · simp [index, Except.bind, Except.map, hlow]
    · simp [Except.bind]

theorem GetBearerTokenChecked_eq (CaseRanges : List CaseRange) (headers : Header) :
    GetBearerTokenChecked CaseRanges headers = .ok (GetBearerToken CaseRanges headers) := by
  unfold GetBearerTokenChecked GetBearerToken
  exact getCredentialChecked_eq _ _ _

theorem GetAPIKeyChecked_eq (CaseRanges : List CaseRange) (headers : Header) :
    GetAPIKeyChecked CaseRanges headers = .ok (GetAPIKey CaseRanges headers) := by
  unfold GetAPIKeyChecked GetAPIKey
  exact getCredentialChecked_eq _ _ _

/-! ## The paths of the refresh handler -/

theorem MakeJWT_snd (P : Primitives) (nowIat nowExp : Time) (userID : UUID) (tokenSecret : GoString)
    (expiresIn : Duration) : (MakeJWT P nowIat nowExp userID tokenSecret expiresIn).2 = none := by
  rw [MakeJWT_eq]

theorem Refresh_header_error {σ : Type} (rt : Runtime) (Db : Queries σ) (cfg : ApiConfig)
    (nowIat nowExp : Time) (r : Request) (db : σ) {t : GoString} {e : Error}
    (h : GetBearerToken rt.CaseRanges r.Header = (t, some e)) :
    RefreshTokenHandler rt Db cfg nowIat nowExp r db =
      .ok { response := RespondWithError StatusUnauthorized
              (str "Неверный или отсутствующий токен")
            db := db, calls := [] } := by
  simp [RefreshTokenHandler, h]

theorem Refresh_wrong_length {σ : Type} (rt : Runtime) (Db : Queries σ) (cfg : ApiConfig)
    (nowIat nowExp : Time) (r : Request) (db : σ) {tok : GoString}
    (h : GetBearerToken rt.CaseRanges r.Header = (tok, none)) (hlen : tok.length ≠ 64) :
    RefreshTokenHandler rt Db cfg nowIat nowExp r db =
      .ok { response := RespondWithError StatusUnauthorized (str "Неверный токен")
            db := db, calls := [] } := by
  simp [RefreshTokenHandler, h, hlen]

theorem Refresh_not_found {σ : Type} (rt : Runtime) (Db : Queries σ) (cfg : ApiConfig)
    (nowIat nowExp : Time) (r : Request) (db : σ) {tok : GoString} {u : DbUser}
    (h : GetBearerToken rt.CaseRanges r.Header = (tok, none)) (hlen : tok.length = 64)
    (hdb : Db.GetUserFromRefreshToken db tok = (u, some DbError.ErrNoRows)) :
    RefreshTokenHandler rt Db cfg nowIat nowExp r db =
      .ok { response := RespondWithError StatusUnauthorized (str "Неверный или истекший токен")
            db := db, calls := [Call.GetUserFromRefreshToken tok] } := by
  have hs : sliceTo tok 8 = .ok (tok.take 8) := sliceTo_ok (by omega)
  simp [RefreshTokenHandler, h, hlen, hs, hdb, Except.bind]

theorem Refresh_store_error {σ : Type} (rt : Runtime) (Db : Queries σ) (cfg : ApiConfig)
    (nowIat nowExp : Time) (r : Request) (db : σ) {tok : GoString} {u : DbUser} {e : DbError}
    (h : GetBearerToken rt.CaseRanges r.Header = (tok, none)) (hlen : tok.length = 64)
    (hdb : Db.GetUserFromRefreshToken db tok = (u, some e)) (he : e ≠ DbError.ErrNoRows) :
    RefreshTokenHandler rt Db cfg nowIat nowExp r db =
      .ok { response := RespondWithError StatusInternalServerError
              (str "Внутренняя ошибка сервера")
            db := db, calls := [Call.GetUserFromRefreshToken tok] } := by
  have hs : sliceTo tok 8 = .ok (tok.take 8) := sliceTo_ok (by omega)
  simp [RefreshTokenHandler, h, hlen, hs, hdb, he, Except.bind]

theorem Refresh_found {σ : Type} (rt : Runtime) (Db : Queries σ) (cfg : ApiConfig)
    (nowIat nowExp : Time) (r : Request) (db : σ) {tok : GoString} {u : DbUser}
    (h : GetBearerToken rt.CaseRanges r.Header = (tok, none)) (hlen : tok.length = 64)
    (hdb : Db.GetUserFromRefreshToken db tok = (u, none)) :
    RefreshTokenHandler rt Db cfg nowIat nowExp r db =
      .ok { response := RespondWithJSON StatusOK
              (Payload.token (MakeJWT rt.P nowIat nowExp u.ID cfg.JWTsecret Hour).1)
            db := db, calls := [Call.GetUserFromRefreshToken tok] } := by
  have hs : sliceTo tok 8 = .ok (tok.take 8) := sliceTo_ok (by omega)
  simp [RefreshTokenHandler, h, hlen, hs, hdb, Except.bind, MakeJWT_eq]

/-! ## The paths of the revoke handler -/

theorem Revoke_wrong_length {σ : Type} (rt : Runtime) (Db : Queries σ) (r : Request) (db : σ)
    {tok : GoString} (h : GetBearerToken rt.CaseRanges r.Header = (tok, none))
    (hlen : tok.length ≠ 64) :
    RevokeTokenHandler rt Db r db =
      .ok { response := WriteHeader StatusNoContent, db := db, calls := [] } := by
  simp [RevokeTokenHandler, h, hlen]

theorem Revoke_not_found {σ : Type} (rt : Runtime) (Db : Queries σ) (r : Request) (db : σ)
    {tok : GoString} {db1 : σ} (h : GetBearerToken rt.CaseRanges r.Header = (tok, none))
    (hlen : tok.length = 64)
    (hdb : Db.RevokeRefreshToken db tok = (some DbError.ErrNoRows, db1)) :
    RevokeTokenHandler rt Db r db =
      .ok { response := WriteHeader StatusNoContent, db := db1
            calls := [Call.RevokeRefreshToken tok] } := by
  have hs : sliceTo tok 8 = .ok (tok.take 8) := sliceTo_ok (by omega)
  simp [RevokeTokenHandler, h, hlen, hs, hdb, Except.bind]

theorem Revoke_done {σ : Type} (rt : Runtime) (Db : Queries σ) (r : Request) (db : σ)
    {tok : GoString} {db1 : σ} (h : GetBearerToken rt.CaseRanges r.Header = (tok, none))
    (hlen : tok.length = 64) (hdb : Db.RevokeRefreshToken db tok = (none, db1)) :
    RevokeTokenHandler rt Db r db =
      .ok { response := WriteHeader StatusNoContent, db := db1
            calls := [Call.RevokeRefreshToken tok] } := by
  have hs : sliceTo tok 8 = .ok (tok.take 8) := sliceTo_ok (by omega)
  simp [RevokeTokenHandler, h, hlen, hs, hdb, Except.bind]

theorem Revoke_store_error {σ : Type} (rt : Runtime) (Db : Queries σ) (r : Request) (db : σ)
    {tok : GoString} {db1 : σ} {e : DbError}
    (h : GetBearerToken rt.CaseRanges r.Header = (tok, none)) (hlen : tok.length = 64)
    (hdb : Db.RevokeRefreshToken db tok = (some e, db1)) (he : e ≠ DbError.ErrNoRows) :
    RevokeTokenHandler rt Db r db =
      .ok { response := RespondWithError StatusInternalServerError
              (str "Внутренняя ошибка сервера")
            db := db1, calls := [Call.RevokeRefreshToken tok] } := by
  have hs : sliceTo tok 8 = .ok (tok.take 8) := sliceTo_ok (by omega)
  simp [RevokeTokenHandler, h, hlen, hs, hdb, he, Except.bind]

theorem Revoke_header_error {σ : Type} (rt : Runtime) (Db : Queries σ) (r : Request) (db : σ)
    {t : GoString} {e : Error} (h : GetBearerToken rt.CaseRanges r.Header = (t, some e)) :
    RevokeTokenHandler rt Db r db =
      .ok { response := RespondWithError StatusUnauthorized
              (str "Неверный или отсутствующий токен")
            db := db, calls := [] } := by
  simp [RevokeTokenHandler, h]

theorem Revoke_total {σ : Type} (rt : Runtime) (Db : Queries σ) (r : Request) (db : σ) :
    ∃ out, RevokeTokenHandler rt Db r db = .ok out := by
  rcases hg : GetBearerToken rt.CaseRanges r.Header with ⟨tok, _ | e⟩
  · by_cases hlen : tok.length = 64
    · rcases hdb : Db.RevokeRefreshToken db tok with ⟨_ | e, db1⟩
      · exact ⟨_, Revoke_done rt Db r db hg hlen hdb⟩
      · by_cases he : e = DbError.ErrNoRows
        · subst he
          exact ⟨_, Revoke_not_found rt Db r db hg hlen hdb⟩
        · exact ⟨_, Revoke_store_error rt Db r db hg hlen hdb he⟩
    · exact ⟨_, Revoke_wrong_length rt Db r db hg hlen⟩
  · exact ⟨_, Revoke_header_error rt Db r db hg⟩

/-- The outcome of the refresh handler in closed form: it never panics, it
leaves the store as it was, and it calls nothing but the lookup. -/
theorem Refresh_total {σ : Type} (rt : Runtime) (Db : Queries σ) (cfg : ApiConfig)
    (nowIat nowExp : Time) (r : Request) (db : σ) :
    ∃ out, RefreshTokenHandler rt Db cfg nowIat nowExp r db = .ok out ∧ out.db = db ∧
      (out.calls = [] ∨
        out.calls = [Call.GetUserFromRefreshToken (GetBearerToken rt.CaseRanges r.Header).1]) := by
  rcases hg : GetBearerToken rt.CaseRanges r.Header with ⟨tok, _ | e⟩
  · by_cases hlen : tok.length = 64
    · rcases hdb : Db.GetUserFromRefreshToken db tok with ⟨u, _ | e⟩
      · exact ⟨_, Refresh_found rt Db cfg nowIat nowExp r db hg hlen hdb, rfl, Or.inr rfl⟩
      · by_cases he : e = DbError.ErrNoRows
        · subst he
          exact ⟨_, Refresh_not_found rt Db cfg nowIat nowExp r db hg hlen hdb, rfl, Or.inr rfl⟩
        · exact ⟨_, Refresh_store_error rt Db cfg nowIat nowExp r db hg hlen hdb he, rfl,
            Or.inr rfl⟩
    · exact ⟨_, Refresh_wrong_length rt Db cfg nowIat nowExp r db hg hlen, rfl, Or.inl rfl⟩
  · exact ⟨_, Refresh_header_error rt Db cfg nowIat nowExp r db hg, rfl, Or.inl rfl⟩

/-! ## The paths of the login handler -/

theorem Login_unknown_user {σ : Type} (rt : Runtime) (Db : Queries σ) (cfg : ApiConfig)
    (nowIat nowExp : Time) (randRead : GoString × Option Error) (now : Time) (r : Request)
    (db : σ) {reqBody : Credentials} {u : DbUser}
    (hdec : rt.decodeCredentials r.Body = (reqBody, none))
    (hemail : reqBody.Email ≠ []) (hpw : reqBody.Password ≠ [])
    (hlen : reqBody.Email.length ≤ 255)
    (hdb : Db.GetUserByEmail db reqBody.Email = (u, some DbError.ErrNoRows)) :
    LoginHandler rt Db cfg nowIat nowExp randRead now r db =
      { response := RespondWithError StatusUnauthorized (str "Неверный email или пароль")
        db := db, calls := [Call.GetUserByEmail reqBody.Email] } := by
  have hl : ¬ reqBody.Email.length > 255 := by omega
  simp [LoginHandler, hdec, hemail, hpw, hl, hdb]

theorem Login_wrong_password {σ : Type} (rt : Runtime) (Db : Queries σ) (cfg : ApiConfig)
    (nowIat nowExp : Time) (randRead : GoString × Option Error) (now : Time) (r : Request)
    (db : σ) {reqBody : Credentials} {u : DbUser}
    (hdec : rt.decodeCredentials r.Body = (reqBody, none))
    (hemail : reqBody.Email ≠ []) (hpw : reqBody.Password ≠ [])
    (hlen : reqBody.Email.length ≤ 255)
    (hdb : Db.GetUserByEmail db reqBody.Email = (u, none))
    (hcheck : CheckPasswordHash rt.IDKey reqBody.Password u.HashedPassword = (false, none)) :
    LoginHandler rt Db cfg nowIat nowExp randRead now r db =
      { response := RespondWithError StatusUnauthorized (str "Неверный email или пароль")
        db := db, calls := [Call.GetUserByEmail reqBody.Email] } := by
  have hl : ¬ reqBody.Email.length > 255 := by omega
  simp [LoginHandler, hdec, hemail, hpw, hl, hdb, hcheck]

theorem Login_success {σ : Type} (rt : Runtime) (Db : Queries σ) (cfg : ApiConfig)
    (nowIat nowExp : Time) (randRead : GoString × Option Error) (now : Time) (r : Request)
    (db : σ) {reqBody : Credentials} {u : DbUser} {refreshToken : GoString} {db1 : σ}
    (hdec : rt.decodeCredentials r.Body = (reqBody, none))
    (hemail : reqBody.Email ≠ []) (hpw : reqBody.Password ≠ [])
    (hlen : reqBody.Email.length ≤ 255)
    (hdb : Db.GetUserByEmail db reqBody.Email = (u, none))
    (hcheck : CheckPasswordHash rt.IDKey reqBody.Password u.HashedPassword = (true, none))
    (hrand : MakeRefreshToken randRead = (refreshToken, none))
    (hcreate : Db.CreateRefreshToken db
      { Token := refreshToken, UserID := u.ID, ExpiresAt := now + 5184000 * Second }
      = (none, db1)) :
    LoginHandler rt Db cfg nowIat nowExp randRead now r db =
      { response := RespondWithJSON StatusOK
          (Payload.login u.toUser
            (MakeJWT rt.P nowIat nowExp u.ID cfg.JWTsecret (3600 * Second)).1 refreshToken)
        db := db1
        calls := [Call.GetUserByEmail reqBody.Email,
          Call.CreateRefreshToken
            { Token := refreshToken, UserID := u.ID, ExpiresAt := now + 5184000 * Second }] } := by
  have hl : ¬ reqBody.Email.length > 255 := by omega
  have hexp : Time.Add now (60 * 24 * Hour) = now + 5184000 * Second := by
    unfold Time.Add; congr 1
  have hhour : (3600 * Second : Duration) = Hour := rfl
  unfold LoginHandler
  rw [hdec]
  simp only [hemail, hpw, hl, or_self, if_false, hdb, hcheck, hrand, hexp, hhour,
    Bool.not_true, Bool.false_eq_true]
  rw [MakeJWT_eq]
  simp only [hcreate]

theorem Login_ok_inv {σ : Type} (rt : Runtime) (Db : Queries σ) (cfg : ApiConfig)
    (nowIat nowExp : Time) (randRead : GoString × Option Error) (now : Time) (r : Request)
    (db : σ) (h : (LoginHandler rt Db cfg nowIat nowExp randRead now r db).response.code = 200) :
    ∃ reqBody u refreshToken,
      rt.decodeCredentials r.Body = (reqBody, none) ∧
      Db.GetUserByEmail db reqBody.Email = (u, none) ∧
      MakeRefreshToken randRead = (refreshToken, none) ∧
      (LoginHandler rt Db cfg nowIat nowExp randRead now r db).response =
        RespondWithJSON StatusOK
          (Payload.login u.toUser
            (MakeJWT rt.P nowIat nowExp u.ID cfg.JWTsecret (3600 * Second)).1 refreshToken) ∧
      (LoginHandler rt Db cfg nowIat nowExp randRead now r db).calls =
        [Call.GetUserByEmail reqBody.Email,
          Call.CreateRefreshToken
            { Token := refreshToken, UserID := u.ID, ExpiresAt := now + 5184000 * Second }] := by
  rcases hdec : rt.decodeCredentials r.Body with ⟨reqBody, _ | e⟩
  swap
  · simp [LoginHandler, hdec, RespondWithError, RespondWithJSON, StatusBadRequest] at h
  by_cases hempty : reqBody.Email = [] ∨ reqBody.Password = []
  · simp [LoginHandler, hdec, hempty, RespondWithError, RespondWithJSON, StatusBadRequest] at h
  by_cases hl : reqBody.Email.length > 255
  · simp [LoginHandler, hdec, hempty, hl, RespondWithError, RespondWithJSON, StatusBadRequest] at h
  rcases hdb : Db.GetUserByEmail db reqBody.Email with ⟨u, _ | e⟩
  swap
  · by_cases he : e = DbError.ErrNoRows <;>
      simp [LoginHandler, hdec, hempty, hl, hdb, he, RespondWithError, RespondWithJSON,
        StatusUnauthorized, StatusInternalServerError] at h
  rcases hcheck : CheckPasswordHash rt.IDKey reqBody.Password u.HashedPassword with ⟨m, _ | e⟩
  swap
  · simp [LoginHandler, hdec, hempty, hl, hdb, hcheck, RespondWithError, RespondWithJSON,
      StatusInternalServerError] at h
  cases m
  · simp [LoginHandler, hdec, hempty, hl, hdb, hcheck, RespondWithError, RespondWithJSON,
      StatusUnauthorized] at h
  rcases hrand : MakeRefreshToken randRead with ⟨refreshToken, _ | e⟩
  swap
  · simp [LoginHandler, hdec, hempty, hl, hdb, hcheck, hrand, MakeJWT_eq, RespondWithError,
      RespondWithJSON, StatusInternalServerError] at h
  rcases hcreate : Db.CreateRefreshToken db
      { Token := refreshToken, UserID := u.ID, ExpiresAt := now + 5184000 * Second }
    with ⟨_ | e, db1⟩
  swap
  · have hexp : Time.Add now (60 * 24 * Hour) = now + 5184000 * Second := by
      unfold Time.Add; congr 1
    unfold LoginHandler at h
    rw [hdec] at h
    simp only [hempty, hl, if_false, hdb, hcheck, hrand, hexp, Bool.not_true,
      Bool.false_eq_true] at h
    rw [MakeJWT_eq] at h
    simp only [hcreate] at h
    simp [RespondWithError, RespondWithJSON, StatusInternalServerError] at h
  have hemail : reqBody.Email ≠ [] := fun e => hempty (Or.inl e)
  have hpw : reqBody.Password ≠ [] := fun e => hempty (Or.inr e)
  have hs := Login_success rt Db cfg nowIat nowExp randRead now r db hdec hemail hpw
    (by omega) hdb hcheck hrand hcreate
  exact ⟨reqBody, u, refreshToken, rfl, hdb, rfl, by rw [hs], by rw [hs]⟩

/-! ## Lifetimes -/

theorem truncate_difference (n e : Int) (h : e % 1000000000 = 0) :
    (n + e) - (n + e) % 1000000000 - (n - n % 1000000000) = e := by
  omega

theorem truncate_difference_readings (a b e : Int) (h : e % 1000000000 = 0) :
    (b + e) - (b + e) % 1000000000 - (a - a % 1000000000)
        = e + ((b - b % 1000000000) - (a - a % 1000000000)) ∧
      ((b + e) - (b + e) % 1000000000 - (a - a % 1000000000) = e ↔
        b / 1000000000 = a / 1000000000) := by
  omega

theorem truncate_difference_bounds (a b e : Int) :
    e + (b - a) - 1000000000 < (b + e) - (b + e) % 1000000000 - (a - a % 1000000000) ∧
      (b + e) - (b + e) % 1000000000 - (a - a % 1000000000) < e + (b - a) + 1000000000 := by
  omega

theorem Refresh_ok_inv {σ : Type} (rt : Runtime) (Db : Queries σ) (cfg : ApiConfig)
    (nowIat nowExp : Time) (r : Request) (db : σ) (out : Outcome σ)
    (hout : RefreshTokenHandler rt Db cfg nowIat nowExp r db = .ok out)
    (hcode : out.response.code = 200) :
    ∃ tok u, GetBearerToken rt.CaseRanges r.Header = (tok, none) ∧
      Db.GetUserFromRefreshToken db tok = (u, none) ∧
      out.response = RespondWithJSON StatusOK
        (Payload.token (MakeJWT rt.P nowIat nowExp u.ID cfg.JWTsecret (3600 * Second)).1) := by
  rcases hg : GetBearerToken rt.CaseRanges r.Header with ⟨tok, _ | e⟩
  · by_cases hlen : tok.length = 64
    · rcases hdb : Db.GetUserFromRefreshToken db tok with ⟨u, _ | e⟩
      · rw [Refresh_found rt Db cfg nowIat nowExp r db hg hlen hdb] at hout
        cases hout
        exact ⟨tok, u, rfl, hdb, rfl⟩
      · by_cases he : e = DbError.ErrNoRows
        · subst he
          rw [Refresh_not_found rt Db cfg nowIat nowExp r db hg hlen hdb] at hout
          cases hout
          simp [RespondWithError, RespondWithJSON, StatusUnauthorized,
            StatusInternalServerError] at hcode
        · rw [Refresh_store_error rt Db cfg nowIat nowExp r db hg hlen hdb he] at hout
          cases hout
          simp [RespondWithError, RespondWithJSON, StatusUnauthorized,
            StatusInternalServerError] at hcode
    · rw [Refresh_wrong_length rt Db cfg nowIat nowExp r db hg hlen] at hout
      cases hout
      simp [RespondWithError, RespondWithJSON, StatusUnauthorized] at hcode
  · rw [Refresh_header_error rt Db cfg nowIat nowExp r db hg] at hout
    cases hout
    simp [RespondWithError, RespondWithJSON, StatusUnauthorized] at hcode

/-! ## The update and delete handlers -/

theorem Update_password_changed {σ : Type} (rt : Runtime) (Db : Queries σ) (cfg : ApiConfig)
    (now : Time) (randRead : GoString × Option Error) (r : Request) (db : σ)
    {tok : GoString} {userID : UUID} {reqBody : Credentials} {email : GoString}
    {hash : HashString} {updated : DbUser} {db1 : σ}
    (hg : GetBearerToken rt.CaseRanges r.Header = (tok, none))
    (hv : ValidateJWT rt.P now (rt.tokenOf tok) cfg.JWTsecret = (userID, none))
    (hdec : rt.decodeCredentials r.Body = (reqBody, none))
    (hpw : reqBody.Password ≠ [])
    (hemail : (reqBody.Email ≠ [] ∧ reqBody.Email.length ≤ 255 ∧ email = reqBody.Email) ∨
      (reqBody.Email = [] ∧ ∃ cur, Db.GetUserByID db userID = (cur, none) ∧ email = cur.Email))
    (hhash : HashPassword rt.IDKey rt.numCPU randRead reqBody.Password = (hash, none))
    (hupd : Db.UpdateUser db { ID := userID, Email := email, HashedPassword := hash }
      = ((updated, none), db1)) :
    (UpdateUserHandler rt Db cfg now randRead r db).response
      = RespondWithJSON StatusOK (Payload.user updated.toUser) ∧
    (UpdateUserHandler rt Db cfg now randRead r db).db
      = (Db.RevokeAllUserRefreshTokens db1 userID).2 ∧
    ∃ before, (UpdateUserHandler rt Db cfg now randRead r db).calls
      = before ++ [Call.UpdateUser { ID := userID, Email := email, HashedPassword := hash },
          Call.RevokeAllUserRefreshTokens userID] := by
  rcases hemail with ⟨he, hlen, rfl⟩ | ⟨he, cur, hcur, rfl⟩
  · have hl : ¬ reqBody.Email.length > 255 := by omega
    simp only [UpdateUserHandler, hg, hv, hdec, he, hpw, hl, hhash, and_false, false_and,
      if_false, ne_eq, not_false_eq_true, if_true, List.nil_append, hupd]
    exact ⟨trivial, trivial, [], rfl⟩
  · simp only [UpdateUserHandler, hg, hv, hdec, he, hpw, hhash, hcur, and_false, false_and,
      if_false, ne_eq, not_false_eq_true, if_true, not_true_eq_false, List.append_nil, hupd]
    exact ⟨trivial, trivial, [Call.GetUserByID userID], rfl⟩

theorem Update_email_only {σ : Type} (rt : Runtime) (Db : Queries σ) (cfg : ApiConfig)
    (now : Time) (randRead : GoString × Option Error) (r : Request) (db : σ)
    (h : (rt.decodeCredentials r.Body).1.Password = []) :
    ∀ c ∈ (UpdateUserHandler rt Db cfg now randRead r db).calls,
      ∀ userID, c ≠ Call.RevokeAllUserRefreshTokens userID := by
  rcases hg : GetBearerToken rt.CaseRanges r.Header with ⟨tok, _ | e⟩
  swap
  · simp [UpdateUserHandler, hg]
  rcases hv : ValidateJWT rt.P now (rt.tokenOf tok) cfg.JWTsecret with ⟨userID, _ | e⟩
  swap
  · simp [UpdateUserHandler, hg, hv]
  rcases hdec : rt.decodeCredentials r.Body with ⟨reqBody, _ | e⟩
  swap
  · simp [UpdateUserHandler, hg, hv, hdec]
  rw [hdec] at h
  simp only at h
  by_cases he : reqBody.Email = []
  · simp [UpdateUserHandler, hg, hv, hdec, h, he]
  by_cases hl : reqBody.Email.length > 255
  · simp [UpdateUserHandler, hg, hv, hdec, h, he, hl]
  rcases hcur : Db.GetUserByID db userID with ⟨cur, _ | e⟩
  swap
  · simp [UpdateUserHandler, hg, hv, hdec, h, he, hl, hcur]
  rcases hupd : Db.UpdateUser db
      { ID := userID, Email := reqBody.Email, HashedPassword := cur.HashedPassword }
    with ⟨⟨updated, _ | e⟩, db1⟩
  · simp [UpdateUserHandler, hg, hv, hdec, h, he, hl, hcur, hupd]
  · by_cases hu : Contains e.Error (str "unique") = true <;>
      simp [UpdateUserHandler, hg, hv, hdec, h, he, hl, hcur, hupd, hu]

theorem Delete_forbidden {σ : Type} (rt : Runtime) (Db : Queries σ) (cfg : ApiConfig)
    (now : Time) (r : Request) (db : σ) {chirpID userID : UUID} {tok : GoString}
    {dbChirp : DbChirp}
    (hpath : r.PathValue (str "chirpID") ≠ [])
    (hid : UUID.Parse (r.PathValue (str "chirpID")) = (chirpID, none))
    (hg : GetBearerToken rt.CaseRanges r.Header = (tok, none))
    (hv : ValidateJWT rt.P now (rt.tokenOf tok) cfg.JWTsecret = (userID, none))
    (hdb : Db.GetChirpByID db chirpID = (dbChirp, none))
    (hne : dbChirp.UserID ≠ userID) :
    DeleteChirpHandler rt Db cfg now r db =
      { response := RespondWithError StatusForbidden
          (str "Недостаточно прав для выполнения этой операции")
        db := db, calls := [Call.GetChirpByID chirpID] } := by
  simp [DeleteChirpHandler, hpath, hid, hg, hv, hdb, hne]

theorem Delete_call_inv {σ : Type} (rt : Runtime) (Db : Queries σ) (cfg : ApiConfig)
    (now : Time) (r : Request) (db : σ) (id : UUID)
    (h : Call.DeleteChirp id ∈ (DeleteChirpHandler rt Db cfg now r db).calls) :
    ∃ tok userID dbChirp,
      UUID.Parse (r.PathValue (str "chirpID")) = (id, none) ∧
      GetBearerToken rt.CaseRanges r.Header = (tok, none) ∧
      ValidateJWT rt.P now (rt.tokenOf tok) cfg.JWTsecret = (userID, none) ∧
      Db.GetChirpByID db id = (dbChirp, none) ∧
      dbChirp.UserID = userID := by
  by_cases hpath : r.PathValue (str "chirpID") = []
  · simp [DeleteChirpHandler, hpath] at h
  rcases hid : UUID.Parse (r.PathValue (str "chirpID")) with ⟨chirpID, _ | e⟩
  swap
  · simp [DeleteChirpHandler, hpath, hid] at h
  rcases hg : GetBearerToken rt.CaseRanges r.Header with ⟨tok, _ | e⟩
  swap
  · simp [DeleteChirpHandler, hpath, hid, hg] at h
  rcases hv : ValidateJWT rt.P now (rt.tokenOf tok) cfg.JWTsecret with ⟨userID, _ | e⟩
  swap
  · simp [DeleteChirpHandler, hpath, hid, hg, hv] at h
  rcases hdb : Db.GetChirpByID db chirpID with ⟨dbChirp, _ | e⟩
  swap
  · by_cases he : e = DbError.ErrNoRows <;>
      simp [DeleteChirpHandler, hpath, hid, hg, hv, hdb, he] at h
  by_cases hne : dbChirp.UserID = userID
  swap
  · simp [DeleteChirpHandler, hpath, hid, hg, hv, hdb, hne] at h
  have hidc : id = chirpID := by
    rcases hdel : Db.DeleteChirp db chirpID with ⟨_ | e, db1⟩ <;>
      simp [DeleteChirpHandler, hpath, hid, hg, hv, hdb, hne, hdel] at h <;> exact h
  subst hidc
  exact ⟨tok, userID, dbChirp, rfl, rfl, hv, hdb, hne⟩

/-! ## The text filter -/

theorem profanLoop_eq (tbl : List CaseRange) (word : GoString) :
    profanLoop tbl word profanWords false =
      decide (ToLower tbl word = str "kerfuffle" ∨ ToLower tbl word = str "sharbert" ∨
        ToLower tbl word = str "fornax") := by
  simp only [profanWords, profanLoop]
  by_cases h1 : ToLower tbl word = str "kerfuffle"
  · simp [h1]
  · by_cases h2 : ToLower tbl word = str "sharbert"
    · simp [h1, h2]
    · by_cases h3 : ToLower tbl word = str "fornax"
      · simp [h1, h2, h3]
      · simp [h1, h2, h3]

theorem wordsLoop_eq (tbl : List CaseRange) (words newslice : List GoString) :
    wordsLoop tbl words newslice = newslice ++ words.map (replacePart tbl) := by
  induction words generalizing newslice with
  | nil => simp [wordsLoop]
  | cons w ws ih =>
    simp only [wordsLoop, profanLoop_eq, List.map_cons, replacePart]
    by_cases h : ToLower tbl w = str "kerfuffle" ∨ ToLower tbl w = str "sharbert" ∨
        ToLower tbl w = str "fornax"
    · simp [h, ih, replacePart]
    · simp [h, ih, replacePart]

theorem DelProfanWords_eq (tbl : List CaseRange) (s : GoString) :
    DelProfanWords tbl s = splitReplaceJoin tbl s := by
  simp [DelProfanWords, splitReplaceJoin, wordsLoop_eq]

theorem Split_not_mem_aux (c : Nat) : ∀ (n : Nat) (s : GoString), s.length ≤ n →
    ∀ p ∈ Split s c, c ∉ p := by
  intro n
  induction n with
  | zero =>
    intro s hs p hp
    have : s = [] := List.length_eq_zero.mp (Nat.le_zero.mp hs)
    subst this
    rw [Split_of_not_mem (by simp)] at hp
    simp at hp
    subst hp
    simp
  | succ n ih =>
    intro s hs p hp
    by_cases h : c ∈ s
    · obtain ⟨a, b, hab, hca⟩ := exists_first h
      rw [hab, Split_append b hca] at hp
      rcases List.mem_cons.mp hp with e | e
      · rw [e]; exact hca
      · apply ih b _ p e
        rw [hab] at hs
        simp at hs
        omega
    · rw [Split_of_not_mem h] at hp
      simp at hp
      rw [hp]; exact h

theorem Split_not_mem {s p : GoString} {c : Nat} (h : p ∈ Split s c) : c ∉ p :=
  Split_not_mem_aux c s.length s (Nat.le_refl _) p h

theorem Split_length_aux (c : Nat) : ∀ (n : Nat) (s : GoString), s.length ≤ n →
    (Split s c).length = s.count c + 1 := by
  intro n
  induction n with
  | zero =>
    intro s hs
    have : s = [] := List.length_eq_zero.mp (Nat.le_zero.mp hs)
    subst this
    rw [Split_of_not_mem (by simp)]
    simp
  | succ n ih =>
    intro s hs
    by_cases h : c ∈ s
    · obtain ⟨a, b, hab, hca⟩ := exists_first h
      have hb : b.length ≤ n := by
        rw [hab] at hs
        simp at hs
        omega
      rw [hab, Split_append b hca, List.length_cons, ih b hb]
      simp [List.count_append, List.count_eq_zero_of_not_mem hca]
    · rw [Split_of_not_mem h, List.count_eq_zero_of_not_mem h]
      simp

theorem Split_length (s : GoString) (c : Nat) : (Split s c).length = s.count c + 1 :=
  Split_length_aux c s.length s (Nat.le_refl _)

theorem Join_cons_cons (p q : GoString) (ps : List GoString) (c : Nat) :
    Join (p :: q :: ps) c = p ++ c :: Join (q :: ps) c := by
  simp [Join]

theorem Split_Join (c : Nat) : ∀ (parts : List GoString), parts ≠ [] →
    (∀ p ∈ parts, c ∉ p) → Split (Join parts c) c = parts
  | [], h, _ => absurd rfl h
  | [p], _, hp => by
    have : Join [p] c = p := by simp [Join]
    rw [this, Split_of_not_mem (hp p (by simp))]
  | p :: q :: ps, _, hp => by
    rw [Join_cons_cons, Split_append _ (hp p (by simp)),
      Split_Join c (q :: ps) (by simp) (fun x hx => hp x (List.mem_cons_of_mem _ hx))]

theorem Join_count (c : Nat) : ∀ (parts : List GoString), (∀ p ∈ parts, c ∉ p) →
    (Join parts c).count c = parts.length - 1
  | [], _ => by simp [Join]
  | [p], hp => by
    have : Join [p] c = p := by simp [Join]
    rw [this, List.count_eq_zero_of_not_mem (hp p (by simp))]
    rfl
  | p :: q :: ps, hp => by
    rw [Join_cons_cons, List.count_append, List.count_cons_self,
      List.count_eq_zero_of_not_mem (hp p (by simp)),
      Join_count c (q :: ps) (fun x hx => hp x (List.mem_cons_of_mem _ hx))]
    simp

theorem replacePart_not_mem (tbl : List CaseRange) {p : GoString} (h : 0x20 ∉ p) :
    0x20 ∉ replacePart tbl p := by
  unfold replacePart
  split
  · decide
  · exact h

theorem ToLower_stars (tbl : List CaseRange) : ToLower tbl (str "****") = str "****" := by
  rw [ToLower_ascii tbl (by decide)]
  decide

theorem replacePart_idem (tbl : List CaseRange) (p : GoString) :
    replacePart tbl (replacePart tbl p) = replacePart tbl p := by
  by_cases h : ToLower tbl p = str "kerfuffle" ∨ ToLower tbl p = str "sharbert" ∨
      ToLower tbl p = str "fornax"
  · have hp : replacePart tbl p = str "****" := by simp [replacePart, h]
    rw [hp]
    unfold replacePart
    rw [ToLower_stars, if_neg (by decide)]
  · have hp : replacePart tbl p = p := by simp [replacePart, h]
    rw [hp, hp]

/-! ## The sort and the create-chirp handler -/

theorem sink_perm {α : Type} (less : α → α → Bool) (x : α) :
    ∀ (left : List α), (sink less x left).Perm (x :: left)
  | [] => List.Perm.refl _
  | y :: left => by
    unfold sink
    split
    · exact ((sink_perm less x left).cons y).trans (List.Perm.swap x y left)
    · exact List.Perm.refl _

theorem foldl_sink_perm {α : Type} (less : α → α → Bool) :
    ∀ (x left : List α), (x.foldl (fun left e => sink less e left) left).Perm (x ++ left)
  | [], left => List.Perm.refl _
  | e :: x, left => by
    rw [List.foldl_cons]
    refine (foldl_sink_perm less x (sink less e left)).trans ?_
    refine ((sink_perm less e left).append_left x).trans ?_
    exact @List.perm_middle _ e x left

theorem Slice_perm {α : Type} (x : List α) (less : α → α → Bool) : (Slice x less).Perm x := by
  unfold Slice
  refine (List.reverse_perm _).trans ?_
  simpa using foldl_sink_perm less x []

theorem CreateChirp_length_gate {σ : Type} (rt : Runtime) (Db : Queries σ) (cfg : ApiConfig)
    (now : Time) (r : Request) (db : σ) {tok : GoString} {userID : UUID} {chirp : chirpBody}
    (hg : GetBearerToken rt.CaseRanges r.Header = (tok, none))
    (hv : ValidateJWT rt.P now (rt.tokenOf tok) cfg.JWTsecret = (userID, none))
    (hd : rt.decodeChirp r.Body = (chirp, none)) :
    (0 < chirp.Body.length ∧ chirp.Body.length < 140 →
      (CreateChirpHandler rt Db cfg now r db).calls =
        [Call.CreateChirp
          { Body := DelProfanWords rt.CaseRanges chirp.Body, UserID := userID }]) ∧
    (chirp.Body.length = 0 ∨ 140 ≤ chirp.Body.length →
      (CreateChirpHandler rt Db cfg now r db).response.code = 400 ∧
      (CreateChirpHandler rt Db cfg now r db).db = db ∧
      (CreateChirpHandler rt Db cfg now r db).calls = []) := by
  constructor
  · intro h
    have hn : ¬ (chirp.Body.length ≥ 140 ∨ chirp.Body.length = 0) := by omega
    simp only [CreateChirpHandler, hg, hv, hd, if_neg hn]
    split <;> rfl
  · intro h
    have hp : chirp.Body.length ≥ 140 ∨ chirp.Body.length = 0 := by omega
    simp only [CreateChirpHandler, hg, hv, hd, if_pos hp]
    refine ⟨?_, ?_, ?_⟩ <;> first | rfl | trivial

/-! # Claims -/

/-- C1 (amended): a token made by `MakeJWT` validates under the same secret to
its user ID, with no error, at every validation instant strictly earlier than
its expires-at claim; that claim is the clock reading plus the ttl rounded
down to a whole second, not the exact sum. -/
theorem C1_roundtrip_before_expiry (P : Primitives) (now nowIat nowExp : Time) (userID : UUID)
    (tokenSecret : GoString) (expiresIn : Duration) (hu : userID.WF)
    (hnow : now < NewNumericDate (Time.Add nowExp expiresIn)) :
    (MakeJWT P nowIat nowExp userID tokenSecret expiresIn).2 = none ∧
    ValidateJWT P now (MakeJWT P nowIat nowExp userID tokenSecret expiresIn).1 tokenSecret
      = (userID, none) ∧
    NewNumericDate (Time.Add nowExp expiresIn)
      = (nowExp + expiresIn) - (nowExp + expiresIn) % 1000000000 := by
  refine ⟨rfl, ?_, NewNumericDate_eq _⟩
  rw [ValidateJWT_MakeJWT, if_pos rfl, if_pos hnow, UUID.Parse_String hu]

/-- Witness of C1: a token issued at 0.5 s for one hour, validated one second
later. -/
theorem C1_roundtrip_before_expiry_witness :
    sampleUserID.WF ∧ (1500000000 : Time) < NewNumericDate (Time.Add 500000000 Hour) ∧
    (MakeJWT samplePrimitives 500000000 500000000 sampleUserID (str "secret") Hour).2 = none ∧
    ValidateJWT samplePrimitives 1500000000
      (MakeJWT samplePrimitives 500000000 500000000 sampleUserID (str "secret") Hour).1
      (str "secret") = (sampleUserID, none) ∧
    NewNumericDate (Time.Add 500000000 Hour)
      = (500000000 + Hour) - (500000000 + Hour) % 1000000000 :=
  ⟨by decide, by decide,
    C1_roundtrip_before_expiry samplePrimitives 1500000000 500000000 500000000 sampleUserID
      (str "secret") Hour (by decide) (by decide)⟩

/-- Counterexample of C1 as stated: a token issued at 0.5 s with a ttl of
0.7 s carries the expires-at 1 s; validated at 1.1 s, strictly before issue
instant plus ttl (1.2 s), it is rejected, whatever the digest and the
serialisation are. -/
theorem C1_fails_within_last_second :
    (0 : Duration) < 700000000 ∧ (1100000000 : Time) < Time.Add 500000000 700000000 ∧
    ¬ ∃ P : Primitives,
      ValidateJWT P 1100000000
        (MakeJWT P 500000000 500000000 sampleUserID (str "secret") 700000000).1 (str "secret")
        = (sampleUserID, none) := by
  refine ⟨by decide, by decide, ?_⟩
  rintro ⟨P, h⟩
  rw [ValidateJWT_MakeJWT, if_pos rfl, if_neg (by decide)] at h
  exact absurd h (by decide)

/-- C2 (amended): when the signature of a token made under `secretB` is not
the HMAC-SHA256 tag of its signing string under `secretA`, `ValidateJWT` with
`secretA` returns the nil UUID and an error, for every user ID and ttl.  Two
different secrets need not give different tags. -/
theorem C2_other_tag_rejected (P : Primitives) (now nowIat nowExp : Time) (userID : UUID)
    (secretA secretB : GoString) (expiresIn : Duration)
    (htag : ∀ seg, (MakeJWT P nowIat nowExp userID secretB expiresIn).1 = TokenString.compact seg →
      seg.Signature ≠ hmacSum P.Sum .SHA256 secretA seg.signingString) :
    ValidateJWT P now (MakeJWT P nowIat nowExp userID secretB expiresIn).1 secretA
      = (UUID.Nil, some Error.tokenSignatureInvalid) := by
  rw [ValidateJWT_MakeJWT, if_neg]
  exact htag _ (by rw [MakeJWT_eq])

/-- Witness of C2: the secrets "wrong-secret" and "test-secret" of the test
suite, which give different tags under the sample digest. -/
theorem C2_other_tag_rejected_witness :
    (∀ seg, (MakeJWT samplePrimitives 0 0 sampleUserID (str "test-secret") Hour).1
        = TokenString.compact seg →
      seg.Signature ≠ hmacSum samplePrimitives.Sum .SHA256 (str "wrong-secret") seg.signingString) ∧
    ValidateJWT samplePrimitives 1000000000
      (MakeJWT samplePrimitives 0 0 sampleUserID (str "test-secret") Hour).1 (str "wrong-secret")
      = (UUID.Nil, some Error.tokenSignatureInvalid) :=
  have h : ∀ seg, (MakeJWT samplePrimitives 0 0 sampleUserID (str "test-secret") Hour).1
        = TokenString.compact seg →
      seg.Signature ≠ hmacSum samplePrimitives.Sum .SHA256 (str "wrong-secret") seg.signingString := by
    intro seg hseg
    rw [MakeJWT_eq] at hseg
    cases hseg
    decide
  ⟨h, C2_other_tag_rejected samplePrimitives 1000000000 0 0 sampleUserID (str "wrong-secret")
    (str "test-secret") Hour h⟩

/-- Counterexample of C2 as stated: the secrets "k\x00" and "k" differ, yet a
token made under the first validates under the second to its user ID, for
every digest function: HMAC pads a short key with zero bytes. -/
theorem C2_zero_padded_secret_accepted :
    ([0x6B, 0x00] : GoString) ≠ [0x6B] ∧
    ¬ ∃ P : Primitives,
      ValidateJWT P 1000000000 (MakeJWT P 0 0 sampleUserID [0x6B, 0x00] Hour).1 [0x6B]
        ≠ (sampleUserID, none) := by
  refine ⟨by decide, ?_⟩
  rintro ⟨P, h⟩
  apply h
  rw [ValidateJWT_MakeJWT, if_pos (hmacSum_trailing_zero _ _), if_pos (by decide),
    UUID.Parse_String (by decide)]

/-- C3: a token made by `MakeJWT` is rejected under its own secret at every
validation instant at or after its expires-at claim; in particular for every
ttl <= 0 once the clock has reached the reading taken at issue. -/
theorem C3_expired_rejected (P : Primitives) (now nowIat nowExp : Time) (userID : UUID)
    (tokenSecret : GoString) (expiresIn : Duration)
    (h : NewNumericDate (Time.Add nowExp expiresIn) ≤ now ∨ (expiresIn ≤ 0 ∧ nowExp ≤ now)) :
    ValidateJWT P now (MakeJWT P nowIat nowExp userID tokenSecret expiresIn).1 tokenSecret
      = (UUID.Nil, some Error.tokenInvalidClaims) := by
  have hle : NewNumericDate (Time.Add nowExp expiresIn) ≤ now := by
    rcases h with h | ⟨h1, h2⟩
    · exact h
    · exact le_trans (NewNumericDate_le (Time.Add nowExp expiresIn))
        (add_le_of_le_of_nonpos h2 h1)
  rw [ValidateJWT_MakeJWT, if_pos rfl, if_neg (not_lt.mpr hle)]

/-- Witness of C3: the token of the test suite, made with a ttl of minus one
hour. -/
theorem C3_expired_rejected_witness :
    (NewNumericDate (Time.Add 7200000000000 (-Hour)) ≤ 7200000000001 ∨
      (-Hour ≤ 0 ∧ (7200000000000 : Time) ≤ 7200000000001)) ∧
    ValidateJWT samplePrimitives 7200000000001
      (MakeJWT samplePrimitives 7200000000000 7200000000000 sampleUserID (str "test-secret")
        (-Hour)).1 (str "test-secret")
      = (UUID.Nil, some Error.tokenInvalidClaims) :=
  ⟨Or.inr (by decide),
    C3_expired_rejected samplePrimitives 7200000000001 7200000000000 7200000000000 sampleUserID
      (str "test-secret") (-Hour) (Or.inr (by decide))⟩

/-- C4: a token whose issuer claim is not "chirpy" is rejected by `ValidateJWT`
with the nil UUID; when the token is signed with the secret under an HMAC
method and its dates are in force, the error is the one of the issuer check:
the valid signature is not enough. -/
theorem C4_wrong_issuer_rejected (P : Primitives) (now : Time) (seg : Segments)
    (tokenSecret : GoString) (hiss : seg.Claims.Issuer ≠ str "chirpy") :
    (ValidateJWT P now (TokenString.compact seg) tokenSecret).1 = UUID.Nil ∧
    (ValidateJWT P now (TokenString.compact seg) tokenSecret).2 ≠ none ∧
    ((∃ alg h, seg.alg = some alg ∧ GetSigningMethod alg = some (SigningMethod.HMAC h) ∧
        seg.Signature = hmacSum P.Sum h tokenSecret seg.signingString) →
      (∀ exp, seg.Claims.ExpiresAt = some exp → now < exp) →
      (∀ nbf, seg.Claims.NotBefore = some nbf → nbf ≤ now) →
      ValidateJWT P now (TokenString.compact seg) tokenSecret
        = (UUID.Nil, some Error.wrongIssuer)) := by
  have hparse : ∀ t, ParseWithClaims P now (TokenString.compact seg) (keyFunc tokenSecret) = .ok t →
      t.Claims = seg.Claims ∧ t.Valid = true := by
    intro t ht
    simp only [ParseWithClaims] at ht
    repeat' split at ht
    all_goals first | (cases ht; exact ⟨rfl, rfl⟩) | cases ht
  have hgen : (ValidateJWT P now (TokenString.compact seg) tokenSecret).1 = UUID.Nil ∧
      (ValidateJWT P now (TokenString.compact seg) tokenSecret).2 ≠ none := by
    unfold ValidateJWT
    cases hp : ParseWithClaims P now (TokenString.compact seg) (keyFunc tokenSecret) with
    | error e => simp
    | ok t =>
      obtain ⟨hc, hv⟩ := hparse t hp
      simp [hv, hc, hiss]
  refine ⟨hgen.1, hgen.2, ?_⟩
  rintro ⟨alg, h, halg, hm, hsig⟩ hexp hnbf
  have hv : Validate now seg.Claims = none := by
    unfold Validate verifyExpiresAt verifyNotBefore Time.Before
    have h1 : (match seg.Claims.ExpiresAt with
        | none => !false
        | some exp => decide (now < exp)) = true := by
      cases he : seg.Claims.ExpiresAt with
      | none => rfl
      | some e => simpa using hexp e he
    have h2 : (match seg.Claims.NotBefore with
        | none => !false
        | some nbf => !decide (now < nbf)) = true := by
      cases hn : seg.Claims.NotBefore with
      | none => rfl
      | some n => simpa using hnbf n hn
    rw [h1, h2]; rfl
  simp [ValidateJWT, ParseWithClaims, halg, hm, keyFunc, SigningMethod.Verify, hsig, hv, hiss]

/-- Witness of C4: the token of the test suite with the issuer
"wrong-issuer". -/
theorem C4_wrong_issuer_rejected_witness :
    wrongIssuerToken.Claims.Issuer ≠ str "chirpy" ∧
    ValidateJWT samplePrimitives 1000000000 (TokenString.compact wrongIssuerToken)
      (str "test-secret") = (UUID.Nil, some Error.wrongIssuer) :=
  ⟨by decide,
    (C4_wrong_issuer_rejected samplePrimitives 1000000000 wrongIssuerToken (str "test-secret")
      (by decide)).2.2 ⟨str "HS256", .SHA256, rfl, by decide, rfl⟩
      (by intro exp h; cases h; decide) (by intro nbf h; cases h)⟩

/-- C5: a token whose header names no method of the HMAC family (HS256, HS384,
HS512) is rejected by `ValidateJWT` for every secret and every claim set: the
method is unknown to the library, or the key function returns an error
instead of the secret. -/
theorem C5_non_hmac_rejected (P : Primitives) (now : Time) (seg : Segments)
    (tokenSecret : GoString)
    (halg : seg.alg ≠ some (str "HS256") ∧ seg.alg ≠ some (str "HS384") ∧
      seg.alg ≠ some (str "HS512")) :
    ValidateJWT P now (TokenString.compact seg) tokenSecret
      = (UUID.Nil, some Error.tokenUnverifiable) ∧
    ∀ m alg, seg.alg = some alg → GetSigningMethod alg = some m →
      keyFunc tokenSecret m = ([], some Error.unexpectedSigningMethod) := by
  obtain ⟨h256, h384, h512⟩ := halg
  have hk : ∀ m alg, seg.alg = some alg → GetSigningMethod alg = some m →
      keyFunc tokenSecret m = ([], some Error.unexpectedSigningMethod) := by
    intro m alg ha hm
    have hname := GetSigningMethod_Alg hm
    cases m with
    | HMAC h =>
      cases h
      · exact absurd (by rw [ha, ← hname]; rfl) h256
      · exact absurd (by rw [ha, ← hname]; rfl) h384
      · exact absurd (by rw [ha, ← hname]; rfl) h512
    | _ => rfl
  refine ⟨?_, hk⟩
  cases ha : seg.alg with
  | none => simp [ValidateJWT, ParseWithClaims, ha]
  | some alg =>
    cases hm : GetSigningMethod alg with
    | none => simp [ValidateJWT, ParseWithClaims, ha, hm]
    | some m => simp [ValidateJWT, ParseWithClaims, ha, hm, hk m alg ha hm]

/-- Witness of C5: an unsigned token with the method "none". -/
theorem C5_non_hmac_rejected_witness :
    (unsignedToken.alg ≠ some (str "HS256") ∧ unsignedToken.alg ≠ some (str "HS384") ∧
      unsignedToken.alg ≠ some (str "HS512")) ∧
    ValidateJWT samplePrimitives 1000000000 (TokenString.compact unsignedToken) (str "test-secret")
      = (UUID.Nil, some Error.tokenUnverifiable) :=
  ⟨by decide,
    (C5_non_hmac_rejected samplePrimitives 1000000000 unsignedToken (str "test-secret")
      (by decide)).1⟩

/-- C6: for every scheme spelling `s` equal to "bearer" up to letter case and
every token `t` without a space, `GetBearerToken` on headers whose
Authorization value is `s ++ " " ++ t` returns exactly `t` and no error. -/
theorem C6_bearer_token_extracted (CaseRanges : List CaseRange) (headers : Header)
    (s t : GoString) (hs : equalIgnoringCase s (str "bearer") = true) (ht : 0x20 ∉ t)
    (hh : headers.Get (str "Authorization") = s ++ 0x20 :: t) :
    GetBearerToken CaseRanges headers = (t, none) := by
  have hlow : ∀ b ∈ str "bearer", 0x61 ≤ b ∧ b ≤ 0x7A := by decide
  have hm := map_lower_of_equalIgnoringCase s _ hs hlow
  have hsp : 0x20 ∉ s := not_mem_of_map_lower hm (by decide) (by decide)
  have hsplit : Split (s ++ 0x20 :: t) 0x20 = [s, t] := Split_eq_pair.mpr ⟨rfl, hsp, ht⟩
  have hne : s ++ 0x20 :: t ≠ [] := by simp
  simp [GetBearerToken, hh, hsplit, ToLower_of_equalIgnoringCase CaseRanges hs hlow]

/-- Witness of C6: the header "BeArEr valid-token-123". -/
theorem C6_bearer_token_extracted_witness :
    equalIgnoringCase (str "BeArEr") (str "bearer") = true ∧ 0x20 ∉ str "valid-token-123" ∧
    (authorization (str "BeArEr valid-token-123")).Get (str "Authorization")
      = str "BeArEr" ++ 0x20 :: str "valid-token-123" ∧
    GetBearerToken letterlikeCaseRanges (authorization (str "BeArEr valid-token-123"))
      = (str "valid-token-123", none) :=
  ⟨by decide, by decide, by decide,
    C6_bearer_token_extracted letterlikeCaseRanges (authorization (str "BeArEr valid-token-123"))
      (str "BeArEr") (str "valid-token-123") (by decide) (by decide) (by decide)⟩

/-- C7 (amended): `GetBearerToken` returns an error, and the empty string, on
every header whose Authorization value is absent or empty, does not split at
single spaces into exactly two parts, or has a first part that is not "bearer"
in lower case; every token it returns without error contains no space and is
the second of exactly two parts.  The returned token may be empty. -/
theorem C7_bearer_header_rejected (CaseRanges : List CaseRange) (headers : Header) :
    (headers.Get (str "Authorization") = [] → (GetBearerToken CaseRanges headers).2 ≠ none) ∧
    ((Split (headers.Get (str "Authorization")) 0x20).length ≠ 2 →
      (GetBearerToken CaseRanges headers).2 ≠ none) ∧
    (∀ p0 p1, Split (headers.Get (str "Authorization")) 0x20 = [p0, p1] →
      ToLower CaseRanges p0 ≠ str "bearer" → (GetBearerToken CaseRanges headers).2 ≠ none) ∧
    (∀ p0 p1, Split (headers.Get (str "Authorization")) 0x20 = [p0, p1] →
      (∀ b ∈ p0, b < 0x80) → equalIgnoringCase p0 (str "bearer") = false →
      (GetBearerToken CaseRanges headers).2 ≠ none) ∧
    ((GetBearerToken CaseRanges headers).2 ≠ none → (GetBearerToken CaseRanges headers).1 = []) ∧
    ((GetBearerToken CaseRanges headers).2 = none →
      0x20 ∉ (GetBearerToken CaseRanges headers).1 ∧
      ∃ p0, headers.Get (str "Authorization") = p0 ++ 0x20 :: (GetBearerToken CaseRanges headers).1 ∧
        0x20 ∉ p0 ∧ ToLower CaseRanges p0 = str "bearer") := by
  have hbad : ∀ p0 p1, Split (headers.Get (str "Authorization")) 0x20 = [p0, p1] →
      ToLower CaseRanges p0 ≠ str "bearer" → (GetBearerToken CaseRanges headers).2 ≠ none := by
    intro p0 p1 hsp hlow
    unfold GetBearerToken
    simp only [hsp]
    split <;> simp [hlow]
  refine ⟨?_, ?_, hbad, ?_, ?_, ?_⟩
  · intro h
    simp [GetBearerToken, h]
  · intro h
    unfold GetBearerToken
    simp only []
    split
    · simp
    · split
      · rename_i heq
        rw [heq] at h
        simp at h
      · simp
  · intro p0 p1 hsp hascii hcase
    apply hbad p0 p1 hsp
    intro hlow
    rw [equalIgnoringCase_of_ToLower CaseRanges hascii hlow] at hcase
    exact absurd hcase (by decide)
  · unfold GetBearerToken
    simp only []
    split
    · simp
    · split
      · split <;> simp
      · simp
  · unfold GetBearerToken
    simp only []
    split
    · simp
    · split
      · rename_i p0 p1 heq
        split
        · simp
        · rename_i hlow
          intro _
          obtain ⟨h1, h2, h3⟩ := Split_eq_pair.mp heq
          exact ⟨h3, p0, h1, h2, not_not.mp hlow⟩
      · simp

/-- Witness of C7: the header "Token valid-token" of the test suite has a
scheme word other than "bearer" and is rejected. -/
theorem C7_bearer_header_rejected_witness :
    Split ((authorization (str "Token valid-token")).Get (str "Authorization")) 0x20
      = [str "Token", str "valid-token"] ∧
    ToLower letterlikeCaseRanges (str "Token") ≠ str "bearer" ∧
    (GetBearerToken letterlikeCaseRanges (authorization (str "Token valid-token"))).2 ≠ none :=
  ⟨by decide, by decide,
    (C7_bearer_header_rejected letterlikeCaseRanges (authorization (str "Token valid-token"))).2.2.1
      (str "Token") (str "valid-token") (by decide) (by decide)⟩

/-- Counterexample of C7 as stated: the header "Bearer " has an empty
credential part after the scheme, yet `GetBearerToken` returns the empty token
without an error. -/
theorem C7_empty_credential_accepted :
    Split ((authorization (str "Bearer ")).Get (str "Authorization")) 0x20 = [str "Bearer", []] ∧
    ¬ ∃ CaseRanges : List CaseRange,
      GetBearerToken CaseRanges (authorization (str "Bearer ")) ≠ ([], none) := by
  refine ⟨by decide, ?_⟩
  rintro ⟨CaseRanges, h⟩
  exact h (GetBearerToken_empty_credential CaseRanges)

/-- C8 (amended): `GetAPIKey` returns the key `k` without error if and only if
the Authorization value splits at single spaces into exactly two parts, the
lower case of the first part (as `strings.ToLower` computes it) is "apikey",
and `k` is the second part.  Every mix of upper- and lower-case ASCII letters
of "apikey" has that lower case, and among the first parts made of ASCII bytes
only those have it; a first part with a non-ASCII letter can have it too.
For every other header, an absent one included, it returns an error and the
empty string. -/
theorem C8_api_key_extracted_iff (CaseRanges : List CaseRange) (headers : Header) :
    (∀ k, GetAPIKey CaseRanges headers = (k, none) ↔
      ∃ p0, Split (headers.Get (str "Authorization")) 0x20 = [p0, k] ∧
        ToLower CaseRanges p0 = str "apikey") ∧
    (∀ p0, equalIgnoringCase p0 (str "apikey") = true → ToLower CaseRanges p0 = str "apikey") ∧
    (∀ p0, (∀ b ∈ p0, b < 0x80) → ToLower CaseRanges p0 = str "apikey" →
      equalIgnoringCase p0 (str "apikey") = true) ∧
    ((¬ ∃ p0 k, Split (headers.Get (str "Authorization")) 0x20 = [p0, k] ∧
        ToLower CaseRanges p0 = str "apikey") →
      (GetAPIKey CaseRanges headers).2 ≠ none ∧ (GetAPIKey CaseRanges headers).1 = []) := by
  refine ⟨GetAPIKey_eq_iff CaseRanges headers, ?_, ?_, ?_⟩
  · intro p0 h
    exact ToLower_of_equalIgnoringCase CaseRanges h (by decide)
  · intro p0 hascii h
    exact equalIgnoringCase_of_ToLower CaseRanges hascii h
  · intro hno
    have herr : (GetAPIKey CaseRanges headers).2 ≠ none := by
      intro hnone
      apply hno
      obtain ⟨p0, hp⟩ := (GetAPIKey_eq_iff CaseRanges headers (GetAPIKey CaseRanges headers).1).mp
        (by rw [← hnone])
      exact ⟨p0, _, hp⟩
    exact ⟨herr, GetAPIKey_error CaseRanges headers herr⟩

/-- Witness of C8: the header "ApiKey valid-api-key-123" of the test suite
yields its key, and the header "Bearer some-token" yields an error. -/
theorem C8_api_key_extracted_iff_witness :
    GetAPIKey letterlikeCaseRanges (authorization (str "ApiKey valid-api-key-123"))
      = (str "valid-api-key-123", none) ∧
    (¬ ∃ p0 k, Split ((authorization (str "Bearer some-token")).Get (str "Authorization")) 0x20
        = [p0, k] ∧ ToLower letterlikeCaseRanges p0 = str "apikey") ∧
    (GetAPIKey letterlikeCaseRanges (authorization (str "Bearer some-token"))).2 ≠ none :=
  have hno : ¬ ∃ p0 k,
      Split ((authorization (str "Bearer some-token")).Get (str "Authorization")) 0x20
        = [p0, k] ∧ ToLower letterlikeCaseRanges p0 = str "apikey" := by
    rintro ⟨p0, k, hsp, hlow⟩
    have hs : Split ((authorization (str "Bearer some-token")).Get (str "Authorization")) 0x20
        = [str "Bearer", str "some-token"] := by decide
    rw [hs] at hsp
    simp only [List.cons.injEq, and_true] at hsp
    rw [← hsp.1] at hlow
    exact absurd hlow (by decide)
  ⟨((C8_api_key_extracted_iff letterlikeCaseRanges
        (authorization (str "ApiKey valid-api-key-123"))).1 (str "valid-api-key-123")).mpr
      ⟨str "ApiKey", by decide, by decide⟩,
    hno,
    ((C8_api_key_extracted_iff letterlikeCaseRanges
        (authorization (str "Bearer some-token"))).2.2.2 hno).1⟩

/-- Counterexample of C8 as stated: the first part of the header
"ApiKey secret-key" is not "apikey" in any mix of upper- and lower-case
ASCII letters (it has eight bytes, three of them the encoding of U+212A KELVIN
SIGN), yet `GetAPIKey` returns the key without error for every case table in
which the lower case of U+212A is the letter k, as it is in the table of
package `unicode`. -/
theorem C8_kelvin_sign_accepted :
    Split ((authorization (kelvinScheme ++ 0x20 :: str "secret-key")).Get (str "Authorization"))
      0x20 = [kelvinScheme, str "secret-key"] ∧
    equalIgnoringCase kelvinScheme (str "apikey") = false ∧
    unicodeToLower letterlikeCaseRanges 0x212A = 0x6B ∧
    GetAPIKey letterlikeCaseRanges (authorization (kelvinScheme ++ 0x20 :: str "secret-key"))
      = (str "secret-key", none) ∧
    ¬ ∃ CaseRanges : List CaseRange, unicodeToLower CaseRanges 0x212A = 0x6B ∧
      GetAPIKey CaseRanges (authorization (kelvinScheme ++ 0x20 :: str "secret-key"))
        ≠ (str "secret-key", none) := by
  refine ⟨by decide, by decide, by decide, by decide, ?_⟩
  rintro ⟨CaseRanges, hk, h⟩
  apply h
  exact (GetAPIKey_eq_iff CaseRanges _ _).mpr
    ⟨kelvinScheme, by decide, ToLower_kelvinScheme CaseRanges hk⟩

/-- C9: for every 32-byte value delivered by the random source,
`MakeRefreshToken` returns without error a string of exactly 64 characters,
each one of 0-9 or a-f; it returns an error exactly when the random source
fails, and then the empty string. -/
theorem C9_refresh_token_format (randRead : GoString × Option Error) :
    (randRead.2 = none → randRead.1.length = 32 → (∀ b ∈ randRead.1, b < 256) →
      (MakeRefreshToken randRead).2 = none ∧
      (MakeRefreshToken randRead).1 = EncodeToString randRead.1 ∧
      (MakeRefreshToken randRead).1.length = 64 ∧
      ∀ c ∈ (MakeRefreshToken randRead).1, (0x30 ≤ c ∧ c ≤ 0x39) ∨ (0x61 ≤ c ∧ c ≤ 0x66)) ∧
    ((MakeRefreshToken randRead).2 ≠ none ↔ randRead.2 ≠ none) ∧
    ((MakeRefreshToken randRead).2 ≠ none → (MakeRefreshToken randRead).1 = []) := by
  obtain ⟨bytes, err⟩ := randRead
  cases err with
  | some e => simp [MakeRefreshToken]
  | none =>
    simp only [MakeRefreshToken, ne_eq, not_true_eq_false, false_implies, and_true, iff_self,
      true_and, forall_const]
    intro hlen hb
    refine ⟨?_, ?_⟩
    · rw [EncodeToString_length, hlen]
    · exact EncodeToString_hex hb

/-- Witness of C9: the random source delivers the bytes 0, 1, ..., 31. -/
theorem C9_refresh_token_format_witness :
    (List.range 32).length = 32 ∧ (∀ b ∈ List.range 32, b < 256) ∧
    (MakeRefreshToken (List.range 32, none)).2 = none ∧
    (MakeRefreshToken (List.range 32, none)).1
      = str "000102030405060708090a0b0c0d0e0f101112131415161718191a1b1c1d1e1f" ∧
    (MakeRefreshToken (List.range 32, none)).1.length = 64 :=
  have h := (C9_refresh_token_format (List.range 32, none)).1 rfl (by decide) (by decide)
  ⟨by decide, by decide, h.1, by decide, h.2.2.1⟩

/-- C10 (amended): if `HashPassword(p)` returns the hash `h` without error,
then `CheckPasswordHash(p, h)` returns true with no error, and for every other
password `CheckPasswordHash` against `h` returns no error and a boolean that
is true exactly when the Argon2id key of that password, under the salt and
parameters of `h`, equals the key of `p`: false for every password whose key
differs. -/
theorem C10_password_roundtrip (IDKey : KDF) (numCPU : Nat) (randRead : GoString × Option Error)
    (p : GoString) (h : HashString) (hh : HashPassword IDKey numCPU randRead p = (h, none)) :
    CheckPasswordHash IDKey p h = (true, none) ∧
    ∀ q, (CheckPasswordHash IDKey q h).2 = none ∧
      ((CheckPasswordHash IDKey q h).1 = true ↔
        IDKey q randRead.1 1 (64 * 1024) (numCPU % 256) 32
          = IDKey p randRead.1 1 (64 * 1024) (numCPU % 256) 32) := by
  obtain ⟨salt, err⟩ := randRead
  cases err with
  | some e =>
    have := HashPassword_error IDKey numCPU salt e p
    rw [hh] at this
    exact absurd rfl this
  | none =>
    have hh' : h = (HashPassword IDKey numCPU (salt, none) p).1 := by rw [hh]
    subst hh'
    refine ⟨?_, ?_⟩
    · rw [CheckPasswordHash_HashPassword]; simp
    · intro q
      rw [CheckPasswordHash_HashPassword]
      simp

/-- Witness of C10: the passwords of the test suite under the sample key
derivation. -/
theorem C10_password_roundtrip_witness :
    HashPassword sampleKDF 4 (List.replicate 16 7, none) (str "mysecretpassword")
      = ((HashPassword sampleKDF 4 (List.replicate 16 7, none) (str "mysecretpassword")).1, none) ∧
    CheckPasswordHash sampleKDF (str "mysecretpassword")
      (HashPassword sampleKDF 4 (List.replicate 16 7, none) (str "mysecretpassword")).1
      = (true, none) ∧
    CheckPasswordHash sampleKDF (str "wrongpassword")
      (HashPassword sampleKDF 4 (List.replicate 16 7, none) (str "mysecretpassword")).1
      = (false, none) :=
  ⟨rfl,
    (C10_password_roundtrip sampleKDF 4 (List.replicate 16 7, none) (str "mysecretpassword")
      _ rfl).1,
    by decide⟩

/-- Counterexample of C10 as stated: whatever the key derivation is, its keys
have 32 bytes, so two different passwords of 33 bytes have the same key under
the same salt; `CheckPasswordHash` of the one against the hash of the other
returns true, not false. -/
theorem C10_colliding_password_accepted :
    ¬ ∃ IDKey : KDF, ∀ p q : GoString, q ≠ p →
      CheckPasswordHash IDKey q (HashPassword IDKey 1 (List.replicate 16 0, none) p).1
        = (false, none) := by
  rintro ⟨IDKey, h⟩
  have hcard : Fintype.card (Mathlib.Vector (Fin 256) 32)
      < Fintype.card (Mathlib.Vector (Fin 256) 33) := by
    rw [card_vector, card_vector, Fintype.card_fin]
    exact Nat.pow_lt_pow_right (by norm_num) (by norm_num)
  obtain ⟨x, y, hxy, hf⟩ := Fintype.exists_ne_map_eq_of_card_lt
    (fun v : Mathlib.Vector (Fin 256) 33 =>
      IDKey (keyBytes v) (List.replicate 16 0) 1 (64 * 1024) (1 % 256) 32) hcard
  have hne : keyBytes x ≠ keyBytes y := fun e => hxy (keyBytes_inj e)
  have := h (keyBytes y) (keyBytes x) hne
  rw [CheckPasswordHash_HashPassword] at this
  simp only [Prod.mk.injEq, decide_eq_false_iff_not, and_true] at this
  exact this hf

/-- C11 (amended): for every request with a well-formed Bearer header,
`RefreshTokenHandler` calls the store lookup `GetUserFromRefreshToken` if and
only if the extracted token is exactly 64 bytes long, as `len` counts them;
for a token of any other length in bytes it responds 401 without any store
call. -/
theorem C11_refresh_length_gate {σ : Type} (rt : Runtime) (Db : Queries σ) (cfg : ApiConfig)
    (nowIat nowExp : Time) (r : Request) (db : σ) (tok : GoString)
    (h : GetBearerToken rt.CaseRanges r.Header = (tok, none)) :
    ∃ out, RefreshTokenHandler rt Db cfg nowIat nowExp r db = .ok out ∧
      (Call.GetUserFromRefreshToken tok ∈ out.calls ↔ tok.length = 64) ∧
      (tok.length = 64 → out.calls = [Call.GetUserFromRefreshToken tok]) ∧
      (tok.length ≠ 64 →
        out.response = RespondWithError StatusUnauthorized (str "Неверный токен") ∧
        out.response.code = 401 ∧ out.calls = [] ∧ out.db = db) := by
  by_cases hlen : tok.length = 64
  · obtain ⟨out, hout, _, hcalls⟩ := Refresh_total rt Db cfg nowIat nowExp r db
    have hc : out.calls = [Call.GetUserFromRefreshToken tok] := by
      rcases hdb : Db.GetUserFromRefreshToken db tok with ⟨u, _ | e⟩
      · rw [Refresh_found rt Db cfg nowIat nowExp r db h hlen hdb] at hout
        cases hout; rfl
      · by_cases he : e = DbError.ErrNoRows
        · subst he
          rw [Refresh_not_found rt Db cfg nowIat nowExp r db h hlen hdb] at hout
          cases hout; rfl
        · rw [Refresh_store_error rt Db cfg nowIat nowExp r db h hlen hdb he] at hout
          cases hout; rfl
    exact ⟨out, hout, by simp [hc, hlen], fun _ => hc, fun hne => absurd hlen hne⟩
  · exact ⟨_, Refresh_wrong_length rt Db cfg nowIat nowExp r db h hlen, by simp [hlen],
      fun he => absurd he hlen, fun _ => ⟨rfl, rfl, rfl, rfl⟩⟩

/-- Witness of C11: the header "Bearer short" carries a token of five bytes. -/
theorem C11_refresh_length_gate_witness :
    GetBearerToken sampleRuntime.CaseRanges (sampleRequest (str "Bearer short") [] []).Header
      = (str "short", none) ∧
    ∃ out, RefreshTokenHandler sampleRuntime storeQueries sampleConfig 0 0
        (sampleRequest (str "Bearer short") [] []) sampleStore = .ok out ∧
      out.response.code = 401 ∧ out.calls = [] :=
  have h : GetBearerToken sampleRuntime.CaseRanges
      (sampleRequest (str "Bearer short") [] []).Header = (str "short", none) := by decide
  have ⟨out, hout, _, _, hne⟩ := C11_refresh_length_gate sampleRuntime storeQueries sampleConfig
    0 0 (sampleRequest (str "Bearer short") [] []) sampleStore (str "short") h
  ⟨h, out, hout, (hne (by decide)).2.1, (hne (by decide)).2.2.1⟩

/-- Counterexample of C11 as stated: a token of 32 Cyrillic letters is not
64 characters long, yet it has 64 bytes and `RefreshTokenHandler` looks it up
in the store; a token of 64 Cyrillic letters is exactly 64 characters long,
yet it has 128 bytes and is answered 401 without any store call. -/
theorem C11_gate_counts_bytes :
    RuneCountInString thirtyTwoLetters = 32 ∧ thirtyTwoLetters.length = 64 ∧
    GetBearerToken sampleRuntime.CaseRanges
        (sampleRequest (str "Bearer " ++ thirtyTwoLetters) [] []).Header
      = (thirtyTwoLetters, none) ∧
    RefreshTokenHandler sampleRuntime storeQueries sampleConfig 0 0
        (sampleRequest (str "Bearer " ++ thirtyTwoLetters) [] []) sampleStore
      = .ok { response := RespondWithError StatusUnauthorized (str "Неверный или истекший токен")
              db := sampleStore
              calls := [Call.GetUserFromRefreshToken thirtyTwoLetters] } ∧
    RuneCountInString sixtyFourLetters = 64 ∧ sixtyFourLetters.length = 128 ∧
    GetBearerToken sampleRuntime.CaseRanges
        (sampleRequest (str "Bearer " ++ sixtyFourLetters) [] []).Header
      = (sixtyFourLetters, none) ∧
    RefreshTokenHandler sampleRuntime storeQueries sampleConfig 0 0
        (sampleRequest (str "Bearer " ++ sixtyFourLetters) [] []) sampleStore
      = .ok { response := RespondWithError StatusUnauthorized (str "Неверный токен")
              db := sampleStore, calls := [] } := by
  have h1 : GetBearerToken sampleRuntime.CaseRanges
      (sampleRequest (str "Bearer " ++ thirtyTwoLetters) [] []).Header
        = (thirtyTwoLetters, none) := by decide
  have h2 : GetBearerToken sampleRuntime.CaseRanges
      (sampleRequest (str "Bearer " ++ sixtyFourLetters) [] []).Header
        = (sixtyFourLetters, none) := by decide
  have h3 : storeQueries.GetUserFromRefreshToken sampleStore thirtyTwoLetters
      = (DbUser.zero, some DbError.ErrNoRows) := by decide
  exact ⟨by decide, by decide, h1,
    Refresh_not_found sampleRuntime storeQueries sampleConfig 0 0 _ sampleStore h1 (by decide)
      h3,
    by decide, by decide, h2,
    Refresh_wrong_length sampleRuntime storeQueries sampleConfig 0 0 _ sampleStore h2
      (by decide)⟩

/-- C12: for every request with a well-formed Bearer header,
`RevokeTokenHandler` responds 204 without body when the token has the wrong
length, when the store does not find it and when the store revoked it alike;
only a store failure other than not-found gives another response (500). -/
theorem C12_revoke_uniform_response {σ : Type} (rt : Runtime) (Db : Queries σ) (r : Request)
    (db : σ) (tok : GoString) (h : GetBearerToken rt.CaseRanges r.Header = (tok, none)) :
    ∃ out, RevokeTokenHandler rt Db r db = .ok out ∧
      ((tok.length ≠ 64 ∨ (Db.RevokeRefreshToken db tok).1 = some DbError.ErrNoRows ∨
          (Db.RevokeRefreshToken db tok).1 = none) →
        out.response = { code := 204, body := none }) ∧
      (tok.length ≠ 64 → out.calls = [] ∧ out.db = db) ∧
      ((tok.length = 64 ∧ ∃ e, (Db.RevokeRefreshToken db tok).1 = some e ∧ e ≠ DbError.ErrNoRows) →
        out.response = RespondWithError StatusInternalServerError
          (str "Внутренняя ошибка сервера")) := by
  by_cases hlen : tok.length = 64
  · rcases hdb : Db.RevokeRefreshToken db tok with ⟨_ | e, db1⟩
    · refine ⟨_, Revoke_done rt Db r db h hlen hdb, fun _ => rfl, fun hne => absurd hlen hne, ?_⟩
      rintro ⟨_, e, he, _⟩
      simp at he
    · by_cases he : e = DbError.ErrNoRows
      · subst he
        refine ⟨_, Revoke_not_found rt Db r db h hlen hdb, fun _ => rfl,
          fun hne => absurd hlen hne, ?_⟩
        rintro ⟨_, e, he, hne⟩
        simp only [Option.some.injEq] at he
        exact absurd he.symm hne
      · refine ⟨_, Revoke_store_error rt Db r db h hlen hdb he, ?_, fun hne => absurd hlen hne,
          fun _ => rfl⟩
        rintro (hne | hnf | hnone)
        · exact absurd hlen hne
        · simp only [Option.some.injEq] at hnf
          exact absurd hnf he
        · simp at hnone
  · refine ⟨_, Revoke_wrong_length rt Db r db h hlen, fun _ => rfl, fun _ => ⟨rfl, rfl⟩, ?_⟩
    rintro ⟨h64, _⟩
    exact absurd h64 hlen

/-- Witness of C12: revoking the token of the sample store and revoking an
unknown token of 64 bytes give the same response. -/
theorem C12_revoke_uniform_response_witness :
    (∃ out, RevokeTokenHandler sampleRuntime storeQueries
        (sampleRequest (str "Bearer " ++ sampleRefreshToken) [] []) sampleStore = .ok out ∧
      out.response = { code := 204, body := none }) ∧
    (∃ out, RevokeTokenHandler sampleRuntime storeQueries
        (sampleRequest (str "Bearer " ++ List.replicate 64 0x61) [] []) sampleStore = .ok out ∧
      out.response = { code := 204, body := none }) :=
  have ⟨out1, h1, r1, _⟩ := C12_revoke_uniform_response sampleRuntime storeQueries
    (sampleRequest (str "Bearer " ++ sampleRefreshToken) [] []) sampleStore sampleRefreshToken
    (by decide)
  have ⟨out2, h2, r2, _⟩ := C12_revoke_uniform_response sampleRuntime storeQueries
    (sampleRequest (str "Bearer " ++ List.replicate 64 0x61) [] []) sampleStore
    (List.replicate 64 0x61) (by decide)
  ⟨⟨out1, h1, r1 (Or.inr (Or.inr (by decide)))⟩, ⟨out2, h2, r2 (Or.inr (Or.inl (by decide)))⟩⟩

/-- C13: for every login request with a non-empty password and a non-empty
email of at most 255 bytes, the response of `LoginHandler` when the store has
no user with that email is identical, in status code (401) and in body, to
its response when the user exists but the password does not match the stored
hash; in neither case does the response carry a token, is
`CreateRefreshToken` called or is the store changed. -/
theorem C13_login_no_user_oracle {σ : Type} (rt : Runtime) (Db : Queries σ) (cfg : ApiConfig)
    (nowIat nowExp : Time) (randRead : GoString × Option Error) (now : Time) (r : Request)
    (dbA dbB : σ) (reqBody : Credentials) (uA uB : DbUser)
    (hdec : rt.decodeCredentials r.Body = (reqBody, none))
    (hemail : reqBody.Email ≠ []) (hpw : reqBody.Password ≠ [])
    (hlen : reqBody.Email.length ≤ 255)
    (hA : Db.GetUserByEmail dbA reqBody.Email = (uA, some DbError.ErrNoRows))
    (hB : Db.GetUserByEmail dbB reqBody.Email = (uB, none))
    (hmis : CheckPasswordHash rt.IDKey reqBody.Password uB.HashedPassword = (false, none)) :
    (LoginHandler rt Db cfg nowIat nowExp randRead now r dbA).response
      = (LoginHandler rt Db cfg nowIat nowExp randRead now r dbB).response ∧
    (LoginHandler rt Db cfg nowIat nowExp randRead now r dbA).response
      = { code := 401, body := some (Payload.errorResponse (str "Неверный email или пароль")) } ∧
    (LoginHandler rt Db cfg nowIat nowExp randRead now r dbA).calls
      = [Call.GetUserByEmail reqBody.Email] ∧
    (LoginHandler rt Db cfg nowIat nowExp randRead now r dbB).calls
      = [Call.GetUserByEmail reqBody.Email] ∧
    (LoginHandler rt Db cfg nowIat nowExp randRead now r dbA).db = dbA ∧
    (LoginHandler rt Db cfg nowIat nowExp randRead now r dbB).db = dbB := by
  rw [Login_unknown_user rt Db cfg nowIat nowExp randRead now r dbA hdec hemail hpw hlen hA,
    Login_wrong_password rt Db cfg nowIat nowExp randRead now r dbB hdec hemail hpw hlen hB hmis]
  exact ⟨rfl, rfl, rfl, rfl, rfl, rfl⟩

/-- Witness of C13: the password "wrongpassword" against the sample store
without any user and against the sample store with the user. -/
theorem C13_login_no_user_oracle_witness :
    (LoginHandler sampleRuntime storeQueries sampleConfig 0 0 (List.replicate 32 0xAB, none) 0
        (sampleRequest [] [] (str "user@example.com\nwrongpassword"))
        { sampleStore with users := [] }).response
      = (LoginHandler sampleRuntime storeQueries sampleConfig 0 0 (List.replicate 32 0xAB, none) 0
        (sampleRequest [] [] (str "user@example.com\nwrongpassword")) sampleStore).response ∧
    (LoginHandler sampleRuntime storeQueries sampleConfig 0 0 (List.replicate 32 0xAB, none) 0
        (sampleRequest [] [] (str "user@example.com\nwrongpassword"))
        { sampleStore with users := [] }).response.code = 401 :=
  have h := C13_login_no_user_oracle sampleRuntime storeQueries sampleConfig 0 0
    (List.replicate 32 0xAB, none) 0
    (sampleRequest [] [] (str "user@example.com\nwrongpassword"))
    { sampleStore with users := [] } sampleStore
    { Email := str "user@example.com", Password := str "wrongpassword" } DbUser.zero sampleUser
    (by decide) (by decide) (by decide) (by decide) (by decide) (by decide) (by decide)
  ⟨h.1, by rw [h.2.1]⟩

/-- C14: for every store state and every request, `RefreshTokenHandler`
returns, makes no store call other than the lookup and none that writes, and
leaves the store state as it was; a second run with the same token on the
resulting state and with the same clock readings has the same outcome, so it
succeeds whenever the first did. -/
theorem C14_refresh_no_rotation {σ : Type} (rt : Runtime) (Db : Queries σ) (cfg : ApiConfig)
    (nowIat nowExp : Time) (r : Request) (db : σ) :
    ∃ out, RefreshTokenHandler rt Db cfg nowIat nowExp r db = .ok out ∧
      out.db = db ∧
      (∀ c ∈ out.calls, c.isWrite = false) ∧
      (∀ c ∈ out.calls, ∃ token, c = Call.GetUserFromRefreshToken token) ∧
      RefreshTokenHandler rt Db cfg nowIat nowExp r out.db = .ok out := by
  obtain ⟨out, hout, hdb, hcalls⟩ := Refresh_total rt Db cfg nowIat nowExp r db
  refine ⟨out, hout, hdb, ?_, ?_, by rw [hdb, hout]⟩
  · intro c hc
    rcases hcalls with h | h <;> rw [h] at hc
    · cases hc
    · simp only [List.mem_singleton] at hc
      rw [hc]; rfl
  · intro c hc
    rcases hcalls with h | h <;> rw [h] at hc
    · cases hc
    · simp only [List.mem_singleton] at hc
      exact ⟨_, hc⟩

/-- Witness of C14: a refresh with the token of the sample store succeeds and
hands the store back as it was. -/
theorem C14_refresh_no_rotation_witness :
    ∃ out, RefreshTokenHandler sampleRuntime storeQueries sampleConfig 0 0
        (sampleRequest (str "Bearer " ++ sampleRefreshToken) [] []) sampleStore = .ok out ∧
      out.db = sampleStore ∧ out.response.code = 200 ∧
      out.calls = [Call.GetUserFromRefreshToken sampleRefreshToken] := by
  obtain ⟨out, hout, hdb, _, _, _⟩ := C14_refresh_no_rotation sampleRuntime storeQueries
    sampleConfig 0 0 (sampleRequest (str "Bearer " ++ sampleRefreshToken) [] []) sampleStore
  have hg : GetBearerToken sampleRuntime.CaseRanges
      (sampleRequest (str "Bearer " ++ sampleRefreshToken) [] []).Header
      = (sampleRefreshToken, none) := by decide
  have hlook : storeQueries.GetUserFromRefreshToken sampleStore sampleRefreshToken
      = (sampleUser, none) := by decide
  have hf := Refresh_found sampleRuntime storeQueries sampleConfig 0 0
    (sampleRequest (str "Bearer " ++ sampleRefreshToken) [] []) sampleStore hg (by decide) hlook
  refine ⟨out, hout, hdb, ?_, ?_⟩
  · rw [hf] at hout
    cases hout
    rfl
  · rw [hf] at hout
    cases hout
    rfl

/-- C15: for every authenticated update request with a non-empty password
for which `UpdateUser` succeeds, `UpdateUserHandler` calls
`RevokeAllUserRefreshTokens` for the authenticated user's ID right after
`UpdateUser`, and responds 200 with the updated user whatever error that call
returns; a request whose password is empty does not call it. -/
theorem C15_password_change_revokes_all {σ : Type} (rt : Runtime) (Db : Queries σ)
    (cfg : ApiConfig) (now : Time) (randRead : GoString × Option Error) (r : Request) (db : σ) :
    (∀ (tok : GoString) (userID : UUID) (reqBody : Credentials) (email : GoString)
        (hash : HashString) (updated : DbUser) (db1 : σ),
      GetBearerToken rt.CaseRanges r.Header = (tok, none) →
      ValidateJWT rt.P now (rt.tokenOf tok) cfg.JWTsecret = (userID, none) →
      rt.decodeCredentials r.Body = (reqBody, none) →
      reqBody.Password ≠ [] →
      ((reqBody.Email ≠ [] ∧ reqBody.Email.length ≤ 255 ∧ email = reqBody.Email) ∨
        (reqBody.Email = [] ∧ ∃ cur, Db.GetUserByID db userID = (cur, none) ∧ email = cur.Email)) →
      HashPassword rt.IDKey rt.numCPU randRead reqBody.Password = (hash, none) →
      Db.UpdateUser db { ID := userID, Email := email, HashedPassword := hash }
        = ((updated, none), db1) →
      (UpdateUserHandler rt Db cfg now randRead r db).response
        = { code := 200, body := some (Payload.user updated.toUser) } ∧
      (UpdateUserHandler rt Db cfg now randRead r db).db
        = (Db.RevokeAllUserRefreshTokens db1 userID).2 ∧
      ∃ before, (UpdateUserHandler rt Db cfg now randRead r db).calls
        = before ++ [Call.UpdateUser { ID := userID, Email := email, HashedPassword := hash },
            Call.RevokeAllUserRefreshTokens userID]) ∧
    ((rt.decodeCredentials r.Body).1.Password = [] →
      ∀ c ∈ (UpdateUserHandler rt Db cfg now randRead r db).calls,
        ∀ userID, c ≠ Call.RevokeAllUserRefreshTokens userID) :=
  ⟨fun _ _ _ _ _ _ _ hg hv hdec hpw hemail hhash hupd =>
      Update_password_changed rt Db cfg now randRead r db hg hv hdec hpw hemail hhash hupd,
    Update_email_only rt Db cfg now randRead r db⟩

/-- Witness of C15: the sample user sets the password "newpass" and keeps the
email. -/
theorem C15_password_change_revokes_all_witness :
    (UpdateUserHandler sampleRuntime storeQueries sampleConfig 1000000000
      (List.replicate 16 9, none)
      (sampleRequest (str "Bearer " ++ sampleAccessText sampleUserID) [] (str "\nnewpass"))
      sampleStore).response
      = { code := 200
          body := some (Payload.user
            { sampleUser.toUser with UpdatedAt := 1000 * Second }) } ∧
    ∃ before, (UpdateUserHandler sampleRuntime storeQueries sampleConfig 1000000000
      (List.replicate 16 9, none)
      (sampleRequest (str "Bearer " ++ sampleAccessText sampleUserID) [] (str "\nnewpass"))
      sampleStore).calls
      = before ++
        [Call.UpdateUser
          { ID := sampleUserID, Email := str "user@example.com"
            HashedPassword :=
              (HashPassword sampleKDF 4 (List.replicate 16 9, none) (str "newpass")).1 },
          Call.RevokeAllUserRefreshTokens sampleUserID] :=
  have h := (C15_password_change_revokes_all sampleRuntime storeQueries sampleConfig 1000000000
    (List.replicate 16 9, none)
    (sampleRequest (str "Bearer " ++ sampleAccessText sampleUserID) [] (str "\nnewpass"))
    sampleStore).1 (sampleAccessText sampleUserID) sampleUserID
    { Email := [], Password := str "newpass" } (str "user@example.com")
    (HashPassword sampleKDF 4 (List.replicate 16 9, none) (str "newpass")).1
    (storeQueries.UpdateUser sampleStore
      { ID := sampleUserID, Email := str "user@example.com"
        HashedPassword :=
          (HashPassword sampleKDF 4 (List.replicate 16 9, none) (str "newpass")).1 }).1.1
    (storeQueries.UpdateUser sampleStore
      { ID := sampleUserID, Email := str "user@example.com"
        HashedPassword :=
          (HashPassword sampleKDF 4 (List.replicate 16 9, none) (str "newpass")).1 }).2
    (by decide) (by decide) (by decide) (by decide)
    (Or.inr ⟨rfl, sampleUser, by decide, rfl⟩) (by decide) (by decide)
  ⟨by rw [h.1]; decide, h.2.2⟩

/-- C16 (amended): every authentication rejection of `RefreshTokenHandler`
has the status code 401 and an error body, and makes no change to the store;
the message of the body depends on the cause: one for a missing or malformed
Authorization header, another for a token of the wrong length, a third for a
token the store does not find. -/
theorem C16_refresh_rejections {σ : Type} (rt : Runtime) (Db : Queries σ) (cfg : ApiConfig)
    (nowIat nowExp : Time) (r : Request) (db : σ) :
    (∀ t e, GetBearerToken rt.CaseRanges r.Header = (t, some e) →
      RefreshTokenHandler rt Db cfg nowIat nowExp r db =
        .ok { response :=
                { code := 401
                  body := some (Payload.errorResponse (str "Неверный или отсутствующий токен")) }
              db := db, calls := [] }) ∧
    (∀ tok, GetBearerToken rt.CaseRanges r.Header = (tok, none) → tok.length ≠ 64 →
      RefreshTokenHandler rt Db cfg nowIat nowExp r db =
        .ok { response :=
                { code := 401, body := some (Payload.errorResponse (str "Неверный токен")) }
              db := db, calls := [] }) ∧
    (∀ tok u, GetBearerToken rt.CaseRanges r.Header = (tok, none) → tok.length = 64 →
      Db.GetUserFromRefreshToken db tok = (u, some DbError.ErrNoRows) →
      RefreshTokenHandler rt Db cfg nowIat nowExp r db =
        .ok { response :=
                { code := 401
                  body := some (Payload.errorResponse (str "Неверный или истекший токен")) }
              db := db, calls := [Call.GetUserFromRefreshToken tok] }) :=
  ⟨fun _ _ h => Refresh_header_error rt Db cfg nowIat nowExp r db h,
    fun _ h hlen => Refresh_wrong_length rt Db cfg nowIat nowExp r db h hlen,
    fun _ _ h hlen hdb => Refresh_not_found rt Db cfg nowIat nowExp r db h hlen hdb⟩

/-- Witness of C16: a token of 64 bytes that the sample store does not
hold. -/
theorem C16_refresh_rejections_witness :
    GetBearerToken sampleRuntime.CaseRanges
      (sampleRequest (str "Bearer " ++ List.replicate 64 0x61) [] []).Header
      = (List.replicate 64 0x61, none) ∧
    storeQueries.GetUserFromRefreshToken sampleStore (List.replicate 64 0x61)
      = (DbUser.zero, some DbError.ErrNoRows) ∧
    RefreshTokenHandler sampleRuntime storeQueries sampleConfig 0 0
        (sampleRequest (str "Bearer " ++ List.replicate 64 0x61) [] []) sampleStore =
      .ok { response :=
              { code := 401
                body := some (Payload.errorResponse (str "Неверный или истекший токен")) }
            db := sampleStore, calls := [Call.GetUserFromRefreshToken (List.replicate 64 0x61)] } :=
  ⟨by decide, by decide,
    (C16_refresh_rejections sampleRuntime storeQueries sampleConfig 0 0
      (sampleRequest (str "Bearer " ++ List.replicate 64 0x61) [] []) sampleStore).2.2
      (List.replicate 64 0x61) DbUser.zero (by decide) (by decide) (by decide)⟩

/-- Counterexample of C16 as stated: a request without Authorization header
and a request with the header "Bearer short" are both rejected with 401, but
with different response bodies. -/
theorem C16_rejection_bodies_differ :
    ∃ out1 out2,
      RefreshTokenHandler sampleRuntime storeQueries sampleConfig 0 0 bareRequest sampleStore
        = .ok out1 ∧
      RefreshTokenHandler sampleRuntime storeQueries sampleConfig 0 0
        (sampleRequest (str "Bearer short") [] []) sampleStore = .ok out2 ∧
      out1.response.code = 401 ∧ out2.response.code = 401 ∧
      out1.response.body = some (Payload.errorResponse (str "Неверный или отсутствующий токен")) ∧
      out2.response.body = some (Payload.errorResponse (str "Неверный токен")) ∧
      out1.response.body ≠ out2.response.body := by
  have h1 : GetBearerToken sampleRuntime.CaseRanges bareRequest.Header
      = ([], some Error.missingAuthorization) := by decide
  have h2 : GetBearerToken sampleRuntime.CaseRanges
      (sampleRequest (str "Bearer short") [] []).Header = (str "short", none) := by decide
  exact ⟨_, _, Refresh_header_error sampleRuntime storeQueries sampleConfig 0 0 bareRequest
      sampleStore h1,
    Refresh_wrong_length sampleRuntime storeQueries sampleConfig 0 0
      (sampleRequest (str "Bearer short") [] []) sampleStore h2 (by decide),
    rfl, rfl, rfl, rfl, by decide⟩

/-- C17 (amended): for every user ID, secret and ttl, `MakeJWT` returns a
token whose claims are exactly: issuer "chirpy", subject the canonical string
form of the user ID, issued-at the first clock reading rounded down to a
whole second, and expires-at the second clock reading plus ttl rounded down
to a whole second.  Expires-at minus issued-at is less than one second away
from the ttl plus the time between the two readings; when the ttl is a whole
number of seconds it is the ttl plus the difference of the whole seconds of
the two readings, hence exactly the ttl if and only if both readings fall
into the same whole second. -/
theorem C17_claims_of_MakeJWT (P : Primitives) (nowIat nowExp : Time) (userID : UUID)
    (tokenSecret : GoString) (expiresIn : Duration) :
    ∃ seg, MakeJWT P nowIat nowExp userID tokenSecret expiresIn = (TokenString.compact seg, none) ∧
      seg.alg = some (str "HS256") ∧
      seg.Claims =
        { Issuer := str "chirpy"
          Subject := UUID.String userID
          Audience := []
          ExpiresAt := some ((nowExp + expiresIn) - (nowExp + expiresIn) % 1000000000)
          NotBefore := none
          IssuedAt := some (nowIat - nowIat % 1000000000)
          ID := [] } ∧
      (expiresIn + (nowExp - nowIat) - 1000000000 <
          ((nowExp + expiresIn) - (nowExp + expiresIn) % 1000000000)
            - (nowIat - nowIat % 1000000000) ∧
        ((nowExp + expiresIn) - (nowExp + expiresIn) % 1000000000)
            - (nowIat - nowIat % 1000000000) < expiresIn + (nowExp - nowIat) + 1000000000) ∧
      (expiresIn % 1000000000 = 0 →
        ((nowExp + expiresIn) - (nowExp + expiresIn) % 1000000000)
            - (nowIat - nowIat % 1000000000)
          = expiresIn + ((nowExp - nowExp % 1000000000) - (nowIat - nowIat % 1000000000)) ∧
        (((nowExp + expiresIn) - (nowExp + expiresIn) % 1000000000)
            - (nowIat - nowIat % 1000000000) = expiresIn ↔
          nowExp / 1000000000 = nowIat / 1000000000)) := by
  refine ⟨_, MakeJWT_eq P nowIat nowExp userID tokenSecret expiresIn, rfl, ?_, ?_, ?_⟩
  · simp only [claimsOf, NewNumericDate_eq, Time.Add]
  · exact truncate_difference_bounds nowIat nowExp expiresIn
  · intro he
    exact truncate_difference_readings nowIat nowExp expiresIn he

/-- Witness of C17: a token made for one hour with the clock read at 0.5 s
and at 0.7 s has the issued-at 0 s and the expires-at 3600 s. -/
theorem C17_claims_of_MakeJWT_witness :
    Hour % 1000000000 = 0 ∧ (700000000 : Time) / 1000000000 = (500000000 : Time) / 1000000000 ∧
    ((700000000 + Hour) - (700000000 + Hour) % 1000000000)
      - ((500000000 : Time) - 500000000 % 1000000000) = Hour :=
  have ⟨_, _, _, _, _, h⟩ := C17_claims_of_MakeJWT samplePrimitives 500000000 700000000
    sampleUserID (str "test-secret") Hour
  ⟨by decide, by decide, (h (by decide)).2.mpr (by decide)⟩

/-- Counterexample of C17 as stated: a token made at 0.5 s has the issued-at
0 s, not the current time; with a ttl of 1.5 s a token made at 0 s has the
expires-at 1 s, so that expires-at minus issued-at is 1 s, not the ttl; and
with a ttl of one hour and the clock read at 0.999999999 s and then at
1.000000000 s, expires-at minus issued-at is 3601 s, not the ttl. -/
theorem C17_claims_are_truncated :
    (¬ ∃ P : Primitives, ∃ seg,
      MakeJWT P 500000000 500000000 sampleUserID (str "test-secret") Hour
        = (TokenString.compact seg, none) ∧
      seg.Claims.IssuedAt = some 500000000) ∧
    (¬ ∃ P : Primitives, ∃ seg iat exp,
      MakeJWT P 0 0 sampleUserID (str "test-secret") 1500000000
        = (TokenString.compact seg, none) ∧
      seg.Claims.IssuedAt = some iat ∧ seg.Claims.ExpiresAt = some exp ∧
      exp - iat = 1500000000) ∧
    (¬ ∃ P : Primitives, ∃ seg iat exp,
      MakeJWT P 999999999 1000000000 sampleUserID (str "test-secret") Hour
        = (TokenString.compact seg, none) ∧
      seg.Claims.IssuedAt = some iat ∧ seg.Claims.ExpiresAt = some exp ∧
      exp - iat = Hour) := by
  refine ⟨?_, ?_, ?_⟩
  · rintro ⟨P, seg, hseg, hiat⟩
    rw [MakeJWT_eq] at hseg
    cases hseg
    have : (claimsOf 500000000 500000000 sampleUserID Hour).IssuedAt = some 0 := by decide
    rw [this] at hiat
    exact absurd (Option.some.inj hiat) (by decide)
  · rintro ⟨P, seg, iat, exp, hseg, hiat, hexp, hdiff⟩
    rw [MakeJWT_eq] at hseg
    cases hseg
    have h1 : iat = 0 := by
      have : (claimsOf 0 0 sampleUserID 1500000000).IssuedAt = some 0 := by decide
      rw [this] at hiat
      exact (Option.some.inj hiat).symm
    have h2 : exp = 1000000000 := by
      have : (claimsOf 0 0 sampleUserID 1500000000).ExpiresAt = some 1000000000 := by decide
      rw [this] at hexp
      exact (Option.some.inj hexp).symm
    rw [h1, h2] at hdiff
    exact absurd hdiff (by decide)
  · rintro ⟨P, seg, iat, exp, hseg, hiat, hexp, hdiff⟩
    rw [MakeJWT_eq] at hseg
    cases hseg
    have h1 : iat = 0 := by
      have : (claimsOf 999999999 1000000000 sampleUserID Hour).IssuedAt = some 0 := by decide
      rw [this] at hiat
      exact (Option.some.inj hiat).symm
    have h2 : exp = 3601000000000 := by
      have : (claimsOf 999999999 1000000000 sampleUserID Hour).ExpiresAt
          = some 3601000000000 := by decide
      rw [this] at hexp
      exact (Option.some.inj hexp).symm
    rw [h1, h2] at hdiff
    exact absurd hdiff (by decide)

/-- C18: a successful login (status 200) carries the access token that
`MakeJWT` makes with a ttl of exactly one hour (3600 s) for the ID of the user
found by email, and its only write to the store is `CreateRefreshToken` for
that same user ID with the expiry exactly 60 days (5,184,000 s) after the
clock reading; a successful refresh carries the access token made with a ttl
of exactly one hour for the owner returned by the lookup. -/
theorem C18_token_lifetimes {σ : Type} (rt : Runtime) (Db : Queries σ) (cfg : ApiConfig)
    (nowIat nowExp : Time) (randRead : GoString × Option Error) (now : Time) (r : Request)
    (db : σ) :
    ((LoginHandler rt Db cfg nowIat nowExp randRead now r db).response.code = 200 →
      ∃ reqBody u refreshToken,
        rt.decodeCredentials r.Body = (reqBody, none) ∧
        Db.GetUserByEmail db reqBody.Email = (u, none) ∧
        MakeRefreshToken randRead = (refreshToken, none) ∧
        (LoginHandler rt Db cfg nowIat nowExp randRead now r db).response =
          RespondWithJSON StatusOK
            (Payload.login u.toUser
              (MakeJWT rt.P nowIat nowExp u.ID cfg.JWTsecret (3600 * Second)).1 refreshToken) ∧
        (LoginHandler rt Db cfg nowIat nowExp randRead now r db).calls =
          [Call.GetUserByEmail reqBody.Email,
            Call.CreateRefreshToken
              { Token := refreshToken, UserID := u.ID
                ExpiresAt := now + 5184000 * Second }]) ∧
    (∀ out, RefreshTokenHandler rt Db cfg nowIat nowExp r db = .ok out →
      out.response.code = 200 →
      ∃ tok u, GetBearerToken rt.CaseRanges r.Header = (tok, none) ∧
        Db.GetUserFromRefreshToken db tok = (u, none) ∧
        out.response = RespondWithJSON StatusOK
          (Payload.token (MakeJWT rt.P nowIat nowExp u.ID cfg.JWTsecret (3600 * Second)).1)) ∧
    Hour = 3600 * Second ∧ 60 * 24 * Hour = 5184000 * Second :=
  ⟨Login_ok_inv rt Db cfg nowIat nowExp randRead now r db,
    Refresh_ok_inv rt Db cfg nowIat nowExp r db, rfl, by decide⟩

/-- Witness of C18: the sample user logs in with the right password. -/
theorem C18_token_lifetimes_witness :
    (LoginHandler sampleRuntime storeQueries sampleConfig 0 0 (List.replicate 32 0xAB, none)
      (1000 * Second) (sampleRequest [] [] (str "user@example.com\nmysecretpassword"))
      sampleStore).response.code = 200 ∧
    ∃ refreshToken,
      (LoginHandler sampleRuntime storeQueries sampleConfig 0 0 (List.replicate 32 0xAB, none)
        (1000 * Second) (sampleRequest [] [] (str "user@example.com\nmysecretpassword"))
        sampleStore).calls =
        [Call.GetUserByEmail (str "user@example.com"),
          Call.CreateRefreshToken
            { Token := refreshToken, UserID := sampleUserID
              ExpiresAt := 1000 * Second + 5184000 * Second }] :=
  have hcode : (LoginHandler sampleRuntime storeQueries sampleConfig 0 0
      (List.replicate 32 0xAB, none) (1000 * Second)
      (sampleRequest [] [] (str "user@example.com\nmysecretpassword"))
      sampleStore).response.code = 200 := by decide
  have ⟨reqBody, u, refreshToken, hdec, hdb, _, _, hcalls⟩ :=
    (C18_token_lifetimes sampleRuntime storeQueries sampleConfig 0 0
      (List.replicate 32 0xAB, none) (1000 * Second)
      (sampleRequest [] [] (str "user@example.com\nmysecretpassword")) sampleStore).1 hcode
  have hb : reqBody = { Email := str "user@example.com", Password := str "mysecretpassword" } := by
    have h2 : sampleRuntime.decodeCredentials
        (sampleRequest [] [] (str "user@example.com\nmysecretpassword")).Body
        = ({ Email := str "user@example.com", Password := str "mysecretpassword" }, none) := by
      decide
    rw [h2] at hdec
    exact (Prod.mk.inj hdec).1.symm
  have hu : u = sampleUser := by
    subst hb
    have h3 : storeQueries.GetUserByEmail sampleStore (str "user@example.com")
        = (sampleUser, none) := by decide
    rw [h3] at hdb
    exact (Prod.mk.inj hdb).1.symm
  ⟨hcode, refreshToken, by rw [hcalls, hb, hu]; rfl⟩

/-- C19: no index or slice expression of the credential path goes out of
range: `GetBearerToken` and `GetAPIKey` with every `parts[0]` and `parts[1]`
checked return, without panic, the result of the unchecked functions;
`RefreshTokenHandler` and `RevokeTokenHandler`, in which every
`tokenString[:8]` is checked, return without panic on every input; and the
slice is in range for every token that passes the length gate. -/
theorem C19_no_out_of_range :
    (∀ (CaseRanges : List CaseRange) (headers : Header),
      GetBearerTokenChecked CaseRanges headers = .ok (GetBearerToken CaseRanges headers) ∧
      GetAPIKeyChecked CaseRanges headers = .ok (GetAPIKey CaseRanges headers)) ∧
    (∀ (parts : List GoString), parts.length = 2 →
      ∃ p0 p1, index parts 0 = .ok p0 ∧ index parts 1 = .ok p1) ∧
    (∀ (tokenString : GoString), tokenString.length = 64 →
      sliceTo tokenString 8 = .ok (tokenString.take 8)) ∧
    (∀ (σ : Type) (rt : Runtime) (Db : Queries σ) (cfg : ApiConfig) (nowIat nowExp : Time)
        (r : Request) (db : σ),
      ∃ out, RefreshTokenHandler rt Db cfg nowIat nowExp r db = .ok out) ∧
    (∀ (σ : Type) (rt : Runtime) (Db : Queries σ) (r : Request) (db : σ),
      ∃ out, RevokeTokenHandler rt Db r db = .ok out) := by
  refine ⟨fun c h => ⟨GetBearerTokenChecked_eq c h, GetAPIKeyChecked_eq c h⟩, ?_, ?_, ?_, ?_⟩
  · intro parts hlen
    rcases parts with _ | ⟨p0, _ | ⟨p1, _ | ⟨p2, t⟩⟩⟩ <;> simp at hlen
    exact ⟨p0, p1, rfl, rfl⟩
  · intro s hs
    exact sliceTo_ok (by omega)
  · intro σ rt Db cfg nowIat nowExp r db
    obtain ⟨out, hout, _⟩ := Refresh_total rt Db cfg nowIat nowExp r db
    exact ⟨out, hout⟩
  · intro σ rt Db r db
    exact Revoke_total rt Db r db

/-- Witness of C19: the token of the sample store passes the length gate and
its first eight bytes are "00010203". -/
theorem C19_no_out_of_range_witness :
    sampleRefreshToken.length = 64 ∧ sliceTo sampleRefreshToken 8 = .ok (str "00010203") :=
  ⟨by decide, C19_no_out_of_range.2.2.1 sampleRefreshToken (by decide)⟩

/-- C20: `DeleteChirpHandler` calls the store's `DeleteChirp` only for the
chirp ID of the path and only if the request carries an access token that
validates to a user ID equal to the `UserID` of the chirp found under that
ID; when the two IDs differ it responds 403, calls nothing but the lookup and
leaves the store unchanged. -/
theorem C20_only_author_deletes {σ : Type} (rt : Runtime) (Db : Queries σ) (cfg : ApiConfig)
    (now : Time) (r : Request) (db : σ) :
    (∀ id, Call.DeleteChirp id ∈ (DeleteChirpHandler rt Db cfg now r db).calls →
      ∃ tok userID dbChirp,
        UUID.Parse (r.PathValue (str "chirpID")) = (id, none) ∧
        GetBearerToken rt.CaseRanges r.Header = (tok, none) ∧
        ValidateJWT rt.P now (rt.tokenOf tok) cfg.JWTsecret = (userID, none) ∧
        Db.GetChirpByID db id = (dbChirp, none) ∧
        dbChirp.UserID = userID) ∧
    (∀ (chirpID userID : UUID) (tok : GoString) (dbChirp : DbChirp),
      r.PathValue (str "chirpID") ≠ [] →
      UUID.Parse (r.PathValue (str "chirpID")) = (chirpID, none) →
      GetBearerToken rt.CaseRanges r.Header = (tok, none) →
      ValidateJWT rt.P now (rt.tokenOf tok) cfg.JWTsecret = (userID, none) →
      Db.GetChirpByID db chirpID = (dbChirp, none) →
      dbChirp.UserID ≠ userID →
      (DeleteChirpHandler rt Db cfg now r db).response
        = { code := 403
            body := some (Payload.errorResponse
              (str "Недостаточно прав для выполнения этой операции")) } ∧
      (DeleteChirpHandler rt Db cfg now r db).db = db ∧
      (DeleteChirpHandler rt Db cfg now r db).calls = [Call.GetChirpByID chirpID]) := by
  refine ⟨Delete_call_inv rt Db cfg now r db, ?_⟩
  intro chirpID userID tok dbChirp hpath hid hg hv hdb hne
  rw [Delete_forbidden rt Db cfg now r db hpath hid hg hv hdb hne]
  exact ⟨rfl, rfl, rfl⟩

/-- Witness of C20: the second user tries to delete the chirp of the sample
user. -/
theorem C20_only_author_deletes_witness :
    (DeleteChirpHandler sampleRuntime storeQueries sampleConfig 1000000000
      (sampleRequest (str "Bearer " ++ sampleAccessText otherUserID)
        (UUID.String sampleChirpID) []) sampleStore).response.code = 403 ∧
    (DeleteChirpHandler sampleRuntime storeQueries sampleConfig 1000000000
      (sampleRequest (str "Bearer " ++ sampleAccessText otherUserID)
        (UUID.String sampleChirpID) []) sampleStore).db = sampleStore :=
  have h := (C20_only_author_deletes sampleRuntime storeQueries sampleConfig 1000000000
    (sampleRequest (str "Bearer " ++ sampleAccessText otherUserID)
      (UUID.String sampleChirpID) []) sampleStore).2 sampleChirpID otherUserID
    (sampleAccessText otherUserID)
    { ID := sampleChirpID, CreatedAt := 0, UpdatedAt := 0, Body := str "hello",
      UserID := sampleUserID }
    (by decide) (by decide) (by decide) (by decide) (by decide) (by decide)
  ⟨by rw [h.1], h.2.1⟩

/-- C21: POST /admin/reset is announced as resetting the metrics only in dev
mode, yet `ResetmetricsHandler` never reads the platform: for every
configuration the counter `FileserverHits` is 0 afterwards and nothing else
changes.  At the configuration `main` builds when PLATFORM is not set
(platform "production", not "dev") with five hits counted, the handler
answers 200 "Metrics reset" and the counter goes from 5 to 0 instead of
staying unchanged. -/
theorem C21_reset_ignores_platform :
    (∀ cfg : ApiConfig, (ResetmetricsHandler cfg).1 = { cfg with FileserverHits := 0 }) ∧
    productionConfig.Platform = str "production" ∧
    productionConfig.Platform ≠ str "dev" ∧
    productionConfig.FileserverHits = 5 ∧
    (ResetmetricsHandler productionConfig).1.FileserverHits = 0 ∧
    (ResetmetricsHandler productionConfig).2 = { code := 200, body := str "Metrics reset" } :=
  ⟨fun _ => rfl, by decide, by decide, by decide, by decide, by decide⟩

/-- C22: `SortChirps` orders the chirps by the text of `CreatedAt`, which is
not the order of the creation instants.  Two chirps created on January 1,
2024 at 00:00:00.50 and 00:00:00.51 UTC are rendered by `GetChirpsHandler` as
"2024-01-01T00:00:00.5Z" and "2024-01-01T00:00:00.51Z", because RFC3339Nano
drops the zeros at the end of the fraction; the byte "1" sorts before "Z", so
"asc" and the empty sort order return the later chirp first and "desc"
returns the earlier chirp first, the reverse of the chronological order. -/
theorem C22_sorted_by_text_not_by_time :
    earlierChirp.CreatedAt < laterChirp.CreatedAt ∧
    (earlierChirp.toChirp Layout.RFC3339Nano).CreatedAt = str "2024-01-01T00:00:00.5Z" ∧
    (laterChirp.toChirp Layout.RFC3339Nano).CreatedAt = str "2024-01-01T00:00:00.51Z" ∧
    SortChirps [earlierChirp.toChirp Layout.RFC3339Nano, laterChirp.toChirp Layout.RFC3339Nano]
        (str "asc")
      = [laterChirp.toChirp Layout.RFC3339Nano, earlierChirp.toChirp Layout.RFC3339Nano] ∧
    SortChirps [earlierChirp.toChirp Layout.RFC3339Nano, laterChirp.toChirp Layout.RFC3339Nano]
        []
      = [laterChirp.toChirp Layout.RFC3339Nano, earlierChirp.toChirp Layout.RFC3339Nano] ∧
    SortChirps [laterChirp.toChirp Layout.RFC3339Nano, earlierChirp.toChirp Layout.RFC3339Nano]
        (str "desc")
      = [earlierChirp.toChirp Layout.RFC3339Nano, laterChirp.toChirp Layout.RFC3339Nano] ∧
    (GetChirpsHandler storeQueries (sortRequest (str "asc")) chirpStore).response
      = { code := 200
          body := some (Payload.chirps
            [laterChirp.toChirp Layout.RFC3339Nano, earlierChirp.toChirp Layout.RFC3339Nano]) } ∧
    (GetChirpsHandler storeQueries (sortRequest (str "desc")) chirpStore).response
      = { code := 200
          body := some (Payload.chirps
            [earlierChirp.toChirp Layout.RFC3339Nano, laterChirp.toChirp Layout.RFC3339Nano]) } :=
  ⟨by decide, by decide, by decide, by decide, by decide, by decide, by decide, by decide⟩

/-- C23: `CreateChirpHandler` measures the text of a chirp with `len`, in
bytes, not in characters.  The authenticated request of the sample user
whose body decodes to a text of 70 Cyrillic letters (70 characters, 140
bytes) is rejected with 400 and the message that the text must be shorter
than 140 characters; the store is not called and stays unchanged, although
the text is non-empty and has fewer than 140 characters. -/
theorem C23_seventy_letters_rejected :
    GetBearerToken sampleRuntime.CaseRanges seventyLettersRequest.Header
      = (sampleAccessText sampleUserID, none) ∧
    ValidateJWT sampleRuntime.P 1000000000
        (sampleRuntime.tokenOf (sampleAccessText sampleUserID)) sampleConfig.JWTsecret
      = (sampleUserID, none) ∧
    sampleRuntime.decodeChirp seventyLettersRequest.Body = ({ Body := seventyLetters }, none) ∧
    RuneCountInString seventyLetters = 70 ∧
    seventyLetters.length = 140 ∧
    (CreateChirpHandler sampleRuntime storeQueries sampleConfig 1000000000
        seventyLettersRequest sampleStore).response
      = { code := 400
          body := some (Payload.errorResponse (str "поле сhirp не может быть пустым и текс должен быть менее 140 символов")) } ∧
    (CreateChirpHandler sampleRuntime storeQueries sampleConfig 1000000000
        seventyLettersRequest sampleStore).calls = [] ∧
    (CreateChirpHandler sampleRuntime storeQueries sampleConfig 1000000000
        seventyLettersRequest sampleStore).db = sampleStore :=
  ⟨by decide, by decide, by decide, by decide, by decide, by decide, by decide, by decide⟩

/-- C24: for every string `s` and every case table, `DelProfanWords s` is
the result of splitting `s` at every space, replacing a part by "****"
exactly when its lower case is "kerfuffle", "sharbert" or "fornax" and
keeping every other part, and joining the parts with single spaces; the
number of spaces is preserved and `DelProfanWords` is idempotent. -/
theorem C24_DelProfanWords_split_replace_join (CaseRanges : List CaseRange) (s : GoString) :
    DelProfanWords CaseRanges s =
        Join ((Split s 0x20).map (fun part =>
          if ToLower CaseRanges part = str "kerfuffle" ∨
              ToLower CaseRanges part = str "sharbert" ∨
              ToLower CaseRanges part = str "fornax" then str "****"
          else part)) 0x20 ∧
      (DelProfanWords CaseRanges s).count 0x20 = s.count 0x20 ∧
      DelProfanWords CaseRanges (DelProfanWords CaseRanges s) = DelProfanWords CaseRanges s := by
  have hmem : ∀ p ∈ (Split s 0x20).map (replacePart CaseRanges), 0x20 ∉ p := by
    intro p hp
    obtain ⟨q, hq, rfl⟩ := List.mem_map.mp hp
    exact replacePart_not_mem CaseRanges (Split_not_mem hq)
  have hne : (Split s 0x20).map (replacePart CaseRanges) ≠ [] := by
    simpa using Split_ne_nil s 0x20
  refine ⟨DelProfanWords_eq CaseRanges s, ?_, ?_⟩
  · rw [DelProfanWords_eq, splitReplaceJoin, Join_count _ _ hmem, List.length_map, Split_length]
    rfl
  · rw [DelProfanWords_eq CaseRanges s, DelProfanWords_eq, splitReplaceJoin, splitReplaceJoin,
      Split_Join _ _ hne hmem, List.map_map]
    congr 1
    apply List.map_congr_left
    intro p _
    exact replacePart_idem CaseRanges p

end Chirpy
